import Mathlib

/-!
Emakefun agile button: debounced click / long-press state machine

A shallow embedding of `src/button.{h,cpp}` (class `Button`, one callback slot
per event kind) and `src/agile_button.{h,cpp}` (class `AgileButton`, one tagged
event delivered through `SendEvent`).

Conventions of the embedding:
* `uint32_t` and `uint8_t` values are natural numbers; every operation that can
  overflow in the source carries its explicit reduction (`sub32`, `add32`,
  `% 256`).
* `millis()` and `digitalRead(pin_)` are the two inputs of `Tick`; they are the
  arguments `now` and `raw` of the embedded `Tick`.
* pointers (`void*` user parameters) are natural numbers, `0` being `nullptr`;
  a callback / handler pointer is an `Option Nat`, `none` being `nullptr`.
* `Tick` returns the new object state together with the list of events it
  emitted, in program order.
-/

namespace EmakefunButton

/-! ## Machine arithmetic -/

/-- Arduino pin level `HIGH` (from `Arduino.h`). -/
def HIGH : Nat := 1

/-- Arduino pin level `LOW` (from `Arduino.h`). -/
def LOW : Nat := 0

/-- Unsigned 32-bit subtraction `a - b` as the source computes it. -/
def sub32 (a b : Nat) : Nat :=
  (a % 4294967296 + (4294967296 - b % 4294967296)) % 4294967296

/-- Unsigned 32-bit addition `a + b` as the source computes it. -/
def add32 (a b : Nat) : Nat :=
  (a + b) % 4294967296

/-- Post-increment of a `uint8_t`. -/
def inc8 (c : Nat) : Nat :=
  (c + 1) % 256

/-! ## Shared enumerations -/

/-- The private `enum State : uint8_t` (declared identically in both classes). -/
inductive State where
  | kIdle
  | kDown
  | kUp
  | kCount
  | kLongPress
  | kLongPressEnd
  deriving DecidableEq, Repr

/-- The event kinds: `AgileButton::EventType`; for `Button` the kind names the
callback slot that is invoked. -/
inductive EventType where
  | kButtonDown
  | kButtonUp
  | kButtonClick
  | kButtonLongPressBegin
  | kButtonDuringLongPress
  | kButtonLongPressEnd
  deriving DecidableEq, Repr

/-! ## class Button -/

/-- The data members of `Button` (button.h, lines 146-175). -/
structure Button where
  pin_ : Nat
  active_level_ : Nat
  state_ : State
  last_down_time_ : Nat
  last_click_time_ : Nat
  last_during_long_press_notification_time_ : Nat
  during_long_press_notification_interval_ : Nat
  long_press_detected_interval_ : Nat
  multiple_click_detected_interval_ : Nat
  click_count_ : Nat
  last_pin_level_ : Nat
  last_debounced_pin_level_ : Nat
  last_debounce_time_ : Nat
  debounce_duration_ : Nat
  max_click_count_ : Nat
  on_button_down_ : Option Nat
  on_button_up_ : Option Nat
  on_click_ : Option Nat
  on_long_press_begin_ : Option Nat
  on_during_long_press_ : Option Nat
  on_long_press_end_ : Option Nat
  on_button_down_user_parameter_ : Nat
  on_button_up_user_parameter_ : Nat
  on_click_user_parameter_ : Nat
  on_long_press_begin_user_parameter_ : Nat
  on_during_long_press_user_parameter_ : Nat
  on_long_press_end_user_parameter_ : Nat
  deriving DecidableEq, Repr

namespace Button

/-- One guarded callback invocation of `Button::Tick`,
`if (handler != nullptr) handler(user_parameter [, click_count])`:
the event kind, the callback pointer that is tested, and the arguments the
callback receives when the pointer is not null. -/
structure Emit where
  kind : EventType
  handler : Option Nat
  user_parameter : Nat
  click_count : Option Nat
  deriving DecidableEq, Repr

/-- Constructor `Button::Button(pin, active_level, pin_mode)` together with the
default member initialisers of button.h. -/
def new (pin active_level : Nat) : Button :=
  { pin_ := pin
    active_level_ := active_level
    state_ := State.kIdle
    last_down_time_ := 0
    last_click_time_ := 0
    last_during_long_press_notification_time_ := 0
    during_long_press_notification_interval_ := 0
    long_press_detected_interval_ := 800
    multiple_click_detected_interval_ := 400
    click_count_ := 0
    last_pin_level_ := if active_level = HIGH then LOW else HIGH
    last_debounced_pin_level_ := if active_level = HIGH then LOW else HIGH
    last_debounce_time_ := 0
    debounce_duration_ := 50
    max_click_count_ := 1
    on_button_down_ := none
    on_button_up_ := none
    on_click_ := none
    on_long_press_begin_ := none
    on_during_long_press_ := none
    on_long_press_end_ := none
    on_button_down_user_parameter_ := 0
    on_button_up_user_parameter_ := 0
    on_click_user_parameter_ := 0
    on_long_press_begin_user_parameter_ := 0
    on_during_long_press_user_parameter_ := 0
    on_long_press_end_user_parameter_ := 0 }

/-- `Button::SetDebounceDuration`: the `uint32_t` argument is stored in the
`uint8_t` member `debounce_duration_`. -/
def SetDebounceDuration (s : Button) (debounce_duration : Nat) : Button :=
  { s with debounce_duration_ := debounce_duration % 256 }

/-- `Button::SetMultipleClickDetectedInterval`. -/
def SetMultipleClickDetectedInterval (s : Button) (interval : Nat) : Button :=
  { s with multiple_click_detected_interval_ := interval }

/-- `Button::SetLongPressDetectedInterval`. -/
def SetLongPressDetectedInterval (s : Button) (interval : Nat) : Button :=
  { s with long_press_detected_interval_ := interval }

/-- `Button::SetOnButtonDown`. -/
def SetOnButtonDown (s : Button) (on_button_down : Option Nat) (user_parameter : Nat) : Button :=
  { s with on_button_down_ := on_button_down
           on_button_down_user_parameter_ := user_parameter }

/-- `Button::SetOnButtonUp`. -/
def SetOnButtonUp (s : Button) (on_button_up : Option Nat) (user_parameter : Nat) : Button :=
  { s with on_button_up_ := on_button_up
           on_button_up_user_parameter_ := user_parameter }

/-- `Button::SetOnClick`: stores the parameter in
`on_button_down_user_parameter_`; `max` is the Arduino macro. -/
def SetOnClick (s : Button) (on_click : Option Nat) (user_parameter : Nat)
    (max_detected_click_count : Nat) : Button :=
  { s with on_click_ := on_click
           on_button_down_user_parameter_ := user_parameter
           max_click_count_ :=
             (if 1 > max_detected_click_count % 256 then 1 else max_detected_click_count % 256) % 256 }

/-- `Button::SetOnLongPressBegin`. -/
def SetOnLongPressBegin (s : Button) (on_long_press_begin : Option Nat) (user_parameter : Nat) :
    Button :=
  { s with on_long_press_begin_ := on_long_press_begin
           on_long_press_begin_user_parameter_ := user_parameter }

/-- `Button::SetOnDuringLongPress`. -/
def SetOnDuringLongPress (s : Button) (on_during_long_press : Option Nat) (user_parameter : Nat)
    (during_long_press_notification_interval : Nat) : Button :=
  { s with on_during_long_press_ := on_during_long_press
           on_during_long_press_user_parameter_ := user_parameter
           during_long_press_notification_interval_ := during_long_press_notification_interval }

/-- `Button::SetOnLongPressEnd`: stores the parameter in
`on_long_press_begin_user_parameter_`. -/
def SetOnLongPressEnd (s : Button) (on_long_press_end : Option Nat) (user_parameter : Nat) :
    Button :=
  { s with on_long_press_end_ := on_long_press_end
           on_long_press_begin_user_parameter_ := user_parameter }

/-- `Button::Debounce(value, now)`: the updated object and the returned level. -/
def Debounce (s : Button) (value now : Nat) : Button × Nat :=
  if value = s.last_pin_level_ then
    if sub32 now s.last_debounce_time_ ≥ s.debounce_duration_ then
      ({ s with last_debounced_pin_level_ := value }, value)
    else
      (s, s.last_debounced_pin_level_)
  else
    ({ s with last_debounce_time_ := now, last_pin_level_ := value },
      s.last_debounced_pin_level_)

/-- The `switch (state_)` of `Button::Tick` (button.cpp, lines 60-127), for the
value `active` computed on line 58 and the time `now` read on line 57. -/
def step (s : Button) (active : Bool) (now : Nat) : Button × List Emit :=
  match s.state_ with
  | State.kIdle =>
    if active then
      ({ s with state_ := State.kDown, last_down_time_ := now },
        [⟨EventType.kButtonDown, s.on_button_down_, s.on_button_down_user_parameter_, none⟩])
    else (s, [])
  | State.kDown =>
    if !active then
      ({ s with click_count_ := inc8 s.click_count_
                state_ := State.kCount
                last_click_time_ := now },
        [⟨EventType.kButtonUp, s.on_button_up_, s.on_button_up_user_parameter_, none⟩])
    else if active && sub32 now s.last_down_time_ ≥ s.long_press_detected_interval_ then
      ({ s with state_ := State.kLongPress
                last_during_long_press_notification_time_ := now },
        [⟨EventType.kButtonLongPressBegin, s.on_long_press_begin_,
          s.on_long_press_begin_user_parameter_, none⟩])
    else (s, [])
  | State.kCount =>
    if active then
      ({ s with state_ := State.kDown, last_down_time_ := now },
        [⟨EventType.kButtonDown, s.on_button_down_, s.on_button_down_user_parameter_, none⟩])
    else if s.click_count_ ≥ s.max_click_count_ ∨
        sub32 now s.last_click_time_ ≥ s.multiple_click_detected_interval_ then
      ({ s with state_ := State.kIdle, click_count_ := 0 },
        [⟨EventType.kButtonClick, s.on_click_, s.on_click_user_parameter_, some s.click_count_⟩])
    else (s, [])
  | State.kLongPress =>
    if !active then
      ({ s with state_ := State.kIdle },
        [⟨EventType.kButtonUp, s.on_button_up_, s.on_button_up_user_parameter_, none⟩,
         ⟨EventType.kButtonLongPressEnd, s.on_long_press_end_,
          s.on_long_press_begin_user_parameter_, none⟩])
    else if sub32 now s.last_during_long_press_notification_time_ ≥
        s.during_long_press_notification_interval_ then
      ({ s with last_during_long_press_notification_time_ := now },
        [⟨EventType.kButtonDuringLongPress, s.on_during_long_press_,
          s.on_during_long_press_user_parameter_, none⟩])
    else (s, [])
  | _ => (s, [])

/-- `Button::Tick()` with `millis() = now` and `digitalRead(pin_) = raw`
(the `uint8_t` parameter of `Debounce` receives `raw` reduced to 8 bits). -/
def Tick (s : Button) (raw now : Nat) : Button × List Emit :=
  let d := Debounce s (raw % 256) now
  step d.1 (decide (d.2 = s.active_level_)) now

end Button

/-! ## class AgileButton -/

/-- `AgileButton::Event`, with the extra member of the derived
`ButtonClickEvent` (`some` exactly for `kButtonClick`). -/
structure Event where
  event_type : EventType
  user_parameter : Nat
  click_count : Option Nat
  deriving DecidableEq, Repr

/-- The data members of `AgileButton` (agile_button.h, lines 93-112). -/
structure AgileButton where
  pin_ : Nat
  active_level_ : Nat
  active_ : Bool
  state_ : State
  last_down_time_ : Nat
  last_click_time_ : Nat
  last_during_long_press_notification_time_ : Nat
  during_long_press_notification_interval_ : Nat
  long_press_detected_interval_ : Nat
  multiple_click_detected_interval_ : Nat
  click_count_ : Nat
  debounce_start_time_ : Nat
  debouncing_value_ : Bool
  debounce_duration_ : Nat
  max_click_count_ : Nat
  user_parameter_ : Nat
  on_button_event_ : Option Nat
  event_handler_ : Option Nat
  deriving DecidableEq, Repr

namespace AgileButton

/-- Constructor `AgileButton::AgileButton(pin, active_level, pin_mode)` together
with the default member initialisers of agile_button.h. -/
def new (pin active_level : Nat) : AgileButton :=
  { pin_ := pin
    active_level_ := active_level
    active_ := false
    state_ := State.kIdle
    last_down_time_ := 0
    last_click_time_ := 0
    last_during_long_press_notification_time_ := 0
    during_long_press_notification_interval_ := 100
    long_press_detected_interval_ := 800
    multiple_click_detected_interval_ := 400
    click_count_ := 0
    debounce_start_time_ := 0
    debouncing_value_ := false
    debounce_duration_ := 50
    max_click_count_ := 1
    user_parameter_ := 0
    on_button_event_ := none
    event_handler_ := none }

/-- `AgileButton::SetDebounceDuration`: the `uint32_t` argument is stored in the
`uint8_t` member `debounce_duration_`. -/
def SetDebounceDuration (s : AgileButton) (debounce_duration : Nat) : AgileButton :=
  { s with debounce_duration_ := debounce_duration % 256 }

/-- `AgileButton::SetMultipleClickDetectedInterval`. -/
def SetMultipleClickDetectedInterval (s : AgileButton) (interval : Nat) : AgileButton :=
  { s with multiple_click_detected_interval_ := interval }

/-- `AgileButton::SetMaxDetectedClickCount`. -/
def SetMaxDetectedClickCount (s : AgileButton) (count : Nat) : AgileButton :=
  { s with max_click_count_ := count % 256 }

/-- `AgileButton::SetEventHandler(const OnButtonEvent, void*)`. -/
def SetEventHandlerFn (s : AgileButton) (on_button_event : Option Nat) (user_parameter : Nat) :
    AgileButton :=
  { s with on_button_event_ := on_button_event, user_parameter_ := user_parameter }

/-- `AgileButton::SetEventHandler(const EventHandler*, void*)`. -/
def SetEventHandlerObj (s : AgileButton) (event_handler : Option Nat) (user_parameter : Nat) :
    AgileButton :=
  { s with event_handler_ := event_handler, user_parameter_ := user_parameter }

/-- `AgileButton::SetLongPressDetectedInterval`. -/
def SetLongPressDetectedInterval (s : AgileButton) (interval : Nat) : AgileButton :=
  { s with long_press_detected_interval_ := interval }

/-- The debouncing block of `AgileButton::Tick` (agile_button.cpp, lines 39-46). -/
def debounce (s : AgileButton) (raw now : Nat) : AgileButton :=
  if decide (raw = s.active_level_) = s.debouncing_value_ then
    if add32 s.debounce_start_time_ s.debounce_duration_ ≤ now then
      { s with active_ := s.debouncing_value_ }
    else s
  else
    { s with debounce_start_time_ := now, debouncing_value_ := !s.debouncing_value_ }

/-- The `switch (state_)` of `AgileButton::Tick` (agile_button.cpp, lines
48-100); the list holds the arguments of the `SendEvent` calls, in order. -/
def step (s : AgileButton) (now : Nat) : AgileButton × List Event :=
  match s.state_ with
  | State.kIdle =>
    if s.active_ then
      ({ s with state_ := State.kDown, last_down_time_ := now },
        [⟨EventType.kButtonDown, s.user_parameter_, none⟩])
    else (s, [])
  | State.kDown =>
    if !s.active_ then
      ({ s with click_count_ := inc8 s.click_count_
                state_ := State.kCount
                last_click_time_ := now },
        [⟨EventType.kButtonUp, s.user_parameter_, none⟩])
    else if s.active_ && sub32 now s.last_down_time_ ≥ s.long_press_detected_interval_ then
      ({ s with state_ := State.kLongPress
                last_during_long_press_notification_time_ := now },
        [⟨EventType.kButtonLongPressBegin, s.user_parameter_, none⟩])
    else (s, [])
  | State.kCount =>
    if s.active_ then
      ({ s with state_ := State.kDown, last_down_time_ := now },
        [⟨EventType.kButtonDown, s.user_parameter_, none⟩])
    else if s.click_count_ ≥ s.max_click_count_ ∨
        sub32 now s.last_click_time_ ≥ s.multiple_click_detected_interval_ then
      ({ s with state_ := State.kIdle, click_count_ := 0 },
        [⟨EventType.kButtonClick, s.user_parameter_, some s.click_count_⟩])
    else (s, [])
  | State.kLongPress =>
    if !s.active_ then
      ({ s with state_ := State.kIdle },
        [⟨EventType.kButtonUp, s.user_parameter_, none⟩,
         ⟨EventType.kButtonLongPressEnd, s.user_parameter_, none⟩])
    else if sub32 now s.last_during_long_press_notification_time_ ≥
        s.during_long_press_notification_interval_ then
      ({ s with last_during_long_press_notification_time_ := now },
        [⟨EventType.kButtonDuringLongPress, s.user_parameter_, none⟩])
    else (s, [])
  | _ => (s, [])

/-- `AgileButton::Tick()` with `millis() = now` and `digitalRead(pin_) = raw`. -/
def Tick (s : AgileButton) (raw now : Nat) : AgileButton × List Event :=
  step (debounce s raw now) now

/-- Which of the two sinks of an `AgileButton` receives a call. -/
inductive Sink where
  | object
  | function
  deriving DecidableEq, Repr

/-- `AgileButton::SendEvent(event)`: the handler calls it makes, in order. -/
def SendEvent (s : AgileButton) (event : Event) : List (Sink × Nat × Event) :=
  (match s.event_handler_ with
    | some h => [(Sink.object, h, event)]
    | none => []) ++
  (match s.on_button_event_ with
    | some f => [(Sink.function, f, event)]
    | none => [])

end AgileButton

/-! ## Runs -/

namespace Button

/-- A call of the public interface of `Button`. -/
inductive Call where
  | SetDebounceDuration (debounce_duration : Nat)
  | SetMultipleClickDetectedInterval (interval : Nat)
  | SetLongPressDetectedInterval (interval : Nat)
  | SetOnButtonDown (on_button_down : Option Nat) (user_parameter : Nat)
  | SetOnButtonUp (on_button_up : Option Nat) (user_parameter : Nat)
  | SetOnClick (on_click : Option Nat) (user_parameter : Nat) (max_detected_click_count : Nat)
  | SetOnLongPressBegin (on_long_press_begin : Option Nat) (user_parameter : Nat)
  | SetOnDuringLongPress (on_during_long_press : Option Nat) (user_parameter : Nat)
      (during_long_press_notification_interval : Nat)
  | SetOnLongPressEnd (on_long_press_end : Option Nat) (user_parameter : Nat)
  | Tick (raw now : Nat)
  deriving DecidableEq, Repr

/-- Whether a call is a call of `Tick` (the other calls configure the object). -/
def Call.isTick : Call → Bool
  | Call.Tick _ _ => true
  | _ => false

/-- The effect of one call: the new object and the events emitted by it. -/
def call (s : Button) : Call → Button × List Emit
  | Call.SetDebounceDuration d => (s.SetDebounceDuration d, [])
  | Call.SetMultipleClickDetectedInterval i => (s.SetMultipleClickDetectedInterval i, [])
  | Call.SetLongPressDetectedInterval i => (s.SetLongPressDetectedInterval i, [])
  | Call.SetOnButtonDown f p => (s.SetOnButtonDown f p, [])
  | Call.SetOnButtonUp f p => (s.SetOnButtonUp f p, [])
  | Call.SetOnClick f p c => (s.SetOnClick f p c, [])
  | Call.SetOnLongPressBegin f p => (s.SetOnLongPressBegin f p, [])
  | Call.SetOnDuringLongPress f p i => (s.SetOnDuringLongPress f p i, [])
  | Call.SetOnLongPressEnd f p => (s.SetOnLongPressEnd f p, [])
  | Call.Tick raw now => s.Tick raw now

/-- The object after a sequence of calls. -/
def after (s : Button) : List Call → Button
  | [] => s
  | c :: cs => after (s.call c).1 cs

/-- For each call of a sequence, the kinds of the events it emits, in order. -/
def emitted (s : Button) : List Call → List (List EventType)
  | [] => []
  | c :: cs => (s.call c).2.map Emit.kind :: emitted (s.call c).1 cs

/-- The click counts carried by the Click events of a sequence of calls, one
entry per emitted Click event, in order. -/
def clicks (s : Button) : List Call → List (Option Nat)
  | [] => []
  | c :: cs =>
    ((s.call c).2.filter (fun e => decide (e.kind = EventType.kButtonClick))).map
        Emit.click_count ++
      clicks (s.call c).1 cs

/-- A run of ticks `(raw, now)` as a sequence of calls. -/
def ticks (ts : List (Nat × Nat)) : List Call :=
  ts.map (fun t => Call.Tick t.1 t.2)

/-- A run of ticks `(raw, now)` without reconfiguration: every emitted event
with the time of its tick, its kind and its click count. -/
def timeline (s : Button) : List (Nat × Nat) → List (Nat × EventType × Option Nat)
  | [] => []
  | t :: ts =>
    (s.Tick t.1 t.2).2.map (fun e => (t.2, e.kind, e.click_count)) ++
      timeline (s.Tick t.1 t.2).1 ts

/-- The debounced input of the state machine on each tick of a run: whether the
debounced level is the active level, and the time of the tick. -/
def levels (s : Button) : List (Nat × Nat) → List (Bool × Nat)
  | [] => []
  | t :: ts =>
    (decide ((s.Debounce (t.1 % 256) t.2).2 = s.active_level_), t.2) ::
      levels (s.Tick t.1 t.2).1 ts

end Button

namespace AgileButton

/-- A call of the public interface of `AgileButton`. -/
inductive Call where
  | SetDebounceDuration (debounce_duration : Nat)
  | SetMultipleClickDetectedInterval (interval : Nat)
  | SetMaxDetectedClickCount (count : Nat)
  | SetEventHandlerFn (on_button_event : Option Nat) (user_parameter : Nat)
  | SetEventHandlerObj (event_handler : Option Nat) (user_parameter : Nat)
  | SetLongPressDetectedInterval (interval : Nat)
  | Tick (raw now : Nat)
  deriving DecidableEq, Repr

/-- Whether a call is a call of `Tick` (the other calls configure the object). -/
def Call.isTick : Call → Bool
  | Call.Tick _ _ => true
  | _ => false

/-- The effect of one call: the new object and the events emitted by it. -/
def call (s : AgileButton) : Call → AgileButton × List Event
  | Call.SetDebounceDuration d => (s.SetDebounceDuration d, [])
  | Call.SetMultipleClickDetectedInterval i => (s.SetMultipleClickDetectedInterval i, [])
  | Call.SetMaxDetectedClickCount c => (s.SetMaxDetectedClickCount c, [])
  | Call.SetEventHandlerFn f p => (s.SetEventHandlerFn f p, [])
  | Call.SetEventHandlerObj h p => (s.SetEventHandlerObj h p, [])
  | Call.SetLongPressDetectedInterval i => (s.SetLongPressDetectedInterval i, [])
  | Call.Tick raw now => s.Tick raw now

/-- The object after a sequence of calls. -/
def after (s : AgileButton) : List Call → AgileButton
  | [] => s
  | c :: cs => after (s.call c).1 cs

/-- For each call of a sequence, the kinds of the events it emits, in order. -/
def emitted (s : AgileButton) : List Call → List (List EventType)
  | [] => []
  | c :: cs => (s.call c).2.map Event.event_type :: emitted (s.call c).1 cs

/-- The click counts carried by the Click events of a sequence of calls, one
entry per emitted Click event, in order. -/
def clicks (s : AgileButton) : List Call → List (Option Nat)
  | [] => []
  | c :: cs =>
    ((s.call c).2.filter (fun e => decide (e.event_type = EventType.kButtonClick))).map
        Event.click_count ++
      clicks (s.call c).1 cs

/-- A run of ticks `(raw, now)` as a sequence of calls. -/
def ticks (ts : List (Nat × Nat)) : List Call :=
  ts.map (fun t => Call.Tick t.1 t.2)

/-- A run of ticks `(raw, now)` without reconfiguration: every emitted event
with the time of its tick, its kind and its click count. -/
def timeline (s : AgileButton) : List (Nat × Nat) → List (Nat × EventType × Option Nat)
  | [] => []
  | t :: ts =>
    (s.Tick t.1 t.2).2.map (fun e => (t.2, e.event_type, e.click_count)) ++
      timeline (s.Tick t.1 t.2).1 ts

/-- The debounced input of the state machine on each tick of a run: the member
`active_` after the debouncing block, and the time of the tick. -/
def levels (s : AgileButton) : List (Nat × Nat) → List (Bool × Nat)
  | [] => []
  | t :: ts => ((s.debounce t.1 t.2).active_, t.2) :: levels (s.Tick t.1 t.2).1 ts

end AgileButton

/-- A raw input polled once per millisecond at `0, 1, ..., n - 1`: the pin
reads `activeLevel` at the times where `pressed` holds and `idleLevel`
elsewhere. -/
def polled (activeLevel idleLevel : Nat) (pressed : Nat → Bool) (n : Nat) : List (Nat × Nat) :=
  (List.range n).map (fun t => (if pressed t then activeLevel else idleLevel, t))

/-! ## Vocabulary of the trace properties -/

/-- The two event kinds of the Down/Up pairing. -/
def isDownUp : EventType → Bool
  | EventType.kButtonDown => true
  | EventType.kButtonUp => true
  | _ => false

/-- The strictly alternating sequence of `n` ButtonDown / ButtonUp events; it
begins with ButtonUp when `up` is set and with ButtonDown otherwise. -/
def alternation : Bool → Nat → List EventType
  | _, 0 => []
  | false, n + 1 => EventType.kButtonDown :: alternation true n
  | true, n + 1 => EventType.kButtonUp :: alternation false n

/-- A press is in progress: the state machine of a `Button` is in Down or in
LongPress. -/
def Button.pressed (s : Button) : Bool :=
  decide (s.state_ = State.kDown) || decide (s.state_ = State.kLongPress)

/-- A press is in progress: the state machine of an `AgileButton` is in Down or
in LongPress. -/
def AgileButton.pressed (s : AgileButton) : Bool :=
  decide (s.state_ = State.kDown) || decide (s.state_ = State.kLongPress)

/-- Invariant of the runs of a `Button` without reconfiguration: the maximum is
a positive 8-bit value, the click counter is below it except in Counting, and a
counter that has reached the maximum in Counting goes with a debouncer that has
just committed the inactive level. -/
def Button.CountInv (s : Button) : Prop :=
  1 ≤ s.max_click_count_ ∧ s.max_click_count_ ≤ 255 ∧
    match s.state_ with
    | State.kIdle => s.click_count_ < s.max_click_count_
    | State.kDown =>
      s.click_count_ < s.max_click_count_ ∧ s.last_debounced_pin_level_ = s.active_level_
    | State.kCount =>
      1 ≤ s.click_count_ ∧ s.click_count_ ≤ s.max_click_count_ ∧
        (s.click_count_ = s.max_click_count_ →
          s.last_debounced_pin_level_ = s.last_pin_level_ ∧
            s.last_debounced_pin_level_ ≠ s.active_level_)
    | State.kLongPress => s.click_count_ < s.max_click_count_
    | _ => False

/-- Invariant of the runs of an `AgileButton` without reconfiguration (see
`Button.CountInv`). -/
def AgileButton.CountInv (s : AgileButton) : Prop :=
  1 ≤ s.max_click_count_ ∧ s.max_click_count_ ≤ 255 ∧
    match s.state_ with
    | State.kIdle => s.click_count_ < s.max_click_count_
    | State.kDown => s.click_count_ < s.max_click_count_ ∧ s.active_ = true
    | State.kCount =>
      1 ≤ s.click_count_ ∧ s.click_count_ ≤ s.max_click_count_ ∧
        (s.click_count_ = s.max_click_count_ →
          s.active_ = s.debouncing_value_ ∧ s.active_ = false)
    | State.kLongPress => s.click_count_ < s.max_click_count_
    | _ => False

/-- Invariant of every run of a `Button`: in state Down the debounced level is
the active level. -/
def Button.DownInv (s : Button) : Prop :=
  s.state_ = State.kDown → s.last_debounced_pin_level_ = s.active_level_

/-- Invariant of every run of an `AgileButton`: in state Down the debounced
value `active_` is set. -/
def AgileButton.DownInv (s : AgileButton) : Prop :=
  s.state_ = State.kDown → s.active_ = true

/-- The raw input of the two-click scenario: pin at the active level on
`[0, 100)` and `[300, 400)`, polled at every millisecond below `n`. -/
def twoClicks (activeLevel idleLevel n : Nat) : List (Nat × Nat) :=
  polled activeLevel idleLevel (fun t => decide (t < 100) || (decide (300 ≤ t) && decide (t < 400))) n

/-- A click followed within the multi-click window by a second press that is
held into a long press and then released (active level `a`, idle level `i`;
each entry is `(raw, now)`). -/
def abandonedBurst (a i : Nat) : List (Nat × Nat) :=
  [(a, 0), (a, 50), (i, 100), (i, 150), (a, 200), (a, 250), (a, 1050), (i, 1300), (i, 1350)]

/-- One single click, long after `abandonedBurst`. -/
def laterSingleClick (a i : Nat) : List (Nat × Nat) :=
  [(a, 2000), (a, 2050), (i, 2100), (i, 2150), (i, 2151)]

/-- A `Button` (active LOW, default settings) in state Down: the press was
debounced at time 50. -/
def Button.sampleDown : Button :=
  (Button.new 2 LOW).after (Button.ticks [(LOW, 0), (LOW, 50)])

/-- An `AgileButton` (active LOW, default settings) in state Down, with the
debounced level still active. -/
def AgileButton.sampleDown : AgileButton :=
  (AgileButton.new 2 LOW).after (AgileButton.ticks [(LOW, 0), (LOW, 50)])

/-- A `Button` in state Counting after one click (released at time 150). -/
def Button.sampleCounting : Button :=
  (Button.new 2 LOW).after (Button.ticks [(LOW, 0), (LOW, 50), (HIGH, 100), (HIGH, 150)])

/-- An `AgileButton` in state Counting after one click, the debounced level
inactive. -/
def AgileButton.sampleCounting : AgileButton :=
  (AgileButton.new 2 LOW).after
    (AgileButton.ticks [(LOW, 0), (LOW, 50), (HIGH, 100), (HIGH, 150)])

/-- A `Button` in state LongPress (long press begun at time 850). -/
def Button.sampleLongPress : Button :=
  (Button.new 2 LOW).after (Button.ticks [(LOW, 0), (LOW, 50), (LOW, 850)])

/-- An `AgileButton` in state LongPress, the debounced level still active. -/
def AgileButton.sampleLongPress : AgileButton :=
  (AgileButton.new 2 LOW).after (AgileButton.ticks [(LOW, 0), (LOW, 50), (LOW, 850)])

/-! ## The state machine on its own

The two `switch (state_)` blocks read and write the same nine members. `Fsm`
holds those members and `Fsm.step` is their common transition; the theorems
`Button.step_fsm` and `AgileButton.agile_step_fsm` show that each embedded
`step` projects onto it. -/

/-- The members used by the `switch (state_)` of `Tick`. -/
structure Fsm where
  state_ : State
  last_down_time_ : Nat
  last_click_time_ : Nat
  last_during_long_press_notification_time_ : Nat
  during_long_press_notification_interval_ : Nat
  long_press_detected_interval_ : Nat
  multiple_click_detected_interval_ : Nat
  click_count_ : Nat
  max_click_count_ : Nat
  deriving DecidableEq, Repr

/-- The state-machine members of a `Button`. -/
def Button.fsm (s : Button) : Fsm :=
  { state_ := s.state_
    last_down_time_ := s.last_down_time_
    last_click_time_ := s.last_click_time_
    last_during_long_press_notification_time_ := s.last_during_long_press_notification_time_
    during_long_press_notification_interval_ := s.during_long_press_notification_interval_
    long_press_detected_interval_ := s.long_press_detected_interval_
    multiple_click_detected_interval_ := s.multiple_click_detected_interval_
    click_count_ := s.click_count_
    max_click_count_ := s.max_click_count_ }

/-- The state-machine members of an `AgileButton`. -/
def AgileButton.fsm (s : AgileButton) : Fsm :=
  { state_ := s.state_
    last_down_time_ := s.last_down_time_
    last_click_time_ := s.last_click_time_
    last_during_long_press_notification_time_ := s.last_during_long_press_notification_time_
    during_long_press_notification_interval_ := s.during_long_press_notification_interval_
    long_press_detected_interval_ := s.long_press_detected_interval_
    multiple_click_detected_interval_ := s.multiple_click_detected_interval_
    click_count_ := s.click_count_
    max_click_count_ := s.max_click_count_ }

namespace Fsm

/-- The transition of the `switch (state_)` of `Button::Tick` and of
`AgileButton::Tick` on the debounced level `active` at time `now`, with the
kind and click count of each emitted event. -/
def step (f : Fsm) (active : Bool) (now : Nat) : Fsm × List (EventType × Option Nat) :=
  match f.state_ with
  | State.kIdle =>
    if active then
      ({ f with state_ := State.kDown, last_down_time_ := now }, [(EventType.kButtonDown, none)])
    else (f, [])
  | State.kDown =>
    if !active then
      ({ f with click_count_ := inc8 f.click_count_
                state_ := State.kCount
                last_click_time_ := now },
        [(EventType.kButtonUp, none)])
    else if active && sub32 now f.last_down_time_ ≥ f.long_press_detected_interval_ then
      ({ f with state_ := State.kLongPress
                last_during_long_press_notification_time_ := now },
        [(EventType.kButtonLongPressBegin, none)])
    else (f, [])
  | State.kCount =>
    if active then
      ({ f with state_ := State.kDown, last_down_time_ := now }, [(EventType.kButtonDown, none)])
    else if f.click_count_ ≥ f.max_click_count_ ∨
        sub32 now f.last_click_time_ ≥ f.multiple_click_detected_interval_ then
      ({ f with state_ := State.kIdle, click_count_ := 0 },
        [(EventType.kButtonClick, some f.click_count_)])
    else (f, [])
  | State.kLongPress =>
    if !active then
      ({ f with state_ := State.kIdle },
        [(EventType.kButtonUp, none), (EventType.kButtonLongPressEnd, none)])
    else if sub32 now f.last_during_long_press_notification_time_ ≥
        f.during_long_press_notification_interval_ then
      ({ f with last_during_long_press_notification_time_ := now },
        [(EventType.kButtonDuringLongPress, none)])
    else (f, [])
  | _ => (f, [])

/-- The state machine run over a sequence of debounced inputs `(active, now)`:
the final members and all emitted events. -/
def run (f : Fsm) : List (Bool × Nat) → Fsm × List (EventType × Option Nat)
  | [] => (f, [])
  | x :: xs => ((run (f.step x.1 x.2).1 xs).1, (f.step x.1 x.2).2 ++ (run (f.step x.1 x.2).1 xs).2)

/-- The click counts of the Click events among emitted events. -/
def clicksOf (es : List (EventType × Option Nat)) : List (Option Nat) :=
  (es.filter (fun e => decide (e.1 = EventType.kButtonClick))).map Prod.snd

end Fsm

/-- One press/release cycle of the debounced level, by the times of its ticks:
the tick on which the level becomes active, the later ticks on which it is
still active, the tick on which it becomes inactive, and the later ticks on
which it is still inactive. -/
structure Cycle where
  press : Nat
  holds : List Nat
  release : Nat
  gaps : List Nat
  deriving DecidableEq, Repr

/-- The debounced inputs `(active, now)` of one cycle. -/
def Cycle.levels (c : Cycle) : List (Bool × Nat) :=
  (true, c.press) :: (c.holds.map (fun t => (true, t)) ++
    (false, c.release) :: c.gaps.map (fun t => (false, t)))

/-- The debounced inputs of a run that is inactive on the ticks `pre` and then
performs the given press/release cycles. -/
def burst (pre : List Nat) (cycles : List Cycle) : List (Bool × Nat) :=
  pre.map (fun t => (false, t)) ++ cycles.flatMap Cycle.levels

/-- A two-click input whose second press is debounced exactly one multi-click
window (400) after the first release, on a clock that stays at 410 for three
consecutive ticks (active level `a`, idle level `i`, debounce duration 0). -/
def boundaryTicks (a i : Nat) : List (Nat × Nat) :=
  [(a, 0), (a, 0), (i, 10), (i, 10), (i, 410), (a, 410), (a, 410), (i, 420), (i, 420), (i, 820)]

/-- The two press/release cycles of the debounced level on `boundaryTicks`. -/
def boundaryCycles : List Cycle :=
  [{ press := 0, holds := [10], release := 10, gaps := [410, 410] },
   { press := 410, holds := [420], release := 420, gaps := [820] }]

/-- A double click sampled on twelve ticks (active level `a`, idle level `i`,
debounce duration 50). -/
def doubleClickTicks (a i : Nat) : List (Nat × Nat) :=
  [(i, 0), (a, 10), (a, 60), (a, 100), (i, 110), (i, 160), (i, 200), (a, 300), (a, 350),
   (i, 400), (i, 450), (i, 451)]

/-- The first press/release cycle of the debounced level on `doubleClickTicks`. -/
def doubleClickFirst : Cycle :=
  { press := 60, holds := [100, 110], release := 160, gaps := [200, 300] }

/-- The second press/release cycle of the debounced level on
`doubleClickTicks`. -/
def doubleClickSecond : Cycle :=
  { press := 350, holds := [400], release := 450, gaps := [451] }

/-! ## Handler calls -/

/-- All guarded callback invocations of a `Button` over a sequence of calls, in
program order. -/
def Button.emits (s : Button) : List Button.Call → List Button.Emit
  | [] => []
  | c :: cs => (s.call c).2 ++ Button.emits (s.call c).1 cs

/-- The handler calls made by one `AgileButton::Tick()`: every event of the
tick goes through `SendEvent`, in order. -/
def AgileButton.deliveries (s : AgileButton) (raw now : Nat) : List (AgileButton.Sink × Nat × Event) :=
  (s.Tick raw now).2.flatMap s.SendEvent

/-- A `Button` on which all six handlers are registered, with the callback
pointers 1 to 6 and the user parameters 11 to 16, in the order of the setters
in button.h. -/
def Button.sampleRegistered : Button :=
  (Button.new 2 LOW).after
    [Button.Call.SetOnButtonDown (some 1) 11, Button.Call.SetOnButtonUp (some 2) 12,
     Button.Call.SetOnClick (some 3) 13 1, Button.Call.SetOnLongPressBegin (some 4) 14,
     Button.Call.SetOnDuringLongPress (some 5) 15 100,
     Button.Call.SetOnLongPressEnd (some 6) 16]

/-- One click followed by one long press with one repeat (active level `a`,
idle level `i`). -/
def clickThenLongPress (a i : Nat) : List (Nat × Nat) :=
  [(a, 0), (a, 50), (i, 100), (i, 150), (i, 151), (a, 1000), (a, 1050), (a, 1850), (a, 1950),
   (i, 2000), (i, 2050)]

/-- A `Button` whose debouncer has seen the active level since time 0. -/
def Button.sampleDebouncing : Button :=
  (Button.new 2 LOW).after (Button.ticks [(LOW, 0)])

/-- One tick of a run as the state machine sees it: the state before the tick,
the debounced level, the time, and the kinds of the events emitted. -/
structure TickRecord where
  state : State
  active : Bool
  now : Nat
  events : List EventType
  deriving DecidableEq, Repr

/-- The tick records of a run of ticks `(raw, now)` of a `Button`. -/
def Button.history (s : Button) : List (Nat × Nat) → List TickRecord
  | [] => []
  | t :: ts =>
    { state := s.state_
      active := decide ((s.Debounce (t.1 % 256) t.2).2 = s.active_level_)
      now := t.2
      events := (s.Tick t.1 t.2).2.map Button.Emit.kind } ::
      Button.history (s.Tick t.1 t.2).1 ts

/-- The tick records of a run of ticks `(raw, now)` of an `AgileButton`. -/
def AgileButton.history (s : AgileButton) : List (Nat × Nat) → List TickRecord
  | [] => []
  | t :: ts =>
    { state := s.state_
      active := (s.debounce t.1 t.2).active_
      now := t.2
      events := (s.Tick t.1 t.2).2.map Event.event_type } ::
      AgileButton.history (s.Tick t.1 t.2).1 ts

/-- The tick records of the state machine run over debounced inputs. -/
def Fsm.history (f : Fsm) : List (Bool × Nat) → List TickRecord
  | [] => []
  | x :: xs =>
    { state := f.state_
      active := x.1
      now := x.2
      events := (f.step x.1 x.2).2.map Prod.fst } ::
      Fsm.history (f.step x.1 x.2).1 xs

/-- A raw input held active on `[0, 2000)` and polled once per millisecond
below `n` (active level `a`, idle level `i`). -/
def longHold (a i n : Nat) : List (Nat × Nat) :=
  polled a i (fun t => decide (t < 2000)) n

/-- A press debounced at 50, long press at 850, polled again at 900 and 950
(active level `a`). -/
def heldPressSparse (a : Nat) : List (Nat × Nat) :=
  [(a, 0), (a, 50), (a, 850), (a, 900), (a, 950)]

/-! ## Correspondence of the two variants -/

/-- A `Button` and an `AgileButton` that correspond: the same state-machine
members, the same active level (one of the two pin levels), the same debounce
bookkeeping up to the representation of the levels (`debouncing_value_` is
"`last_pin_level_` is the active level", `active_` is
"`last_debounced_pin_level_` is the active level"). -/
def Twin (b : Button) (a : AgileButton) : Prop :=
  b.fsm = a.fsm ∧ b.active_level_ = a.active_level_ ∧
    (b.active_level_ = LOW ∨ b.active_level_ = HIGH) ∧
    (b.last_pin_level_ = LOW ∨ b.last_pin_level_ = HIGH) ∧
    a.debouncing_value_ = decide (b.last_pin_level_ = b.active_level_) ∧
    a.active_ = decide (b.last_debounced_pin_level_ = b.active_level_) ∧
    b.last_debounce_time_ = a.debounce_start_time_ ∧
    b.debounce_duration_ = a.debounce_duration_ ∧ b.debounce_duration_ ≤ 255

/-- The members of a `Button` that no setter writes: active level, state,
the three timestamps, the click counter and the debounce bookkeeping. -/
def Button.runtime (s : Button) : Nat × State × Nat × Nat × Nat × Nat × Nat × Nat × Nat :=
  (s.active_level_, s.state_, s.last_down_time_, s.last_click_time_,
    s.last_during_long_press_notification_time_, s.click_count_, s.last_pin_level_,
    s.last_debounced_pin_level_, s.last_debounce_time_)

/-- The members of an `AgileButton` that no setter writes. -/
def AgileButton.runtime (s : AgileButton) :
    Nat × State × Nat × Nat × Nat × Nat × Bool × Bool × Nat :=
  (s.active_level_, s.state_, s.last_down_time_, s.last_click_time_,
    s.last_during_long_press_notification_time_, s.click_count_, s.debouncing_value_,
    s.active_, s.debounce_start_time_)

/-- A run with a click, a double click attempt and a long press, sampled
sparsely (active level `a`, idle level `i`). -/
def mixedRun (a i : Nat) : List (Nat × Nat) :=
  abandonedBurst a i ++ laterSingleClick a i

/-- Whether a call is one of the two `SetEventHandler` overloads of
`AgileButton`. -/
def AgileButton.Call.isSetEventHandler : AgileButton.Call → Bool
  | AgileButton.Call.SetEventHandlerFn _ _ => true
  | AgileButton.Call.SetEventHandlerObj _ _ => true
  | _ => false

/-- Invariant of every run of a `Button`: while a press is in progress (state
Down or LongPress) the debounced level is the active level. -/
def Button.PressedInv (s : Button) : Prop :=
  (s.state_ = State.kDown ∨ s.state_ = State.kLongPress) →
    s.last_debounced_pin_level_ = s.active_level_

/-- Invariant of every run of an `AgileButton`: while a press is in progress
(state Down or LongPress) the debounced value `active_` is set. -/
def AgileButton.PressedInv (s : AgileButton) : Prop :=
  (s.state_ = State.kDown ∨ s.state_ = State.kLongPress) → s.active_ = true

/-! ## Elapsed time -/

/-- The 32-bit difference is the mathematical difference reduced modulo `2^32`. -/
theorem sub32_eq_emod (a b : Nat) :
    ((sub32 a b : Nat) : Int) = ((a : Int) - (b : Int)) % 4294967296 := by
  unfold sub32
  omega

/-- Without wrap-around the 32-bit difference is the ordinary difference. -/
theorem sub32_of_le {a b : Nat} (hab : b ≤ a) (ha : a < 4294967296) : sub32 a b = a - b := by
  unfold sub32
  omega

/-! ## The four cases of the state machine step -/

/-- C1. Down-state step of `Tick`, for `Button` and for `AgileButton`: with the
debounced level inactive the 8-bit click counter is incremented by one (so it
is `click_count_ + 1` whenever it was below 255), the last-click time becomes
`now`, exactly `[ButtonUp]` is emitted and the next state is Counting, whatever
the elapsed time is; with the level active and
`(now - press_start) mod 2^32 >= long_press_threshold` the last-notify time
becomes `now`, exactly `[LongPressBegin]` is emitted and the next state is
LongPress; otherwise nothing is emitted and the object is unchanged. -/
theorem C1_down_step :
    (∀ (s : Button) (active : Bool) (now : Nat), s.state_ = State.kDown →
      (active = false →
        (Button.step s active now).1.click_count_ = (s.click_count_ + 1) % 256 ∧
        (s.click_count_ < 255 → (Button.step s active now).1.click_count_ = s.click_count_ + 1) ∧
        (Button.step s active now).1.last_click_time_ = now ∧
        (Button.step s active now).2.map Button.Emit.kind = [EventType.kButtonUp] ∧
        (Button.step s active now).1.state_ = State.kCount) ∧
      (active = true →
        ((now : Int) - s.last_down_time_) % 4294967296 ≥ s.long_press_detected_interval_ →
        (Button.step s active now).1.last_during_long_press_notification_time_ = now ∧
        (Button.step s active now).2.map Button.Emit.kind = [EventType.kButtonLongPressBegin] ∧
        (Button.step s active now).1.state_ = State.kLongPress) ∧
      (active = true →
        ((now : Int) - s.last_down_time_) % 4294967296 < s.long_press_detected_interval_ →
        Button.step s active now = (s, []))) ∧
    (∀ (s : AgileButton) (now : Nat), s.state_ = State.kDown →
      (s.active_ = false →
        (AgileButton.step s now).1.click_count_ = (s.click_count_ + 1) % 256 ∧
        (s.click_count_ < 255 → (AgileButton.step s now).1.click_count_ = s.click_count_ + 1) ∧
        (AgileButton.step s now).1.last_click_time_ = now ∧
        (AgileButton.step s now).2.map Event.event_type = [EventType.kButtonUp] ∧
        (AgileButton.step s now).1.state_ = State.kCount) ∧
      (s.active_ = true →
        ((now : Int) - s.last_down_time_) % 4294967296 ≥ s.long_press_detected_interval_ →
        (AgileButton.step s now).1.last_during_long_press_notification_time_ = now ∧
        (AgileButton.step s now).2.map Event.event_type = [EventType.kButtonLongPressBegin] ∧
        (AgileButton.step s now).1.state_ = State.kLongPress) ∧
      (s.active_ = true →
        ((now : Int) - s.last_down_time_) % 4294967296 < s.long_press_detected_interval_ →
        AgileButton.step s now = (s, []))) := by
  refine ⟨fun s active now hs => ⟨?_, ?_, ?_⟩, fun s now hs => ⟨?_, ?_, ?_⟩⟩
  · intro ha
    subst ha
    have h255 : s.click_count_ < 255 → (s.click_count_ + 1) % 256 = s.click_count_ + 1 := by
      intro h; omega
    simpa [Button.step, hs, inc8] using h255
  · intro ha hge
    subst ha
    have h : s.long_press_detected_interval_ ≤ sub32 now s.last_down_time_ := by
      have := sub32_eq_emod now s.last_down_time_
      omega
    simp [Button.step, hs, h]
  · intro ha hlt
    subst ha
    have h : ¬ s.long_press_detected_interval_ ≤ sub32 now s.last_down_time_ := by
      have := sub32_eq_emod now s.last_down_time_
      omega
    simp [Button.step, hs, h]
  · intro ha
    have h255 : s.click_count_ < 255 → (s.click_count_ + 1) % 256 = s.click_count_ + 1 := by
      intro h; omega
    simpa [AgileButton.step, hs, ha, inc8] using h255
  · intro ha hge
    have h : s.long_press_detected_interval_ ≤ sub32 now s.last_down_time_ := by
      have := sub32_eq_emod now s.last_down_time_
      omega
    simp [AgileButton.step, hs, ha, h]
  · intro ha hlt
    have h : ¬ s.long_press_detected_interval_ ≤ sub32 now s.last_down_time_ := by
      have := sub32_eq_emod now s.last_down_time_
      omega
    simp [AgileButton.step, hs, ha, h]

/-- C2. Counting-state step of `Tick`, for `Button` and for `AgileButton`: with
the debounced level active the press-start time becomes `now`, exactly
`[ButtonDown]` is emitted, the next state is Down and the click counter is
unchanged, even when the counter has reached the maximum or the window has
elapsed; with the level inactive and the counter at least the maximum or
`(now - last_click_time) mod 2^32 >= multi_click_window`, exactly one Click
carrying the counter value before the step is emitted, the counter becomes 0
and the next state is Idle; otherwise nothing is emitted and the object is
unchanged. -/
theorem C2_counting_step :
    (∀ (s : Button) (active : Bool) (now : Nat), s.state_ = State.kCount →
      (active = true →
        (Button.step s active now).1.last_down_time_ = now ∧
        (Button.step s active now).2.map Button.Emit.kind = [EventType.kButtonDown] ∧
        (Button.step s active now).1.state_ = State.kDown ∧
        (Button.step s active now).1.click_count_ = s.click_count_) ∧
      (active = false →
        (s.click_count_ ≥ s.max_click_count_ ∨
          ((now : Int) - s.last_click_time_) % 4294967296 ≥ s.multiple_click_detected_interval_) →
        (Button.step s active now).2.map (fun e => (e.kind, e.click_count)) =
          [(EventType.kButtonClick, some s.click_count_)] ∧
        (Button.step s active now).1.click_count_ = 0 ∧
        (Button.step s active now).1.state_ = State.kIdle) ∧
      (active = false →
        ¬ (s.click_count_ ≥ s.max_click_count_ ∨
          ((now : Int) - s.last_click_time_) % 4294967296 ≥ s.multiple_click_detected_interval_) →
        Button.step s active now = (s, []))) ∧
    (∀ (s : AgileButton) (now : Nat), s.state_ = State.kCount →
      (s.active_ = true →
        (AgileButton.step s now).1.last_down_time_ = now ∧
        (AgileButton.step s now).2.map Event.event_type = [EventType.kButtonDown] ∧
        (AgileButton.step s now).1.state_ = State.kDown ∧
        (AgileButton.step s now).1.click_count_ = s.click_count_) ∧
      (s.active_ = false →
        (s.click_count_ ≥ s.max_click_count_ ∨
          ((now : Int) - s.last_click_time_) % 4294967296 ≥ s.multiple_click_detected_interval_) →
        (AgileButton.step s now).2.map (fun e => (e.event_type, e.click_count)) =
          [(EventType.kButtonClick, some s.click_count_)] ∧
        (AgileButton.step s now).1.click_count_ = 0 ∧
        (AgileButton.step s now).1.state_ = State.kIdle) ∧
      (s.active_ = false →
        ¬ (s.click_count_ ≥ s.max_click_count_ ∨
          ((now : Int) - s.last_click_time_) % 4294967296 ≥ s.multiple_click_detected_interval_) →
        AgileButton.step s now = (s, []))) := by
  refine ⟨fun s active now hs => ⟨?_, ?_, ?_⟩, fun s now hs => ⟨?_, ?_, ?_⟩⟩
  · intro ha
    subst ha
    simp [Button.step, hs]
  · intro ha hfin
    subst ha
    have h : s.max_click_count_ ≤ s.click_count_ ∨
        s.multiple_click_detected_interval_ ≤ sub32 now s.last_click_time_ := by
      have := sub32_eq_emod now s.last_click_time_
      omega
    simp [Button.step, hs, h]
  · intro ha hfin
    subst ha
    have h : ¬ (s.max_click_count_ ≤ s.click_count_ ∨
        s.multiple_click_detected_interval_ ≤ sub32 now s.last_click_time_) := by
      have := sub32_eq_emod now s.last_click_time_
      omega
    simp [Button.step, hs, h]
  · intro ha
    simp [AgileButton.step, hs, ha]
  · intro ha hfin
    have h : s.max_click_count_ ≤ s.click_count_ ∨
        s.multiple_click_detected_interval_ ≤ sub32 now s.last_click_time_ := by
      have := sub32_eq_emod now s.last_click_time_
      omega
    simp [AgileButton.step, hs, ha, h]
  · intro ha hfin
    have h : ¬ (s.max_click_count_ ≤ s.click_count_ ∨
        s.multiple_click_detected_interval_ ≤ sub32 now s.last_click_time_) := by
      have := sub32_eq_emod now s.last_click_time_
      omega
    simp [AgileButton.step, hs, ha, h]

/-- C3. LongPress-state step of `Tick`, for `Button` and for `AgileButton`:
with the debounced level inactive exactly the two events `[ButtonUp,
LongPressEnd]` are emitted, in that order, and the next state is Idle; with the
level active and `(now - last_notify_time) mod 2^32 >= during_interval` exactly
`[DuringLongPress]` is emitted, the last-notify time becomes `now` and the
state stays LongPress; otherwise nothing is emitted and the object is
unchanged. -/
theorem C3_long_press_step :
    (∀ (s : Button) (active : Bool) (now : Nat), s.state_ = State.kLongPress →
      (active = false →
        (Button.step s active now).2.map Button.Emit.kind =
          [EventType.kButtonUp, EventType.kButtonLongPressEnd] ∧
        (Button.step s active now).1.state_ = State.kIdle) ∧
      (active = true →
        ((now : Int) - s.last_during_long_press_notification_time_) % 4294967296 ≥
          s.during_long_press_notification_interval_ →
        (Button.step s active now).2.map Button.Emit.kind = [EventType.kButtonDuringLongPress] ∧
        (Button.step s active now).1.last_during_long_press_notification_time_ = now ∧
        (Button.step s active now).1.state_ = State.kLongPress) ∧
      (active = true →
        ((now : Int) - s.last_during_long_press_notification_time_) % 4294967296 <
          s.during_long_press_notification_interval_ →
        Button.step s active now = (s, []))) ∧
    (∀ (s : AgileButton) (now : Nat), s.state_ = State.kLongPress →
      (s.active_ = false →
        (AgileButton.step s now).2.map Event.event_type =
          [EventType.kButtonUp, EventType.kButtonLongPressEnd] ∧
        (AgileButton.step s now).1.state_ = State.kIdle) ∧
      (s.active_ = true →
        ((now : Int) - s.last_during_long_press_notification_time_) % 4294967296 ≥
          s.during_long_press_notification_interval_ →
        (AgileButton.step s now).2.map Event.event_type = [EventType.kButtonDuringLongPress] ∧
        (AgileButton.step s now).1.last_during_long_press_notification_time_ = now ∧
        (AgileButton.step s now).1.state_ = State.kLongPress) ∧
      (s.active_ = true →
        ((now : Int) - s.last_during_long_press_notification_time_) % 4294967296 <
          s.during_long_press_notification_interval_ →
        AgileButton.step s now = (s, []))) := by
  refine ⟨fun s active now hs => ⟨?_, ?_, ?_⟩, fun s now hs => ⟨?_, ?_, ?_⟩⟩
  · intro ha
    subst ha
    simp [Button.step, hs]
  · intro ha hge
    subst ha
    have h : s.during_long_press_notification_interval_ ≤
        sub32 now s.last_during_long_press_notification_time_ := by
      have := sub32_eq_emod now s.last_during_long_press_notification_time_
      omega
    simp [Button.step, hs, h]
  · intro ha hlt
    subst ha
    have h : ¬ s.during_long_press_notification_interval_ ≤
        sub32 now s.last_during_long_press_notification_time_ := by
      have := sub32_eq_emod now s.last_during_long_press_notification_time_
      omega
    simp [Button.step, hs, h]
  · intro ha
    simp [AgileButton.step, hs, ha]
  · intro ha hge
    have h : s.during_long_press_notification_interval_ ≤
        sub32 now s.last_during_long_press_notification_time_ := by
      have := sub32_eq_emod now s.last_during_long_press_notification_time_
      omega
    simp [AgileButton.step, hs, ha, h]
  · intro ha hlt
    have h : ¬ s.during_long_press_notification_interval_ ≤
        sub32 now s.last_during_long_press_notification_time_ := by
      have := sub32_eq_emod now s.last_during_long_press_notification_time_
      omega
    simp [AgileButton.step, hs, ha, h]

/-- C4. Idle-state step of `Tick`, for `Button` and for `AgileButton`: a freshly
constructed object is in state Idle; in state Idle with the debounced level
active the press-start time becomes `now`, exactly `[ButtonDown]` is emitted
and the next state is Down; with the level inactive nothing is emitted and the
object (state, click counter, press / click / notify times) is unchanged. -/
theorem C4_idle_step :
    (∀ pin active_level : Nat, (Button.new pin active_level).state_ = State.kIdle) ∧
    (∀ pin active_level : Nat, (AgileButton.new pin active_level).state_ = State.kIdle) ∧
    (∀ (s : Button) (active : Bool) (now : Nat), s.state_ = State.kIdle →
      (active = true →
        (Button.step s active now).1.last_down_time_ = now ∧
        (Button.step s active now).2.map Button.Emit.kind = [EventType.kButtonDown] ∧
        (Button.step s active now).1.state_ = State.kDown) ∧
      (active = false → Button.step s active now = (s, []))) ∧
    (∀ (s : AgileButton) (now : Nat), s.state_ = State.kIdle →
      (s.active_ = true →
        (AgileButton.step s now).1.last_down_time_ = now ∧
        (AgileButton.step s now).2.map Event.event_type = [EventType.kButtonDown] ∧
        (AgileButton.step s now).1.state_ = State.kDown) ∧
      (s.active_ = false → AgileButton.step s now = (s, []))) := by
  refine ⟨fun _ _ => rfl, fun _ _ => rfl, fun s active now hs => ⟨?_, ?_⟩,
    fun s now hs => ⟨?_, ?_⟩⟩
  · intro ha
    subst ha
    simp [Button.step, hs]
  · intro ha
    subst ha
    simp [Button.step, hs]
  · intro ha
    simp [AgileButton.step, hs, ha]
  · intro ha
    simp [AgileButton.step, hs, ha]

/-! ## Down/Up pairing -/

theorem Button.Debounce_state (s : Button) (value now : Nat) :
    (s.Debounce value now).1.state_ = s.state_ := by
  unfold Button.Debounce
  split_ifs <;> rfl

theorem AgileButton.debounce_state (s : AgileButton) (raw now : Nat) :
    (s.debounce raw now).state_ = s.state_ := by
  unfold AgileButton.debounce
  split_ifs <;> rfl

/-- What one step of the `Button` state machine contributes to the Down/Up
subsequence. -/
theorem Button.step_downUp (s : Button) (active : Bool) (now : Nat) :
    (((s.step active now).2.map Button.Emit.kind).filter isDownUp = [] ∧
        (s.step active now).1.pressed = s.pressed) ∨
      (((s.step active now).2.map Button.Emit.kind).filter isDownUp = [EventType.kButtonDown] ∧
        s.pressed = false ∧ (s.step active now).1.pressed = true) ∨
      (((s.step active now).2.map Button.Emit.kind).filter isDownUp = [EventType.kButtonUp] ∧
        s.pressed = true ∧ (s.step active now).1.pressed = false) := by
  unfold Button.step Button.pressed
  rcases hs : s.state_ <;> simp only [hs] <;> (try split_ifs) <;> simp [isDownUp, hs]

theorem AgileButton.agile_step_downUp (s : AgileButton) (now : Nat) :
    (((s.step now).2.map Event.event_type).filter isDownUp = [] ∧
        (s.step now).1.pressed = s.pressed) ∨
      (((s.step now).2.map Event.event_type).filter isDownUp = [EventType.kButtonDown] ∧
        s.pressed = false ∧ (s.step now).1.pressed = true) ∨
      (((s.step now).2.map Event.event_type).filter isDownUp = [EventType.kButtonUp] ∧
        s.pressed = true ∧ (s.step now).1.pressed = false) := by
  unfold AgileButton.step AgileButton.pressed
  rcases hs : s.state_ <;> simp only [hs] <;> (try split_ifs) <;> simp [isDownUp, hs]


theorem Button.call_downUp (s : Button) (c : Button.Call) :
    (((s.call c).2.map Button.Emit.kind).filter isDownUp = [] ∧
        (s.call c).1.pressed = s.pressed) ∨
      (((s.call c).2.map Button.Emit.kind).filter isDownUp = [EventType.kButtonDown] ∧
        s.pressed = false ∧ (s.call c).1.pressed = true) ∨
      (((s.call c).2.map Button.Emit.kind).filter isDownUp = [EventType.kButtonUp] ∧
        s.pressed = true ∧ (s.call c).1.pressed = false) := by
  cases c with
  | Tick raw now =>
    have h := Button.step_downUp (s.Debounce (raw % 256) now).1
      (decide ((s.Debounce (raw % 256) now).2 = s.active_level_)) now
    have hp : (s.Debounce (raw % 256) now).1.pressed = s.pressed := by
      simp [Button.pressed, Button.Debounce_state]
    rw [hp] at h
    exact h
  | _ => exact Or.inl ⟨rfl, rfl⟩

theorem AgileButton.agile_call_downUp (s : AgileButton) (c : AgileButton.Call) :
    (((s.call c).2.map Event.event_type).filter isDownUp = [] ∧
        (s.call c).1.pressed = s.pressed) ∨
      (((s.call c).2.map Event.event_type).filter isDownUp = [EventType.kButtonDown] ∧
        s.pressed = false ∧ (s.call c).1.pressed = true) ∨
      (((s.call c).2.map Event.event_type).filter isDownUp = [EventType.kButtonUp] ∧
        s.pressed = true ∧ (s.call c).1.pressed = false) := by
  cases c with
  | Tick raw now =>
    have h := AgileButton.agile_step_downUp (s.debounce raw now) now
    have hp : (s.debounce raw now).pressed = s.pressed := by
      simp [AgileButton.pressed, AgileButton.debounce_state]
    rw [hp] at h
    exact h
  | _ => exact Or.inl ⟨rfl, rfl⟩

/-- From any object, the Down/Up subsequence of a run alternates, beginning
with ButtonUp exactly when a press is in progress. -/
theorem Button.emitted_alternation (cs : List Button.Call) (s : Button) :
    (s.emitted cs).flatten.filter isDownUp =
      alternation s.pressed ((s.emitted cs).flatten.filter isDownUp).length := by
  induction cs generalizing s with
  | nil => simp [Button.emitted, alternation]
  | cons c cs ih =>
    have ih1 := ih (s.call c).1
    simp only [Button.emitted, List.flatten_cons, List.filter_append, List.length_append]
    rcases Button.call_downUp s c with ⟨h1, h2⟩ | ⟨h1, h2, h3⟩ | ⟨h1, h2, h3⟩
    · rw [h1, ← h2]
      simpa using ih1
    · rw [h1, h2]
      rw [h3] at ih1
      simp only [List.singleton_append, List.length_singleton, Nat.add_comm 1, alternation]
      rw [← ih1]
    · rw [h1, h2]
      rw [h3] at ih1
      simp only [List.singleton_append, List.length_singleton, Nat.add_comm 1, alternation]
      rw [← ih1]

theorem AgileButton.agile_emitted_alternation (cs : List AgileButton.Call) (s : AgileButton) :
    (s.emitted cs).flatten.filter isDownUp =
      alternation s.pressed ((s.emitted cs).flatten.filter isDownUp).length := by
  induction cs generalizing s with
  | nil => simp [AgileButton.emitted, alternation]
  | cons c cs ih =>
    have ih1 := ih (s.call c).1
    simp only [AgileButton.emitted, List.flatten_cons, List.filter_append, List.length_append]
    rcases AgileButton.agile_call_downUp s c with ⟨h1, h2⟩ | ⟨h1, h2, h3⟩ | ⟨h1, h2, h3⟩
    · rw [h1, ← h2]
      simpa using ih1
    · rw [h1, h2]
      rw [h3] at ih1
      simp only [List.singleton_append, List.length_singleton, Nat.add_comm 1, alternation]
      rw [← ih1]
    · rw [h1, h2]
      rw [h3] at ih1
      simp only [List.singleton_append, List.length_singleton, Nat.add_comm 1, alternation]
      rw [← ih1]

/-- C7. Down/Up pairing: for every sequence of calls (ticks with arbitrary raw
levels and times, and reconfigurations between them) applied to a freshly
constructed `Button` or `AgileButton`, the emitted events restricted to
ButtonDown and ButtonUp are the strictly alternating sequence ButtonDown,
ButtonUp, ButtonDown, ... : between two ButtonDown there is exactly one
ButtonUp and every ButtonUp follows an unmatched ButtonDown, on the click path
and on the long-press path alike. -/
theorem C7_down_up_pairing :
    (∀ (pin active_level : Nat) (cs : List Button.Call),
      ((Button.new pin active_level).emitted cs).flatten.filter isDownUp =
        alternation false
          (((Button.new pin active_level).emitted cs).flatten.filter isDownUp).length) ∧
    (∀ (pin active_level : Nat) (cs : List AgileButton.Call),
      ((AgileButton.new pin active_level).emitted cs).flatten.filter isDownUp =
        alternation false
          (((AgileButton.new pin active_level).emitted cs).flatten.filter isDownUp).length) :=
  ⟨fun pin active_level cs => Button.emitted_alternation cs (Button.new pin active_level),
   fun pin active_level cs => AgileButton.agile_emitted_alternation cs (AgileButton.new pin active_level)⟩

/-! ## Long-press exclusivity -/

/-- A tick of a `Button` that emits LongPressBegin leaves the machine in
LongPress. -/
theorem Button.longPressBegin_state (s : Button) (active : Bool) (now : Nat)
    (h : EventType.kButtonLongPressBegin ∈ (s.step active now).2.map Button.Emit.kind) :
    (s.step active now).1.state_ = State.kLongPress := by
  revert h
  unfold Button.step
  rcases hs : s.state_ <;> simp only [hs] <;> (try split_ifs) <;> simp

theorem AgileButton.agile_longPressBegin_state (s : AgileButton) (now : Nat)
    (h : EventType.kButtonLongPressBegin ∈ (s.step now).2.map Event.event_type) :
    (s.step now).1.state_ = State.kLongPress := by
  revert h
  unfold AgileButton.step
  rcases hs : s.state_ <;> simp only [hs] <;> (try split_ifs) <;> simp

/-- One call on a `Button` in LongPress: it leaves the click counter alone and
either emits exactly ButtonUp, LongPressEnd, or emits at most one
DuringLongPress and stays in LongPress. -/
theorem Button.call_longPress (s : Button) (c : Button.Call) (hs : s.state_ = State.kLongPress) :
    (s.call c).1.click_count_ = s.click_count_ ∧
      ((s.call c).2.map Button.Emit.kind = [EventType.kButtonUp, EventType.kButtonLongPressEnd] ∨
        (((s.call c).2.map Button.Emit.kind = [] ∨
            (s.call c).2.map Button.Emit.kind = [EventType.kButtonDuringLongPress]) ∧
          (s.call c).1.state_ = State.kLongPress)) := by
  cases c with
  | Tick raw now =>
    have hd : (s.Debounce (raw % 256) now).1.state_ = State.kLongPress := by
      rw [Button.Debounce_state, hs]
    have hc : (s.Debounce (raw % 256) now).1.click_count_ = s.click_count_ := by
      unfold Button.Debounce
      split_ifs <;> rfl
    simp only [Button.call, Button.Tick]
    rw [← hc]
    generalize (s.Debounce (raw % 256) now).1 = d at hd ⊢
    generalize decide ((s.Debounce (raw % 256) now).2 = s.active_level_) = a
    unfold Button.step
    simp only [hd]
    split_ifs <;> simp [hd]
  | _ => exact ⟨rfl, Or.inr ⟨Or.inl rfl, hs⟩⟩

theorem AgileButton.agile_call_longPress (s : AgileButton) (c : AgileButton.Call)
    (hs : s.state_ = State.kLongPress) :
    (s.call c).1.click_count_ = s.click_count_ ∧
      ((s.call c).2.map Event.event_type = [EventType.kButtonUp, EventType.kButtonLongPressEnd] ∨
        (((s.call c).2.map Event.event_type = [] ∨
            (s.call c).2.map Event.event_type = [EventType.kButtonDuringLongPress]) ∧
          (s.call c).1.state_ = State.kLongPress)) := by
  cases c with
  | Tick raw now =>
    have hd : (s.debounce raw now).state_ = State.kLongPress := by
      rw [AgileButton.debounce_state, hs]
    have hc : (s.debounce raw now).click_count_ = s.click_count_ := by
      unfold AgileButton.debounce
      split_ifs <;> rfl
    simp only [AgileButton.call, AgileButton.Tick]
    rw [← hc]
    generalize s.debounce raw now = d at hd ⊢
    unfold AgileButton.step
    simp only [hd]
    split_ifs <;> simp [hd]
  | _ => exact ⟨rfl, Or.inr ⟨Or.inl rfl, hs⟩⟩

/-- From LongPress, every call up to and including the first one that emits
ButtonUp, LongPressEnd keeps the click counter and emits nothing else than a
DuringLongPress. -/
theorem Button.longPress_exclusive (cs : List Button.Call) (s : Button)
    (hs : s.state_ = State.kLongPress) (k : Nat) (hk : k < cs.length)
    (hbefore : ∀ j, j < k →
      (s.emitted cs)[j]? ≠ some [EventType.kButtonUp, EventType.kButtonLongPressEnd]) :
    ((s.emitted cs)[k]? = some [EventType.kButtonUp, EventType.kButtonLongPressEnd] ∨
        (s.emitted cs)[k]? = some [] ∨
        (s.emitted cs)[k]? = some [EventType.kButtonDuringLongPress]) ∧
      (s.after (cs.take (k + 1))).click_count_ = s.click_count_ := by
  induction cs generalizing s k with
  | nil => simp at hk
  | cons c cs ih =>
    have hc := Button.call_longPress s c hs
    cases k with
    | zero =>
      simp only [Button.emitted, List.getElem?_cons_zero, Option.some.injEq, List.take_succ_cons,
        List.take_zero, Button.after]
      refine ⟨?_, hc.1⟩
      rcases hc.2 with h | ⟨h | h, _⟩
      · exact Or.inl h
      · exact Or.inr (Or.inl h)
      · exact Or.inr (Or.inr h)
    | succ k =>
      have h0 := hbefore 0 (Nat.succ_pos k)
      simp only [Button.emitted, List.getElem?_cons_zero, ne_eq, Option.some.injEq] at h0
      have hs1 : (s.call c).1.state_ = State.kLongPress := by
        rcases hc.2 with h | ⟨_, h⟩
        · exact absurd h h0
        · exact h
      have hk1 : k < cs.length := by simpa using hk
      have hb1 : ∀ j, j < k → ((s.call c).1.emitted cs)[j]? ≠
          some [EventType.kButtonUp, EventType.kButtonLongPressEnd] := by
        intro j hj
        have := hbefore (j + 1) (Nat.succ_lt_succ hj)
        simpa [Button.emitted] using this
      have := ih (s.call c).1 hs1 k hk1 hb1
      simpa [Button.emitted, Button.after, hc.1] using this

theorem AgileButton.agile_longPress_exclusive (cs : List AgileButton.Call) (s : AgileButton)
    (hs : s.state_ = State.kLongPress) (k : Nat) (hk : k < cs.length)
    (hbefore : ∀ j, j < k →
      (s.emitted cs)[j]? ≠ some [EventType.kButtonUp, EventType.kButtonLongPressEnd]) :
    ((s.emitted cs)[k]? = some [EventType.kButtonUp, EventType.kButtonLongPressEnd] ∨
        (s.emitted cs)[k]? = some [] ∨
        (s.emitted cs)[k]? = some [EventType.kButtonDuringLongPress]) ∧
      (s.after (cs.take (k + 1))).click_count_ = s.click_count_ := by
  induction cs generalizing s k with
  | nil => simp at hk
  | cons c cs ih =>
    have hc := AgileButton.agile_call_longPress s c hs
    cases k with
    | zero =>
      simp only [AgileButton.emitted, List.getElem?_cons_zero, Option.some.injEq,
        List.take_succ_cons, List.take_zero, AgileButton.after]
      refine ⟨?_, hc.1⟩
      rcases hc.2 with h | ⟨h | h, _⟩
      · exact Or.inl h
      · exact Or.inr (Or.inl h)
      · exact Or.inr (Or.inr h)
    | succ k =>
      have h0 := hbefore 0 (Nat.succ_pos k)
      simp only [AgileButton.emitted, List.getElem?_cons_zero, ne_eq, Option.some.injEq] at h0
      have hs1 : (s.call c).1.state_ = State.kLongPress := by
        rcases hc.2 with h | ⟨_, h⟩
        · exact absurd h h0
        · exact h
      have hk1 : k < cs.length := by simpa using hk
      have hb1 : ∀ j, j < k → ((s.call c).1.emitted cs)[j]? ≠
          some [EventType.kButtonUp, EventType.kButtonLongPressEnd] := by
        intro j hj
        have := hbefore (j + 1) (Nat.succ_lt_succ hj)
        simpa [AgileButton.emitted] using this
      have := ih (s.call c).1 hs1 k hk1 hb1
      simpa [AgileButton.emitted, AgileButton.after, hc.1] using this

/-- C8. Long-press exclusivity, for `Button` and for `AgileButton`: after a
tick that emits LongPressBegin (from any object state), consider any
continuation of calls (ticks and reconfigurations). Every call `k` that is not
preceded, within the continuation, by a call emitting exactly ButtonUp,
LongPressEnd emits either exactly `[ButtonUp, LongPressEnd]` (the release, in
that order and without a Click), or nothing, or exactly `[DuringLongPress]`;
and after that call the click counter still has the value it had right after
the LongPressBegin tick. So until the release neither Click nor ButtonDown is
emitted and the press adds no click. -/
theorem C8_long_press_exclusive :
    (∀ (s : Button) (raw now : Nat) (cs : List Button.Call) (k : Nat),
      EventType.kButtonLongPressBegin ∈ (s.Tick raw now).2.map Button.Emit.kind →
      k < cs.length →
      (∀ j, j < k → ((s.Tick raw now).1.emitted cs)[j]? ≠
        some [EventType.kButtonUp, EventType.kButtonLongPressEnd]) →
      (((s.Tick raw now).1.emitted cs)[k]? =
            some [EventType.kButtonUp, EventType.kButtonLongPressEnd] ∨
          ((s.Tick raw now).1.emitted cs)[k]? = some [] ∨
          ((s.Tick raw now).1.emitted cs)[k]? = some [EventType.kButtonDuringLongPress]) ∧
        ((s.Tick raw now).1.after (cs.take (k + 1))).click_count_ =
          (s.Tick raw now).1.click_count_) ∧
    (∀ (s : AgileButton) (raw now : Nat) (cs : List AgileButton.Call) (k : Nat),
      EventType.kButtonLongPressBegin ∈ (s.Tick raw now).2.map Event.event_type →
      k < cs.length →
      (∀ j, j < k → ((s.Tick raw now).1.emitted cs)[j]? ≠
        some [EventType.kButtonUp, EventType.kButtonLongPressEnd]) →
      (((s.Tick raw now).1.emitted cs)[k]? =
            some [EventType.kButtonUp, EventType.kButtonLongPressEnd] ∨
          ((s.Tick raw now).1.emitted cs)[k]? = some [] ∨
          ((s.Tick raw now).1.emitted cs)[k]? = some [EventType.kButtonDuringLongPress]) ∧
        ((s.Tick raw now).1.after (cs.take (k + 1))).click_count_ =
          (s.Tick raw now).1.click_count_) :=
  ⟨fun s raw now cs k hb hk hbefore =>
      Button.longPress_exclusive cs (s.Tick raw now).1
        (Button.longPressBegin_state _ _ now hb) k hk hbefore,
   fun s raw now cs k hb hk hbefore =>
      AgileButton.agile_longPress_exclusive cs (s.Tick raw now).1
        (AgileButton.agile_longPressBegin_state _ now hb) k hk hbefore⟩

/-! ## Range of the click count -/

/-- What `Button::Debounce` does to the members the state machine reads: it
returns the stored debounced level, which either is unchanged or has just been
set to the raw level, and it never changes when it already equals the last raw
level. -/
theorem Button.Debounce_spec (s : Button) (value now : Nat) :
    (s.Debounce value now).2 = (s.Debounce value now).1.last_debounced_pin_level_ ∧
      (s.Debounce value now).1.state_ = s.state_ ∧
      (s.Debounce value now).1.click_count_ = s.click_count_ ∧
      (s.Debounce value now).1.max_click_count_ = s.max_click_count_ ∧
      (s.Debounce value now).1.active_level_ = s.active_level_ ∧
      ((s.Debounce value now).1.last_debounced_pin_level_ = s.last_debounced_pin_level_ ∨
        (s.Debounce value now).1.last_debounced_pin_level_ =
          (s.Debounce value now).1.last_pin_level_) ∧
      (s.last_debounced_pin_level_ = s.last_pin_level_ →
        (s.Debounce value now).1.last_debounced_pin_level_ = s.last_debounced_pin_level_) := by
  unfold Button.Debounce
  split_ifs <;> simp_all

theorem Button.step_countInv (d : Button) (a : Bool) (now : Nat)
    (h1 : 1 ≤ d.max_click_count_) (h2 : d.max_click_count_ ≤ 255)
    (ha : a = decide (d.last_debounced_pin_level_ = d.active_level_))
    (hst : match d.state_ with
      | State.kIdle => d.click_count_ < d.max_click_count_
      | State.kDown =>
        d.click_count_ < d.max_click_count_ ∧
          (a = false → d.last_debounced_pin_level_ = d.last_pin_level_)
      | State.kCount =>
        1 ≤ d.click_count_ ∧ d.click_count_ ≤ d.max_click_count_ ∧
          (d.click_count_ = d.max_click_count_ → a = false)
      | State.kLongPress => d.click_count_ < d.max_click_count_
      | _ => False) :
    (d.step a now).1.CountInv ∧
      (d.step a now).1.max_click_count_ = d.max_click_count_ ∧
      ∀ e ∈ (d.step a now).2, e.kind = EventType.kButtonClick →
        ∃ c, e.click_count = some c ∧ 1 ≤ c ∧ c ≤ d.max_click_count_ := by
  unfold Button.CountInv Button.step
  rcases hs : d.state_ <;> simp only [hs] at hst ⊢ <;> cases a <;>
    simp only [Bool.not_true, Bool.not_false, Bool.true_and, Bool.false_eq_true, if_true,
      if_false] <;>
    (try split_ifs) <;> simp_all [inc8] <;> (try omega)

theorem Button.tick_countInv (s : Button) (raw now : Nat) (h : s.CountInv) :
    (s.Tick raw now).1.CountInv ∧
      (s.Tick raw now).1.max_click_count_ = s.max_click_count_ ∧
      ∀ e ∈ (s.Tick raw now).2, e.kind = EventType.kButtonClick →
        ∃ c, e.click_count = some c ∧ 1 ≤ c ∧ c ≤ s.max_click_count_ := by
  obtain ⟨h1, h2, h3⟩ := h
  obtain ⟨e2, est, ecnt, emax, eact, echg, esync⟩ := Button.Debounce_spec s (raw % 256) now
  unfold Button.Tick
  simp only
  rw [e2, ← eact, ← emax]
  apply Button.step_countInv _ _ now (by rw [emax]; exact h1) (by rw [emax]; exact h2) rfl
  rw [est, ecnt, emax]
  rcases hs : s.state_ <;> simp only [hs] at h3 ⊢
  · exact h3
  · refine ⟨h3.1, fun hf => ?_⟩
    rcases echg with hc | hc
    · rw [hc, h3.2, eact] at hf
      simp at hf
    · exact hc
  · refine ⟨h3.1, h3.2.1, fun hc => ?_⟩
    have := h3.2.2 hc
    rw [esync this.1, eact]
    simpa using this.2
  · exact h3

theorem AgileButton.debounce_spec (s : AgileButton) (raw now : Nat) :
    (s.debounce raw now).state_ = s.state_ ∧
      (s.debounce raw now).click_count_ = s.click_count_ ∧
      (s.debounce raw now).max_click_count_ = s.max_click_count_ ∧
      ((s.debounce raw now).active_ = s.active_ ∨
        (s.debounce raw now).active_ = (s.debounce raw now).debouncing_value_) ∧
      (s.active_ = s.debouncing_value_ → (s.debounce raw now).active_ = s.active_) := by
  unfold AgileButton.debounce
  split_ifs <;> simp_all

theorem AgileButton.agile_step_countInv (d : AgileButton) (now : Nat)
    (h1 : 1 ≤ d.max_click_count_) (h2 : d.max_click_count_ ≤ 255)
    (hst : match d.state_ with
      | State.kIdle => d.click_count_ < d.max_click_count_
      | State.kDown =>
        d.click_count_ < d.max_click_count_ ∧
          (d.active_ = false → d.active_ = d.debouncing_value_)
      | State.kCount =>
        1 ≤ d.click_count_ ∧ d.click_count_ ≤ d.max_click_count_ ∧
          (d.click_count_ = d.max_click_count_ → d.active_ = false)
      | State.kLongPress => d.click_count_ < d.max_click_count_
      | _ => False) :
    (d.step now).1.CountInv ∧
      (d.step now).1.max_click_count_ = d.max_click_count_ ∧
      ∀ e ∈ (d.step now).2, e.event_type = EventType.kButtonClick →
        ∃ c, e.click_count = some c ∧ 1 ≤ c ∧ c ≤ d.max_click_count_ := by
  unfold AgileButton.CountInv AgileButton.step
  rcases hs : d.state_ <;> simp only [hs] at hst ⊢ <;> rcases ha : d.active_ <;>
    simp only [Bool.not_true, Bool.not_false, Bool.true_and, Bool.false_eq_true, if_true,
      if_false] <;>
    (try split_ifs) <;> simp_all [inc8] <;> (try omega)

theorem AgileButton.agile_tick_countInv (s : AgileButton) (raw now : Nat) (h : s.CountInv) :
    (s.Tick raw now).1.CountInv ∧
      (s.Tick raw now).1.max_click_count_ = s.max_click_count_ ∧
      ∀ e ∈ (s.Tick raw now).2, e.event_type = EventType.kButtonClick →
        ∃ c, e.click_count = some c ∧ 1 ≤ c ∧ c ≤ s.max_click_count_ := by
  obtain ⟨h1, h2, h3⟩ := h
  obtain ⟨est, ecnt, emax, echg, esync⟩ := AgileButton.debounce_spec s raw now
  unfold AgileButton.Tick
  rw [← emax]
  apply AgileButton.agile_step_countInv _ now (by rw [emax]; exact h1) (by rw [emax]; exact h2)
  rw [est, ecnt, emax]
  rcases hs : s.state_ <;> simp only [hs] at h3 ⊢
  · exact h3
  · refine ⟨h3.1, fun hf => ?_⟩
    rcases echg with hc | hc
    · rw [hc, h3.2] at hf
      simp at hf
    · exact hc
  · refine ⟨h3.1, h3.2.1, fun hc => ?_⟩
    have := h3.2.2 hc
    rw [esync this.1]
    exact this.2
  · exact h3

/-- Calls other than `Tick` leave a `Button` idle with a zero counter and keep
the maximum a positive 8-bit value. -/
theorem Button.after_config (cfg : List Button.Call) (s : Button)
    (hcfg : ∀ c ∈ cfg, c.isTick = false)
    (hs : s.state_ = State.kIdle ∧ s.click_count_ = 0 ∧
      1 ≤ s.max_click_count_ ∧ s.max_click_count_ ≤ 255) :
    (s.after cfg).state_ = State.kIdle ∧ (s.after cfg).click_count_ = 0 ∧
      1 ≤ (s.after cfg).max_click_count_ ∧ (s.after cfg).max_click_count_ ≤ 255 := by
  induction cfg generalizing s with
  | nil => exact hs
  | cons c cfg ih =>
    apply ih (s.call c).1 (fun c' hc' => hcfg c' (List.mem_cons_of_mem _ hc'))
    have hc := hcfg c (List.mem_cons_self _ _)
    obtain ⟨hs1, hs2, hs3, hs4⟩ := hs
    cases c with
    | Tick raw now => simp [Button.Call.isTick] at hc
    | SetOnClick f p m =>
      refine ⟨hs1, hs2, ?_, ?_⟩
      · simp only [Button.call, Button.SetOnClick]
        split_ifs <;> omega
      · simp only [Button.call, Button.SetOnClick]
        omega
    | _ => exact ⟨hs1, hs2, hs3, hs4⟩

/-- Calls other than `Tick` leave an `AgileButton` idle with a zero counter and
keep the maximum an 8-bit value. -/
theorem AgileButton.agile_after_config (cfg : List AgileButton.Call) (s : AgileButton)
    (hcfg : ∀ c ∈ cfg, c.isTick = false)
    (hs : s.state_ = State.kIdle ∧ s.click_count_ = 0 ∧ s.max_click_count_ ≤ 255) :
    (s.after cfg).state_ = State.kIdle ∧ (s.after cfg).click_count_ = 0 ∧
      (s.after cfg).max_click_count_ ≤ 255 := by
  induction cfg generalizing s with
  | nil => exact hs
  | cons c cfg ih =>
    apply ih (s.call c).1 (fun c' hc' => hcfg c' (List.mem_cons_of_mem _ hc'))
    have hc := hcfg c (List.mem_cons_self _ _)
    obtain ⟨hs1, hs2, hs3⟩ := hs
    cases c with
    | Tick raw now => simp [AgileButton.Call.isTick] at hc
    | SetMaxDetectedClickCount m =>
      refine ⟨hs1, hs2, ?_⟩
      simp only [AgileButton.call, AgileButton.SetMaxDetectedClickCount]
      omega
    | _ => exact ⟨hs1, hs2, hs3⟩

theorem Button.countInv_le (s : Button) (h : s.CountInv) :
    s.click_count_ ≤ s.max_click_count_ := by
  obtain ⟨_, _, h3⟩ := h
  rcases hs : s.state_ <;> simp only [hs] at h3 <;> omega

theorem AgileButton.agile_countInv_le (s : AgileButton) (h : s.CountInv) :
    s.click_count_ ≤ s.max_click_count_ := by
  obtain ⟨_, _, h3⟩ := h
  rcases hs : s.state_ <;> simp only [hs] at h3 <;> omega

theorem Button.run_countInv (ts : List (Nat × Nat)) (s : Button) (h : s.CountInv) :
    (∀ x ∈ s.clicks (Button.ticks ts), ∃ c, x = some c ∧ 1 ≤ c ∧ c ≤ s.max_click_count_) ∧
      (s.after (Button.ticks ts)).CountInv ∧
      (s.after (Button.ticks ts)).max_click_count_ = s.max_click_count_ := by
  induction ts generalizing s with
  | nil => exact ⟨by simp [Button.ticks, Button.clicks], h, rfl⟩
  | cons t ts ih =>
    obtain ⟨i1, i2, i3⟩ := Button.tick_countInv s t.1 t.2 h
    obtain ⟨j1, j2, j3⟩ := ih (s.Tick t.1 t.2).1 i1
    refine ⟨?_, j2, by rw [← i2]; exact j3⟩
    intro x hx
    simp only [Button.ticks, List.map_cons, Button.clicks, Button.call, List.mem_append,
      List.mem_map, List.mem_filter, decide_eq_true_eq] at hx
    rcases hx with ⟨e, ⟨he, hk⟩, rfl⟩ | hx
    · exact i3 e he hk
    · rw [← i2]
      exact j1 x hx

theorem AgileButton.agile_run_countInv (ts : List (Nat × Nat)) (s : AgileButton) (h : s.CountInv) :
    (∀ x ∈ s.clicks (AgileButton.ticks ts),
        ∃ c, x = some c ∧ 1 ≤ c ∧ c ≤ s.max_click_count_) ∧
      (s.after (AgileButton.ticks ts)).CountInv ∧
      (s.after (AgileButton.ticks ts)).max_click_count_ = s.max_click_count_ := by
  induction ts generalizing s with
  | nil => exact ⟨by simp [AgileButton.ticks, AgileButton.clicks], h, rfl⟩
  | cons t ts ih =>
    obtain ⟨i1, i2, i3⟩ := AgileButton.agile_tick_countInv s t.1 t.2 h
    obtain ⟨j1, j2, j3⟩ := ih (s.Tick t.1 t.2).1 i1
    refine ⟨?_, j2, by rw [← i2]; exact j3⟩
    intro x hx
    simp only [AgileButton.ticks, List.map_cons, AgileButton.clicks, AgileButton.call,
      List.mem_append, List.mem_map, List.mem_filter, decide_eq_true_eq] at hx
    rcases hx with ⟨e, ⟨he, hk⟩, rfl⟩ | hx
    · exact i3 e he hk
    · rw [← i2]
      exact j1 x hx

/-- C10. Click count range: configure a freshly constructed `Button` or
`AgileButton` by any calls other than `Tick`, leaving a maximum click count of
at least 1, and then run any sequence of ticks without reconfiguration. Every
emitted Click event carries a click count `c` with
`1 <= c <= max_click_count_`, and the click counter of the object is at most
the maximum after the run, so the 8-bit counter never wraps to 0. -/
theorem C10_click_count_range :
    (∀ (pin active_level : Nat) (cfg : List Button.Call) (ts : List (Nat × Nat)),
      (∀ c ∈ cfg, c.isTick = false) →
      1 ≤ ((Button.new pin active_level).after cfg).max_click_count_ →
      (∀ x ∈ ((Button.new pin active_level).after cfg).clicks (Button.ticks ts),
        ∃ c, x = some c ∧ 1 ≤ c ∧
          c ≤ ((Button.new pin active_level).after cfg).max_click_count_) ∧
      ((((Button.new pin active_level).after cfg).after (Button.ticks ts)).click_count_ ≤
        ((Button.new pin active_level).after cfg).max_click_count_ ∧
       ((Button.new pin active_level).after cfg).max_click_count_ ≤ 255)) ∧
    (∀ (pin active_level : Nat) (cfg : List AgileButton.Call) (ts : List (Nat × Nat)),
      (∀ c ∈ cfg, c.isTick = false) →
      1 ≤ ((AgileButton.new pin active_level).after cfg).max_click_count_ →
      (∀ x ∈ ((AgileButton.new pin active_level).after cfg).clicks (AgileButton.ticks ts),
        ∃ c, x = some c ∧ 1 ≤ c ∧
          c ≤ ((AgileButton.new pin active_level).after cfg).max_click_count_) ∧
      ((((AgileButton.new pin active_level).after cfg).after
          (AgileButton.ticks ts)).click_count_ ≤
        ((AgileButton.new pin active_level).after cfg).max_click_count_ ∧
       ((AgileButton.new pin active_level).after cfg).max_click_count_ ≤ 255)) := by
  constructor
  · intro pin active_level cfg ts hcfg hmax
    obtain ⟨c1, c2, _, c4⟩ := Button.after_config cfg (Button.new pin active_level) hcfg
      ⟨rfl, rfl, Nat.le_refl 1, by simp [Button.new]⟩
    have hinv : ((Button.new pin active_level).after cfg).CountInv := by
      refine ⟨hmax, c4, ?_⟩
      simp only [c1]
      omega
    obtain ⟨r1, r2, r3⟩ := Button.run_countInv ts _ hinv
    refine ⟨r1, ?_, c4⟩
    rw [← r3]
    exact Button.countInv_le _ r2
  · intro pin active_level cfg ts hcfg hmax
    obtain ⟨c1, c2, c4⟩ := AgileButton.agile_after_config cfg (AgileButton.new pin active_level) hcfg
      ⟨rfl, rfl, by simp [AgileButton.new]⟩
    have hinv : ((AgileButton.new pin active_level).after cfg).CountInv := by
      refine ⟨hmax, c4, ?_⟩
      simp only [c1]
      omega
    obtain ⟨r1, r2, r3⟩ := AgileButton.agile_run_countInv ts _ hinv
    refine ⟨r1, ?_, c4⟩
    rw [← r3]
    exact AgileButton.agile_countInv_le _ r2

/-! ## Finalisation at the click budget -/

theorem Button.call_downInv (s : Button) (c : Button.Call) (h : s.DownInv) :
    (s.call c).1.DownInv := by
  cases c with
  | Tick raw now =>
    obtain ⟨e2, est, -, -, eact, -, -⟩ := Button.Debounce_spec s (raw % 256) now
    simp only [Button.call, Button.Tick]
    rw [e2, ← eact]
    generalize (s.Debounce (raw % 256) now).1 = d
    unfold Button.DownInv Button.step
    rcases hs : d.state_ <;> simp only [hs] <;> (try split_ifs) <;> simp_all
  | _ => exact h

theorem AgileButton.agile_call_downInv (s : AgileButton) (c : AgileButton.Call) (h : s.DownInv) :
    (s.call c).1.DownInv := by
  cases c with
  | Tick raw now =>
    simp only [AgileButton.call, AgileButton.Tick]
    generalize s.debounce raw now = d
    unfold AgileButton.DownInv AgileButton.step
    rcases hs : d.state_ <;> simp only [hs] <;> (try split_ifs) <;> simp_all
  | _ => exact h

theorem Button.after_downInv (cs : List Button.Call) (s : Button) (h : s.DownInv) :
    (s.after cs).DownInv := by
  induction cs generalizing s with
  | nil => exact h
  | cons c cs ih => exact ih _ (Button.call_downInv s c h)

theorem AgileButton.agile_after_downInv (cs : List AgileButton.Call) (s : AgileButton)
    (h : s.DownInv) : (s.after cs).DownInv := by
  induction cs generalizing s with
  | nil => exact h
  | cons c cs ih => exact ih _ (AgileButton.agile_call_downInv s c h)

theorem Button.step_release (d : Button) (a : Bool) (now : Nat) (hs : d.state_ = State.kDown)
    (hup : EventType.kButtonUp ∈ (d.step a now).2.map Button.Emit.kind) :
    a = false ∧ (d.step a now).2.map Button.Emit.kind = [EventType.kButtonUp] ∧
      (d.step a now).1.state_ = State.kCount ∧
      (d.step a now).1.last_debounced_pin_level_ = d.last_debounced_pin_level_ ∧
      (d.step a now).1.last_pin_level_ = d.last_pin_level_ ∧
      (d.step a now).1.active_level_ = d.active_level_ := by
  revert hup
  unfold Button.step
  simp only [hs]
  cases a <;>
    simp only [Bool.not_true, Bool.not_false, Bool.true_and, Bool.false_eq_true, if_true,
      if_false] <;>
    (try split_ifs) <;> simp

theorem Button.step_finalise (d : Button) (now : Nat) (hs : d.state_ = State.kCount)
    (h3 : d.click_count_ ≥ d.max_click_count_) :
    (d.step false now).2.map (fun e => (e.kind, e.click_count)) =
      [(EventType.kButtonClick, some d.click_count_)] := by
  unfold Button.step
  simp [hs, h3]

/-- A release on the click path: the tick emits ButtonUp alone, and the
debouncer of the `Button` has just committed the inactive level. -/
theorem Button.release_synced (s : Button) (raw now : Nat) (hs : s.state_ = State.kDown)
    (hinv : s.last_debounced_pin_level_ = s.active_level_)
    (hup : EventType.kButtonUp ∈ (s.Tick raw now).2.map Button.Emit.kind) :
    (s.Tick raw now).2.map Button.Emit.kind = [EventType.kButtonUp] ∧
      (s.Tick raw now).1.state_ = State.kCount ∧
      (s.Tick raw now).1.last_debounced_pin_level_ = (s.Tick raw now).1.last_pin_level_ ∧
      (s.Tick raw now).1.last_debounced_pin_level_ ≠ (s.Tick raw now).1.active_level_ := by
  obtain ⟨e2, est, -, -, eact, echg, -⟩ := Button.Debounce_spec s (raw % 256) now
  unfold Button.Tick at hup ⊢
  simp only at hup ⊢
  obtain ⟨ha, r1, r2, r3, r4, r5⟩ := Button.step_release _ _ now (by rw [est]; exact hs) hup
  refine ⟨r1, r2, ?_, ?_⟩
  · rw [r3, r4]
    rcases echg with hc | hc
    · rw [e2, hc, hinv] at ha
      simp at ha
    · exact hc
  · rw [r3, r5, eact]
    rw [e2] at ha
    simpa using ha

/-- In Counting with the counter at the maximum and a debouncer that has just
committed the inactive level, the next tick of a `Button` emits the Click. -/
theorem Button.finalise_synced (r : Button) (raw now : Nat) (hs : r.state_ = State.kCount)
    (h1 : r.last_debounced_pin_level_ = r.last_pin_level_)
    (h2 : r.last_debounced_pin_level_ ≠ r.active_level_)
    (h3 : r.click_count_ ≥ r.max_click_count_) :
    (r.Tick raw now).2.map (fun e => (e.kind, e.click_count)) =
      [(EventType.kButtonClick, some r.click_count_)] := by
  obtain ⟨e2, est, ecnt, emax, -, -, esync⟩ := Button.Debounce_spec r (raw % 256) now
  unfold Button.Tick
  simp only
  have ha : decide ((r.Debounce (raw % 256) now).2 = r.active_level_) = false := by
    rw [e2, esync h1]
    simpa using h2
  rw [ha, ← ecnt]
  exact Button.step_finalise _ now (by rw [est]; exact hs) (by rw [ecnt, emax]; exact h3)

theorem AgileButton.agile_step_release (d : AgileButton) (now : Nat) (hs : d.state_ = State.kDown)
    (hup : EventType.kButtonUp ∈ (d.step now).2.map Event.event_type) :
    d.active_ = false ∧ (d.step now).2.map Event.event_type = [EventType.kButtonUp] ∧
      (d.step now).1.state_ = State.kCount ∧
      (d.step now).1.active_ = d.active_ ∧
      (d.step now).1.debouncing_value_ = d.debouncing_value_ := by
  revert hup
  unfold AgileButton.step
  simp only [hs]
  rcases ha : d.active_ <;>
    simp only [Bool.not_true, Bool.not_false, Bool.true_and, Bool.false_eq_true, if_true,
      if_false] <;>
    (try split_ifs) <;> simp [ha]

theorem AgileButton.agile_step_finalise (d : AgileButton) (now : Nat) (hs : d.state_ = State.kCount)
    (ha : d.active_ = false) (h3 : d.click_count_ ≥ d.max_click_count_) :
    (d.step now).2.map (fun e => (e.event_type, e.click_count)) =
      [(EventType.kButtonClick, some d.click_count_)] := by
  unfold AgileButton.step
  simp [hs, h3, ha]

theorem AgileButton.agile_release_synced (s : AgileButton) (raw now : Nat)
    (hs : s.state_ = State.kDown) (hinv : s.active_ = true)
    (hup : EventType.kButtonUp ∈ (s.Tick raw now).2.map Event.event_type) :
    (s.Tick raw now).2.map Event.event_type = [EventType.kButtonUp] ∧
      (s.Tick raw now).1.state_ = State.kCount ∧
      (s.Tick raw now).1.active_ = (s.Tick raw now).1.debouncing_value_ ∧
      (s.Tick raw now).1.active_ = false := by
  obtain ⟨est, -, -, echg, -⟩ := AgileButton.debounce_spec s raw now
  unfold AgileButton.Tick at hup ⊢
  obtain ⟨ha, r1, r2, r3, r4⟩ := AgileButton.agile_step_release _ now (by rw [est]; exact hs) hup
  refine ⟨r1, r2, ?_, ?_⟩
  · rw [r3, r4]
    rcases echg with hc | hc
    · rw [hc, hinv] at ha
      simp at ha
    · exact hc
  · rw [r3]
    exact ha

theorem AgileButton.agile_finalise_synced (r : AgileButton) (raw now : Nat)
    (hs : r.state_ = State.kCount) (h1 : r.active_ = r.debouncing_value_)
    (h2 : r.active_ = false) (h3 : r.click_count_ ≥ r.max_click_count_) :
    (r.Tick raw now).2.map (fun e => (e.event_type, e.click_count)) =
      [(EventType.kButtonClick, some r.click_count_)] := by
  obtain ⟨est, ecnt, emax, -, esync⟩ := AgileButton.debounce_spec r raw now
  unfold AgileButton.Tick
  rw [← ecnt]
  exact AgileButton.agile_step_finalise _ now (by rw [est]; exact hs) (by rw [esync h1]; exact h2)
    (by rw [ecnt, emax]; exact h3)

set_option maxRecDepth 100000 in
/-- C6 (as stated) fails: in the two-click scenario (debounce 50, long-press
800, window 400, max 2, polled every millisecond, raw level active on
`[0, 100)` and `[300, 400)`) the emitted events are not ButtonDown at 50,
ButtonUp at 150, ButtonDown at 350, ButtonUp at 450 and Click(2) at 450, neither
for `Button` nor for `AgileButton`. -/
theorem C6_click_not_on_release_tick :
    ((Button.new 2 LOW).SetOnClick none 0 2).timeline (twoClicks LOW HIGH 700) ≠
        [(50, EventType.kButtonDown, none), (150, EventType.kButtonUp, none),
         (350, EventType.kButtonDown, none), (450, EventType.kButtonUp, none),
         (450, EventType.kButtonClick, some 2)] ∧
      ((AgileButton.new 2 LOW).SetMaxDetectedClickCount 2).timeline (twoClicks LOW HIGH 700) ≠
        [(50, EventType.kButtonDown, none), (150, EventType.kButtonUp, none),
         (350, EventType.kButtonDown, none), (450, EventType.kButtonUp, none),
         (450, EventType.kButtonClick, some 2)] := by
  decide!

set_option maxRecDepth 100000 in
/-- C6 (amended). In the two-click scenario the emitted events are ButtonDown
at 50, ButtonUp at 150, ButtonDown at 350, ButtonUp at 450 and Click(2) at 451,
for `Button` and for `AgileButton`. In general, in any run from a freshly
constructed object (ticks and reconfigurations), when a tick in state Down
emits ButtonUp and leaves the click counter at or above `max_click_count_`,
that tick emits ButtonUp alone and the very next tick, whatever its raw level
and time, emits exactly the Click carrying that counter value. -/
theorem C6_click_on_next_tick :
    ((Button.new 2 LOW).SetOnClick none 0 2).timeline (twoClicks LOW HIGH 700) =
        [(50, EventType.kButtonDown, none), (150, EventType.kButtonUp, none),
         (350, EventType.kButtonDown, none), (450, EventType.kButtonUp, none),
         (451, EventType.kButtonClick, some 2)] ∧
      ((AgileButton.new 2 LOW).SetMaxDetectedClickCount 2).timeline (twoClicks LOW HIGH 700) =
        [(50, EventType.kButtonDown, none), (150, EventType.kButtonUp, none),
         (350, EventType.kButtonDown, none), (450, EventType.kButtonUp, none),
         (451, EventType.kButtonClick, some 2)] ∧
      (∀ (pin active_level : Nat) (cs : List Button.Call) (raw now raw2 now2 : Nat),
        ((Button.new pin active_level).after cs).state_ = State.kDown →
        EventType.kButtonUp ∈
          (((Button.new pin active_level).after cs).Tick raw now).2.map Button.Emit.kind →
        (((Button.new pin active_level).after cs).Tick raw now).1.click_count_ ≥
          (((Button.new pin active_level).after cs).Tick raw now).1.max_click_count_ →
        (((Button.new pin active_level).after cs).Tick raw now).2.map Button.Emit.kind =
            [EventType.kButtonUp] ∧
          (((((Button.new pin active_level).after cs).Tick raw now).1.Tick raw2 now2).2.map
              (fun e => (e.kind, e.click_count)) =
            [(EventType.kButtonClick,
              some (((Button.new pin active_level).after cs).Tick raw now).1.click_count_)])) ∧
      (∀ (pin active_level : Nat) (cs : List AgileButton.Call) (raw now raw2 now2 : Nat),
        ((AgileButton.new pin active_level).after cs).state_ = State.kDown →
        EventType.kButtonUp ∈
          (((AgileButton.new pin active_level).after cs).Tick raw now).2.map Event.event_type →
        (((AgileButton.new pin active_level).after cs).Tick raw now).1.click_count_ ≥
          (((AgileButton.new pin active_level).after cs).Tick raw now).1.max_click_count_ →
        (((AgileButton.new pin active_level).after cs).Tick raw now).2.map Event.event_type =
            [EventType.kButtonUp] ∧
          (((((AgileButton.new pin active_level).after cs).Tick raw now).1.Tick raw2 now2).2.map
              (fun e => (e.event_type, e.click_count)) =
            [(EventType.kButtonClick,
              some
                (((AgileButton.new pin active_level).after cs).Tick raw now).1.click_count_)])) := by
  refine ⟨by rfl, by rfl, ?_, ?_⟩
  · intro pin active_level cs raw now raw2 now2 hs hup hge
    have hinv := Button.after_downInv cs (Button.new pin active_level)
      (fun h => by simp [Button.new] at h) hs
    obtain ⟨r1, r2, r3, r4⟩ := Button.release_synced _ raw now hs hinv hup
    exact ⟨r1, Button.finalise_synced _ raw2 now2 r2 r3 r4 hge⟩
  · intro pin active_level cs raw now raw2 now2 hs hup hge
    have hinv := AgileButton.agile_after_downInv cs (AgileButton.new pin active_level)
      (fun h => by simp [AgileButton.new] at h) hs
    obtain ⟨r1, r2, r3, r4⟩ := AgileButton.agile_release_synced _ raw now hs hinv hup
    exact ⟨r1, AgileButton.agile_finalise_synced _ raw2 now2 r2 r3 r4 hge⟩

/-! ## The click counter across an abandoned burst -/

/-- C9 at the failing input: with a maximum of two clicks, a click followed by
a press that becomes a long press brings the machine back to Idle with the
click counter still 1 (for `Button` and for `AgileButton`), and a later single
click is then reported as a Click with count 2. -/
theorem C9_counter_survives_long_press :
    (((Button.new 2 LOW).after
          (Button.Call.SetOnClick none 0 2 :: Button.ticks (abandonedBurst LOW HIGH))).state_ =
        State.kIdle ∧
      ((Button.new 2 LOW).after
          (Button.Call.SetOnClick none 0 2 :: Button.ticks (abandonedBurst LOW HIGH))).click_count_ =
        1 ∧
      ((Button.new 2 LOW).SetOnClick none 0 2).timeline
          (abandonedBurst LOW HIGH ++ laterSingleClick LOW HIGH) =
        [(50, EventType.kButtonDown, none), (150, EventType.kButtonUp, none),
         (250, EventType.kButtonDown, none), (1050, EventType.kButtonLongPressBegin, none),
         (1300, EventType.kButtonDuringLongPress, none),
         (1350, EventType.kButtonUp, none), (1350, EventType.kButtonLongPressEnd, none),
         (2050, EventType.kButtonDown, none), (2150, EventType.kButtonUp, none),
         (2151, EventType.kButtonClick, some 2)]) ∧
    (((AgileButton.new 2 LOW).after
          (AgileButton.Call.SetMaxDetectedClickCount 2 ::
            AgileButton.ticks (abandonedBurst LOW HIGH))).state_ = State.kIdle ∧
      ((AgileButton.new 2 LOW).after
          (AgileButton.Call.SetMaxDetectedClickCount 2 ::
            AgileButton.ticks (abandonedBurst LOW HIGH))).click_count_ = 1 ∧
      ((AgileButton.new 2 LOW).SetMaxDetectedClickCount 2).timeline
          (abandonedBurst LOW HIGH ++ laterSingleClick LOW HIGH) =
        [(50, EventType.kButtonDown, none), (150, EventType.kButtonUp, none),
         (250, EventType.kButtonDown, none), (1050, EventType.kButtonLongPressBegin, none),
         (1300, EventType.kButtonDuringLongPress, none),
         (1350, EventType.kButtonUp, none), (1350, EventType.kButtonLongPressEnd, none),
         (2050, EventType.kButtonDown, none), (2150, EventType.kButtonUp, none),
         (2151, EventType.kButtonClick, some 2)]) := by
  decide

/-! ## Instances at concrete inputs -/

/-- C1 at concrete inputs: a `Button` in Down released at 150, and an
`AgileButton` in Down still held at 850. -/
theorem C1_down_step_witness :
    (Button.sampleDown.state_ = State.kDown ∧
      (Button.step Button.sampleDown false 150).1.click_count_ = 1 ∧
      (Button.step Button.sampleDown false 150).1.last_click_time_ = 150 ∧
      (Button.step Button.sampleDown false 150).2.map Button.Emit.kind = [EventType.kButtonUp] ∧
      (Button.step Button.sampleDown false 150).1.state_ = State.kCount) ∧
    (AgileButton.sampleDown.state_ = State.kDown ∧ AgileButton.sampleDown.active_ = true ∧
      (AgileButton.step AgileButton.sampleDown 850).1.last_during_long_press_notification_time_ =
        850 ∧
      (AgileButton.step AgileButton.sampleDown 850).2.map Event.event_type =
        [EventType.kButtonLongPressBegin] ∧
      (AgileButton.step AgileButton.sampleDown 850).1.state_ = State.kLongPress) :=
  ⟨⟨by decide,
      ((C1_down_step.1 Button.sampleDown false 150 (by decide)).1 rfl).1,
      ((C1_down_step.1 Button.sampleDown false 150 (by decide)).1 rfl).2.2.1,
      ((C1_down_step.1 Button.sampleDown false 150 (by decide)).1 rfl).2.2.2.1,
      ((C1_down_step.1 Button.sampleDown false 150 (by decide)).1 rfl).2.2.2.2⟩,
   ⟨by decide, by decide,
      (C1_down_step.2 AgileButton.sampleDown 850 (by decide)).2.1 (by decide) (by decide)⟩⟩

/-- C2 at concrete inputs: a `Button` in Counting whose window has elapsed at
550, and an `AgileButton` in Counting at the same time. -/
theorem C2_counting_step_witness :
    (Button.sampleCounting.state_ = State.kCount ∧
      (Button.step Button.sampleCounting false 550).2.map (fun e => (e.kind, e.click_count)) =
        [(EventType.kButtonClick, some 1)] ∧
      (Button.step Button.sampleCounting false 550).1.click_count_ = 0 ∧
      (Button.step Button.sampleCounting false 550).1.state_ = State.kIdle) ∧
    (AgileButton.sampleCounting.state_ = State.kCount ∧
      AgileButton.sampleCounting.active_ = false ∧
      (AgileButton.step AgileButton.sampleCounting 550).2.map
          (fun e => (e.event_type, e.click_count)) = [(EventType.kButtonClick, some 1)] ∧
      (AgileButton.step AgileButton.sampleCounting 550).1.click_count_ = 0 ∧
      (AgileButton.step AgileButton.sampleCounting 550).1.state_ = State.kIdle) :=
  ⟨⟨by decide,
      (C2_counting_step.1 Button.sampleCounting false 550 (by decide)).2.1 rfl (by decide)⟩,
   ⟨by decide, by decide,
      (C2_counting_step.2 AgileButton.sampleCounting 550 (by decide)).2.1 (by decide)
        (by decide)⟩⟩

/-- C3 at concrete inputs: a `Button` in LongPress released at 2050, and an
`AgileButton` in LongPress still held at 950. -/
theorem C3_long_press_step_witness :
    (Button.sampleLongPress.state_ = State.kLongPress ∧
      (Button.step Button.sampleLongPress false 2050).2.map Button.Emit.kind =
        [EventType.kButtonUp, EventType.kButtonLongPressEnd] ∧
      (Button.step Button.sampleLongPress false 2050).1.state_ = State.kIdle) ∧
    (AgileButton.sampleLongPress.state_ = State.kLongPress ∧
      AgileButton.sampleLongPress.active_ = true ∧
      (AgileButton.step AgileButton.sampleLongPress 950).2.map Event.event_type =
        [EventType.kButtonDuringLongPress] ∧
      (AgileButton.step AgileButton.sampleLongPress 950).1.last_during_long_press_notification_time_
        = 950 ∧
      (AgileButton.step AgileButton.sampleLongPress 950).1.state_ = State.kLongPress) :=
  ⟨⟨by decide,
      (C3_long_press_step.1 Button.sampleLongPress false 2050 (by decide)).1 rfl⟩,
   ⟨by decide, by decide,
      (C3_long_press_step.2 AgileButton.sampleLongPress 950 (by decide)).2.1 (by decide)
        (by decide)⟩⟩

/-- C4 at concrete inputs: a fresh `Button` whose debounced level is active at
50, and a fresh `AgileButton` whose debounced level is inactive. -/
theorem C4_idle_step_witness :
    ((Button.new 2 LOW).state_ = State.kIdle ∧
      (Button.step (Button.new 2 LOW) true 50).1.last_down_time_ = 50 ∧
      (Button.step (Button.new 2 LOW) true 50).2.map Button.Emit.kind =
        [EventType.kButtonDown] ∧
      (Button.step (Button.new 2 LOW) true 50).1.state_ = State.kDown) ∧
    ((AgileButton.new 2 LOW).state_ = State.kIdle ∧ (AgileButton.new 2 LOW).active_ = false ∧
      AgileButton.step (AgileButton.new 2 LOW) 50 = (AgileButton.new 2 LOW, [])) :=
  ⟨⟨by decide, (C4_idle_step.2.2.1 (Button.new 2 LOW) true 50 (by decide)).1 rfl⟩,
   ⟨by decide, by decide,
      (C4_idle_step.2.2.2 (AgileButton.new 2 LOW) 50 (by decide)).2 (by decide)⟩⟩

/-- C6 (amended) at a concrete input: a `Button` with a maximum of two clicks,
second release debounced at 450; the Click follows on the tick at 451. -/
theorem C6_click_on_next_tick_witness :
    ((Button.new 2 LOW).after (Button.Call.SetOnClick none 0 2 ::
        Button.ticks [(LOW, 0), (LOW, 50), (HIGH, 100), (HIGH, 150), (LOW, 300), (LOW, 350),
          (HIGH, 400)])).state_ = State.kDown ∧
      EventType.kButtonUp ∈
        (((Button.new 2 LOW).after (Button.Call.SetOnClick none 0 2 ::
          Button.ticks [(LOW, 0), (LOW, 50), (HIGH, 100), (HIGH, 150), (LOW, 300), (LOW, 350),
            (HIGH, 400)])).Tick HIGH 450).2.map Button.Emit.kind ∧
      (((Button.new 2 LOW).after (Button.Call.SetOnClick none 0 2 ::
          Button.ticks [(LOW, 0), (LOW, 50), (HIGH, 100), (HIGH, 150), (LOW, 300), (LOW, 350),
            (HIGH, 400)])).Tick HIGH 450).2.map Button.Emit.kind = [EventType.kButtonUp] ∧
      ((((Button.new 2 LOW).after (Button.Call.SetOnClick none 0 2 ::
          Button.ticks [(LOW, 0), (LOW, 50), (HIGH, 100), (HIGH, 150), (LOW, 300), (LOW, 350),
            (HIGH, 400)])).Tick HIGH 450).1.Tick HIGH 451).2.map
          (fun e => (e.kind, e.click_count)) = [(EventType.kButtonClick, some 2)] :=
  ⟨by decide, by decide,
    C6_click_on_next_tick.2.2.1 2 LOW (Button.Call.SetOnClick none 0 2 ::
        Button.ticks [(LOW, 0), (LOW, 50), (HIGH, 100), (HIGH, 150), (LOW, 300), (LOW, 350),
          (HIGH, 400)]) HIGH 450 HIGH 451 (by decide) (by decide) (by decide)⟩

/-- C8 at a concrete input: a `Button` whose long press begins at 850, is
notified at 900 and 1000 and is released (debounced) at 1050. -/
theorem C8_long_press_exclusive_witness :
    EventType.kButtonLongPressBegin ∈ (Button.sampleDown.Tick LOW 850).2.map Button.Emit.kind ∧
      (((Button.sampleDown.Tick LOW 850).1.emitted
            (Button.ticks [(LOW, 900), (HIGH, 1000), (HIGH, 1050), (HIGH, 1100)]))[2]? =
          some [EventType.kButtonUp, EventType.kButtonLongPressEnd] ∨
        ((Button.sampleDown.Tick LOW 850).1.emitted
            (Button.ticks [(LOW, 900), (HIGH, 1000), (HIGH, 1050), (HIGH, 1100)]))[2]? =
          some [] ∨
        ((Button.sampleDown.Tick LOW 850).1.emitted
            (Button.ticks [(LOW, 900), (HIGH, 1000), (HIGH, 1050), (HIGH, 1100)]))[2]? =
          some [EventType.kButtonDuringLongPress]) ∧
      ((Button.sampleDown.Tick LOW 850).1.after
          ((Button.ticks [(LOW, 900), (HIGH, 1000), (HIGH, 1050), (HIGH, 1100)]).take
            (2 + 1))).click_count_ = (Button.sampleDown.Tick LOW 850).1.click_count_ :=
  ⟨by decide,
    C8_long_press_exclusive.1 Button.sampleDown LOW 850
      (Button.ticks [(LOW, 900), (HIGH, 1000), (HIGH, 1050), (HIGH, 1100)]) 2 (by decide)
      (by decide) (by decide)⟩

/-- C10 at a concrete input: a `Button` with a maximum of two clicks run over a
click, an abandoned second press and a later single click. -/
theorem C10_click_count_range_witness :
    (∀ c ∈ [Button.Call.SetOnClick none 0 2], c.isTick = false) ∧
      1 ≤ ((Button.new 2 LOW).after [Button.Call.SetOnClick none 0 2]).max_click_count_ ∧
      (∀ x ∈ ((Button.new 2 LOW).after [Button.Call.SetOnClick none 0 2]).clicks
            (Button.ticks (abandonedBurst LOW HIGH ++ laterSingleClick LOW HIGH)),
        ∃ c, x = some c ∧ 1 ≤ c ∧
          c ≤ ((Button.new 2 LOW).after [Button.Call.SetOnClick none 0 2]).max_click_count_) ∧
      ((((Button.new 2 LOW).after [Button.Call.SetOnClick none 0 2]).after
            (Button.ticks (abandonedBurst LOW HIGH ++ laterSingleClick LOW HIGH))).click_count_ ≤
          ((Button.new 2 LOW).after [Button.Call.SetOnClick none 0 2]).max_click_count_ ∧
        ((Button.new 2 LOW).after [Button.Call.SetOnClick none 0 2]).max_click_count_ ≤ 255) :=
  ⟨by decide, by decide,
    C10_click_count_range.1 2 LOW [Button.Call.SetOnClick none 0 2]
      (abandonedBurst LOW HIGH ++ laterSingleClick LOW HIGH) (by decide) (by decide)⟩

/-! ## Click counting -/

theorem Button.step_fsm (s : Button) (active : Bool) (now : Nat) :
    ((s.step active now).1.fsm, (s.step active now).2.map (fun e => (e.kind, e.click_count))) =
      s.fsm.step active now := by
  unfold Button.step Fsm.step
  rcases hs : s.state_ <;> simp only [Button.fsm, hs] <;> (try split_ifs) <;> simp_all

theorem AgileButton.agile_step_fsm (s : AgileButton) (now : Nat) :
    ((s.step now).1.fsm, (s.step now).2.map (fun e => (e.event_type, e.click_count))) =
      s.fsm.step s.active_ now := by
  unfold AgileButton.step Fsm.step
  rcases hs : s.state_ <;> simp only [AgileButton.fsm, hs] <;> (try split_ifs) <;> simp_all

theorem Button.Debounce_fsm (s : Button) (value now : Nat) :
    (s.Debounce value now).1.fsm = s.fsm := by
  unfold Button.Debounce
  split_ifs <;> rfl

theorem AgileButton.debounce_fsm (s : AgileButton) (raw now : Nat) :
    (s.debounce raw now).fsm = s.fsm := by
  unfold AgileButton.debounce
  split_ifs <;> rfl

/-- The Click events of a tick-only run of a `Button` are those of the state
machine run over the debounced inputs. -/
theorem Button.clicks_fsm (ts : List (Nat × Nat)) (s : Button) :
    s.clicks (Button.ticks ts) = Fsm.clicksOf (s.fsm.run (s.levels ts)).2 := by
  induction ts generalizing s with
  | nil => rfl
  | cons t ts ih =>
    have h := Button.step_fsm (s.Debounce (t.1 % 256) t.2).1
      (decide ((s.Debounce (t.1 % 256) t.2).2 = s.active_level_)) t.2
    rw [Button.Debounce_fsm] at h
    have h1 := congrArg Prod.fst h
    have h2 := congrArg Prod.snd h
    simp only at h1 h2
    simp only [Button.ticks, List.map_cons, Button.clicks, Button.call, Button.levels, Fsm.run]
    have ih1 := ih (s.Tick t.1 t.2).1
    simp only [Button.ticks] at ih1
    rw [ih1]
    simp only [Button.Tick]
    rw [← h1, ← h2]
    simp [Fsm.clicksOf, List.filter_map, Function.comp_def]

theorem AgileButton.agile_clicks_fsm (ts : List (Nat × Nat)) (s : AgileButton) :
    s.clicks (AgileButton.ticks ts) = Fsm.clicksOf (s.fsm.run (s.levels ts)).2 := by
  induction ts generalizing s with
  | nil => rfl
  | cons t ts ih =>
    have h := AgileButton.agile_step_fsm (s.debounce t.1 t.2) t.2
    rw [AgileButton.debounce_fsm] at h
    have h1 := congrArg Prod.fst h
    have h2 := congrArg Prod.snd h
    simp only at h1 h2
    simp only [AgileButton.ticks, List.map_cons, AgileButton.clicks, AgileButton.call,
      AgileButton.levels, Fsm.run]
    have ih1 := ih (s.Tick t.1 t.2).1
    simp only [AgileButton.ticks] at ih1
    rw [ih1]
    simp only [AgileButton.Tick]
    rw [← h1, ← h2]
    simp [Fsm.clicksOf, List.filter_map, Function.comp_def]

theorem Button.levels_times (ts : List (Nat × Nat)) (s : Button) :
    (s.levels ts).map Prod.snd = ts.map Prod.snd := by
  induction ts generalizing s with
  | nil => rfl
  | cons t ts ih => simp [Button.levels, ih]

theorem AgileButton.agile_levels_times (ts : List (Nat × Nat)) (s : AgileButton) :
    (s.levels ts).map Prod.snd = ts.map Prod.snd := by
  induction ts generalizing s with
  | nil => rfl
  | cons t ts ih => simp [AgileButton.levels, ih]

theorem Fsm.run_append (xs ys : List (Bool × Nat)) (f : Fsm) :
    f.run (xs ++ ys) = (((f.run xs).1.run ys).1, (f.run xs).2 ++ ((f.run xs).1.run ys).2) := by
  induction xs generalizing f with
  | nil => rfl
  | cons x xs ih => simp [Fsm.run, ih, List.append_assoc]

theorem Fsm.run_cons (x : Bool × Nat) (xs : List (Bool × Nat)) (f : Fsm) :
    f.run (x :: xs) =
      (((f.step x.1 x.2).1.run xs).1, (f.step x.1 x.2).2 ++ ((f.step x.1 x.2).1.run xs).2) :=
  rfl

theorem Fsm.clicksOf_append (a b : List (EventType × Option Nat)) :
    Fsm.clicksOf (a ++ b) = Fsm.clicksOf a ++ Fsm.clicksOf b := by
  simp [Fsm.clicksOf]

/-- In Idle, inactive ticks change nothing. -/
theorem Fsm.run_idle (ts : List Nat) (f : Fsm) (h : f.state_ = State.kIdle) :
    f.run (ts.map (fun t => (false, t))) = (f, []) := by
  induction ts with
  | nil => rfl
  | cons t ts ih =>
    have hstep : f.step false t = (f, []) := by simp [Fsm.step, h]
    simp [Fsm.run, hstep, ih]

/-- In Down, active ticks before the long-press threshold change nothing. -/
theorem Fsm.run_hold (ts : List Nat) (f : Fsm) (h : f.state_ = State.kDown)
    (hlt : ∀ t ∈ ts, sub32 t f.last_down_time_ < f.long_press_detected_interval_) :
    f.run (ts.map (fun t => (true, t))) = (f, []) := by
  induction ts with
  | nil => rfl
  | cons t ts ih =>
    have ht := hlt t (List.mem_cons_self _ _)
    have hstep : f.step true t = (f, []) := by simp [Fsm.step, h, ht]
    have ih1 := ih (fun t' ht' => hlt t' (List.mem_cons_of_mem _ ht'))
    simp [Fsm.run, hstep, ih1]

/-- In Counting below the click budget, inactive ticks inside the multi-click
window change nothing. -/
theorem Fsm.run_wait (ts : List Nat) (f : Fsm) (h : f.state_ = State.kCount)
    (hcnt : f.click_count_ < f.max_click_count_)
    (hlt : ∀ t ∈ ts, sub32 t f.last_click_time_ < f.multiple_click_detected_interval_) :
    f.run (ts.map (fun t => (false, t))) = (f, []) := by
  induction ts with
  | nil => rfl
  | cons t ts ih =>
    have ht := hlt t (List.mem_cons_self _ _)
    have hstep : f.step false t = (f, []) := by
      simp [Fsm.step, h, ht, hcnt]
    have ih1 := ih (fun t' ht' => hlt t' (List.mem_cons_of_mem _ ht'))
    simp [Fsm.run, hstep, ih1]

/-- In Counting, a run of inactive ticks one of which meets the finalisation
condition emits exactly one Click, with the current counter value. -/
theorem Fsm.run_finalise (ts : List Nat) (f : Fsm) (h : f.state_ = State.kCount)
    (hex : ∃ t ∈ ts, f.max_click_count_ ≤ f.click_count_ ∨
      f.multiple_click_detected_interval_ ≤ sub32 t f.last_click_time_) :
    Fsm.clicksOf (f.run (ts.map (fun t => (false, t)))).2 = [some f.click_count_] := by
  induction ts with
  | nil => simp at hex
  | cons t ts ih =>
    by_cases hc : f.max_click_count_ ≤ f.click_count_ ∨
        f.multiple_click_detected_interval_ ≤ sub32 t f.last_click_time_
    · have hstep : f.step false t =
          ({ f with state_ := State.kIdle, click_count_ := 0 },
            [(EventType.kButtonClick, some f.click_count_)]) := by
        simp [Fsm.step, h, hc]
      have hrest := Fsm.run_idle ts { f with state_ := State.kIdle, click_count_ := 0 } rfl
      simp [Fsm.run, hstep, hrest, Fsm.clicksOf]
    · have hstep : f.step false t = (f, []) := by
        simp [Fsm.step, h, hc]
      have hex1 : ∃ t ∈ ts, f.max_click_count_ ≤ f.click_count_ ∨
          f.multiple_click_detected_interval_ ≤ sub32 t f.last_click_time_ := by
        obtain ⟨t', ht', hcond⟩ := hex
        rcases List.mem_cons.mp ht' with rfl | hmem
        · exact absurd hcond hc
        · exact ⟨t', hmem, hcond⟩
      simp [Fsm.run, hstep, ih hex1]

/-- From Idle or Counting, a press held below the long-press threshold and then
released leaves the machine in Counting with the counter incremented. -/
theorem Fsm.run_press (c : Cycle) (f : Fsm)
    (hst : f.state_ = State.kIdle ∨ f.state_ = State.kCount)
    (hhold : ∀ t ∈ c.holds, sub32 t c.press < f.long_press_detected_interval_) :
    f.run ((true, c.press) :: (c.holds.map (fun t => (true, t)) ++ [(false, c.release)])) =
      ({ f with state_ := State.kCount
                last_down_time_ := c.press
                click_count_ := inc8 f.click_count_
                last_click_time_ := c.release },
        [(EventType.kButtonDown, none), (EventType.kButtonUp, none)]) := by
  have hstep : f.step true c.press =
      ({ f with state_ := State.kDown, last_down_time_ := c.press },
        [(EventType.kButtonDown, none)]) := by
    rcases hst with h | h <;> simp [Fsm.step, h]
  have hhold1 := Fsm.run_hold c.holds { f with state_ := State.kDown, last_down_time_ := c.press }
    rfl hhold
  have hrel : ({ f with state_ := State.kDown, last_down_time_ := c.press } : Fsm).run
      [(false, c.release)] =
      ({ f with state_ := State.kCount
                last_down_time_ := c.press
                click_count_ := inc8 f.click_count_
                last_click_time_ := c.release },
        [(EventType.kButtonUp, none)]) := by
    simp [Fsm.run, Fsm.step]
  rw [Fsm.run_cons, hstep]
  simp only
  rw [Fsm.run_append, hhold1]
  simp only
  rw [hrel]
  rfl

theorem Cycle.levels_split (c : Cycle) :
    c.levels = ((true, c.press) :: (c.holds.map (fun t => (true, t)) ++ [(false, c.release)])) ++
      c.gaps.map (fun t => (false, t)) := by
  simp [Cycle.levels]

/-- The state machine over `init.length + 1` press/release cycles, started in
Idle or Counting. -/
theorem Fsm.run_cycles (init : List Cycle) (last : Cycle) (f : Fsm)
    (hst : f.state_ = State.kIdle ∨ f.state_ = State.kCount)
    (hmax : f.click_count_ + init.length + 1 ≤ f.max_click_count_)
    (h255 : f.max_click_count_ ≤ 255)
    (hhold : ∀ c ∈ init ++ [last], ∀ t ∈ c.holds,
      sub32 t c.press < f.long_press_detected_interval_)
    (hgap : ∀ c ∈ init, ∀ t ∈ c.gaps,
      sub32 t c.release < f.multiple_click_detected_interval_)
    (hfin : ∃ t ∈ last.gaps, f.max_click_count_ ≤ f.click_count_ + init.length + 1 ∨
      f.multiple_click_detected_interval_ ≤ sub32 t last.release) :
    Fsm.clicksOf (f.run ((init ++ [last]).flatMap Cycle.levels)).2 =
      [some (f.click_count_ + init.length + 1)] := by
  induction init generalizing f with
  | nil =>
    have hinc : inc8 f.click_count_ = f.click_count_ + 1 := by
      simp only [List.length_nil] at hmax
      unfold inc8
      omega
    have hp := Fsm.run_press last f hst (hhold last (by simp))
    simp only [List.nil_append, List.flatMap_cons, List.flatMap_nil, List.append_nil,
      Cycle.levels_split, Fsm.run_append, hp, Fsm.clicksOf_append]
    rw [Fsm.run_finalise last.gaps _ rfl (by simpa [hinc] using hfin)]
    simp [Fsm.clicksOf, hinc]
  | cons c init ih =>
    have hinc : inc8 f.click_count_ = f.click_count_ + 1 := by
      simp only [List.length_cons] at hmax
      unfold inc8
      omega
    have hp := Fsm.run_press c f hst (hhold c (by simp))
    have hw := Fsm.run_wait c.gaps
      { f with state_ := State.kCount
               last_down_time_ := c.press
               click_count_ := inc8 f.click_count_
               last_click_time_ := c.release } rfl
      (by simp only [List.length_cons] at hmax; simp only [hinc]; omega)
      (hgap c (by simp))
    have ih1 := ih
      { f with state_ := State.kCount
               last_down_time_ := c.press
               click_count_ := inc8 f.click_count_
               last_click_time_ := c.release } (Or.inr rfl)
      (by simp only [List.length_cons] at hmax; simp only [hinc]; omega) h255
      (fun c' hc' => hhold c' (by simp at hc' ⊢; tauto))
      (fun c' hc' => hgap c' (by simp; tauto))
      (by
        obtain ⟨t, ht, hcond⟩ := hfin
        refine ⟨t, ht, ?_⟩
        simp only [List.length_cons] at hcond
        simp only [hinc]
        rcases hcond with h | h
        · left; omega
        · right; exact h)
    simp only [List.cons_append, List.flatMap_cons, Fsm.run_append]
    rw [Cycle.levels_split, Fsm.run_append, hp, hw]
    simp only [Fsm.clicksOf_append, List.append_nil]
    rw [ih1]
    simp only [hinc, List.length_cons]
    simp [Fsm.clicksOf]
    omega

theorem Cycle.times_sublist (c : Cycle) (pre : List Nat) (cycles : List Cycle)
    (hc : c ∈ cycles) :
    List.Sublist (c.press :: (c.holds ++ c.release :: c.gaps))
      ((burst pre cycles).map Prod.snd) := by
  have h1 : List.Sublist c.levels (cycles.flatMap Cycle.levels) := by
    rw [List.flatMap_def]
    exact List.sublist_flatten_of_mem (List.mem_map_of_mem _ hc)
  have h2 : List.Sublist (cycles.flatMap Cycle.levels) (burst pre cycles) :=
    List.sublist_append_right _ _
  have h3 := (h1.trans h2).map Prod.snd
  simpa [Cycle.levels, Function.comp_def] using h3

/-- On a non-decreasing 32-bit clock the ticks of a cycle are ordered: press,
holds, release, gaps. -/
theorem Cycle.ordered_of_mem (c : Cycle) (pre : List Nat) (cycles : List Cycle)
    (hc : c ∈ cycles)
    (hs : ((burst pre cycles).map Prod.snd).Pairwise (fun a b => a ≤ b))
    (hb : ∀ t ∈ (burst pre cycles).map Prod.snd, t < 4294967296) :
    (∀ h ∈ c.holds, c.press ≤ h ∧ h ≤ c.release ∧ h < 4294967296) ∧
      (∀ g ∈ c.gaps, c.release ≤ g ∧ g < 4294967296) := by
  have hsub := Cycle.times_sublist c pre cycles hc
  have hp := hs.sublist hsub
  have hlt : ∀ t ∈ c.press :: (c.holds ++ c.release :: c.gaps), t < 4294967296 :=
    fun t ht => hb t (hsub.subset ht)
  rw [List.pairwise_cons, List.pairwise_append, List.pairwise_cons] at hp
  obtain ⟨hp1, -, ⟨hp2, -⟩, hp3⟩ := hp
  refine ⟨fun h hh => ⟨hp1 h (by simp [hh]), hp3 h hh c.release (by simp),
    hlt h (by simp [hh])⟩, fun g hg => ⟨hp2 g hg, hlt g (by simp [hg])⟩⟩

/-- Click counting on the state machine: from Idle with a zero counter, a
burst of `init.length + 1` press/release cycles on a non-decreasing 32-bit
clock yields exactly one Click, carrying `init.length + 1`. -/
theorem Fsm.fsm_burst_clicks (f : Fsm) (lv : List (Bool × Nat)) (pre : List Nat)
    (init : List Cycle) (last : Cycle)
    (hidle : f.state_ = State.kIdle) (hcnt : f.click_count_ = 0)
    (h255 : f.max_click_count_ ≤ 255)
    (hlv : lv = burst pre (init ++ [last]))
    (hs : (lv.map Prod.snd).Pairwise (fun a b => a ≤ b))
    (hb : ∀ t ∈ lv.map Prod.snd, t < 4294967296)
    (hN : init.length + 1 ≤ f.max_click_count_)
    (hpress : ∀ c ∈ init ++ [last], c.release - c.press < f.long_press_detected_interval_)
    (hgap : ∀ c ∈ init, ∀ g ∈ c.gaps, g - c.release < f.multiple_click_detected_interval_)
    (hfin : (∃ g ∈ last.gaps, f.multiple_click_detected_interval_ ≤ g - last.release) ∨
      (init.length + 1 = f.max_click_count_ ∧ last.gaps ≠ [])) :
    Fsm.clicksOf (f.run lv).2 = [some (init.length + 1)] := by
  subst hlv
  have hord := fun c hc => Cycle.ordered_of_mem c pre (init ++ [last]) hc hs hb
  have hmain := Fsm.run_cycles init last f (Or.inl hidle) (by omega) h255
    (fun c hc t ht => by
      obtain ⟨h1, h2, h3⟩ := (hord c hc).1 t ht
      rw [sub32_of_le h1 h3]
      have := hpress c hc
      omega)
    (fun c hc t ht => by
      obtain ⟨h1, h2⟩ := (hord c (by simp [hc])).2 t ht
      rw [sub32_of_le h1 h2]
      exact hgap c hc t ht)
    (by
      rcases hfin with ⟨g, hg, hw⟩ | ⟨hmax, hne⟩
      · obtain ⟨h1, h2⟩ := (hord last (by simp)).2 g hg
        exact ⟨g, hg, Or.inr (by rw [sub32_of_le h1 h2]; exact hw)⟩
      · obtain ⟨g, hg⟩ := List.exists_mem_of_ne_nil _ hne
        exact ⟨g, hg, Or.inl (by omega)⟩)
  unfold burst
  rw [Fsm.run_append, Fsm.run_idle pre f hidle]
  simp only [List.nil_append]
  rw [hmain, hcnt]
  simp

/-- Click counting for a `Button` that is idle with a zero counter. -/
theorem Button.burst_clicks (s : Button) (ts : List (Nat × Nat)) (pre : List Nat)
    (init : List Cycle) (last : Cycle)
    (hidle : s.state_ = State.kIdle) (hcnt : s.click_count_ = 0)
    (h255 : s.max_click_count_ ≤ 255)
    (hlv : s.levels ts = burst pre (init ++ [last]))
    (hs : (ts.map Prod.snd).Pairwise (fun a b => a ≤ b))
    (hb : ∀ t ∈ ts, t.2 < 4294967296)
    (hN : init.length + 1 ≤ s.max_click_count_)
    (hpress : ∀ c ∈ init ++ [last], c.release - c.press < s.long_press_detected_interval_)
    (hgap : ∀ c ∈ init, ∀ g ∈ c.gaps, g - c.release < s.multiple_click_detected_interval_)
    (hfin : (∃ g ∈ last.gaps, s.multiple_click_detected_interval_ ≤ g - last.release) ∨
      (init.length + 1 = s.max_click_count_ ∧ last.gaps ≠ [])) :
    s.clicks (Button.ticks ts) = [some (init.length + 1)] := by
  rw [Button.clicks_fsm]
  refine Fsm.fsm_burst_clicks s.fsm (s.levels ts) pre init last hidle hcnt h255 hlv ?_ ?_ hN hpress
    hgap hfin
  · rw [Button.levels_times]
    exact hs
  · rw [Button.levels_times]
    intro t ht
    obtain ⟨x, hx, rfl⟩ := List.mem_map.mp ht
    exact hb x hx

/-- Click counting for an `AgileButton` that is idle with a zero counter. -/
theorem AgileButton.agile_burst_clicks (s : AgileButton) (ts : List (Nat × Nat))
    (pre : List Nat) (init : List Cycle) (last : Cycle)
    (hidle : s.state_ = State.kIdle) (hcnt : s.click_count_ = 0)
    (h255 : s.max_click_count_ ≤ 255)
    (hlv : s.levels ts = burst pre (init ++ [last]))
    (hs : (ts.map Prod.snd).Pairwise (fun a b => a ≤ b))
    (hb : ∀ t ∈ ts, t.2 < 4294967296)
    (hN : init.length + 1 ≤ s.max_click_count_)
    (hpress : ∀ c ∈ init ++ [last], c.release - c.press < s.long_press_detected_interval_)
    (hgap : ∀ c ∈ init, ∀ g ∈ c.gaps, g - c.release < s.multiple_click_detected_interval_)
    (hfin : (∃ g ∈ last.gaps, s.multiple_click_detected_interval_ ≤ g - last.release) ∨
      (init.length + 1 = s.max_click_count_ ∧ last.gaps ≠ [])) :
    s.clicks (AgileButton.ticks ts) = [some (init.length + 1)] := by
  rw [AgileButton.agile_clicks_fsm]
  refine Fsm.fsm_burst_clicks s.fsm (s.levels ts) pre init last hidle hcnt h255 hlv ?_ ?_ hN hpress
    hgap hfin
  · rw [AgileButton.agile_levels_times]
    exact hs
  · rw [AgileButton.agile_levels_times]
    intro t ht
    obtain ⟨x, hx, rfl⟩ := List.mem_map.mp ht
    exact hb x hx

/-- C5 (as stated) fails when a gap equals the multi-click window: a `Button`
with debounce duration 0 and a maximum of two clicks is run on `boundaryTicks`.
The debounced level performs exactly two press/release cycles on a
non-decreasing 32-bit clock, both presses are shorter than the long-press
threshold, the gap between the first release (10) and the second press (410) is
400, at most the window, and the level stays inactive for 400 after the second
release; yet the run emits two Click events with count 1, not one with
count 2. -/
theorem C5_gap_equal_to_window_splits_burst :
    ((Button.new 2 LOW).after
        [Button.Call.SetDebounceDuration 0, Button.Call.SetOnClick none 0 2]).levels
        (boundaryTicks LOW HIGH) = burst [0] boundaryCycles ∧
      ((boundaryTicks LOW HIGH).map Prod.snd).Pairwise (fun a b => a ≤ b) ∧
      (∀ t ∈ boundaryTicks LOW HIGH, t.2 < 4294967296) ∧
      1 ≤ boundaryCycles.length ∧
      boundaryCycles.length ≤ ((Button.new 2 LOW).after
        [Button.Call.SetDebounceDuration 0, Button.Call.SetOnClick none 0 2]).max_click_count_ ∧
      (∀ c ∈ boundaryCycles, c.release - c.press < ((Button.new 2 LOW).after
        [Button.Call.SetDebounceDuration 0,
          Button.Call.SetOnClick none 0 2]).long_press_detected_interval_) ∧
      (∀ p ∈ boundaryCycles.zip boundaryCycles.tail,
        p.2.press - p.1.release ≤ ((Button.new 2 LOW).after
          [Button.Call.SetDebounceDuration 0,
            Button.Call.SetOnClick none 0 2]).multiple_click_detected_interval_) ∧
      (∃ g ∈ [820], ((Button.new 2 LOW).after
        [Button.Call.SetDebounceDuration 0,
          Button.Call.SetOnClick none 0 2]).multiple_click_detected_interval_ ≤ g - 420) ∧
      ((Button.new 2 LOW).after
        [Button.Call.SetDebounceDuration 0, Button.Call.SetOnClick none 0 2]).clicks
        (Button.ticks (boundaryTicks LOW HIGH)) = [some 1, some 1] ∧
      ((Button.new 2 LOW).after
        [Button.Call.SetDebounceDuration 0, Button.Call.SetOnClick none 0 2]).clicks
        (Button.ticks (boundaryTicks LOW HIGH)) ≠ [some boundaryCycles.length] := by
  decide

set_option maxRecDepth 100000 in
/-- C5 (amended). Click counting, for `Button` and for `AgileButton`: configure
a freshly constructed object by any calls other than `Tick` and run it on ticks
with non-decreasing times below `2^32`. Suppose the debounced level performs
exactly `N = init.length + 1` press/release cycles with `N <= max_click_count_`,
each press shorter than the long-press threshold, every tick sampled between a
release and the next press less than the multi-click window after that release,
and after the last release either some tick at least the window after it, or
`N = max_click_count_` and at least one more tick. Then the run emits exactly
one Click event, and its click count is `N`. The scenario of the claim is an
instance: debounce 50, long-press 800, window 400, max 2, polled every
millisecond, raw level active on `[0, 100)` gives ButtonDown at 50, ButtonUp at
150 and Click(1) at 550. -/
theorem C5_click_counting :
    (∀ (pin active_level : Nat) (cfg : List Button.Call) (ts : List (Nat × Nat))
        (pre : List Nat) (init : List Cycle) (last : Cycle),
      (∀ c ∈ cfg, c.isTick = false) →
      ((Button.new pin active_level).after cfg).levels ts = burst pre (init ++ [last]) →
      (ts.map Prod.snd).Pairwise (fun a b => a ≤ b) →
      (∀ t ∈ ts, t.2 < 4294967296) →
      init.length + 1 ≤ ((Button.new pin active_level).after cfg).max_click_count_ →
      (∀ c ∈ init ++ [last], c.release - c.press <
        ((Button.new pin active_level).after cfg).long_press_detected_interval_) →
      (∀ c ∈ init, ∀ g ∈ c.gaps, g - c.release <
        ((Button.new pin active_level).after cfg).multiple_click_detected_interval_) →
      ((∃ g ∈ last.gaps,
          ((Button.new pin active_level).after cfg).multiple_click_detected_interval_ ≤
            g - last.release) ∨
        (init.length + 1 = ((Button.new pin active_level).after cfg).max_click_count_ ∧
          last.gaps ≠ [])) →
      ((Button.new pin active_level).after cfg).clicks (Button.ticks ts) =
        [some (init.length + 1)]) ∧
    (∀ (pin active_level : Nat) (cfg : List AgileButton.Call) (ts : List (Nat × Nat))
        (pre : List Nat) (init : List Cycle) (last : Cycle),
      (∀ c ∈ cfg, c.isTick = false) →
      ((AgileButton.new pin active_level).after cfg).levels ts = burst pre (init ++ [last]) →
      (ts.map Prod.snd).Pairwise (fun a b => a ≤ b) →
      (∀ t ∈ ts, t.2 < 4294967296) →
      init.length + 1 ≤ ((AgileButton.new pin active_level).after cfg).max_click_count_ →
      (∀ c ∈ init ++ [last], c.release - c.press <
        ((AgileButton.new pin active_level).after cfg).long_press_detected_interval_) →
      (∀ c ∈ init, ∀ g ∈ c.gaps, g - c.release <
        ((AgileButton.new pin active_level).after cfg).multiple_click_detected_interval_) →
      ((∃ g ∈ last.gaps,
          ((AgileButton.new pin active_level).after cfg).multiple_click_detected_interval_ ≤
            g - last.release) ∨
        (init.length + 1 = ((AgileButton.new pin active_level).after cfg).max_click_count_ ∧
          last.gaps ≠ [])) →
      ((AgileButton.new pin active_level).after cfg).clicks (AgileButton.ticks ts) =
        [some (init.length + 1)]) ∧
    ((Button.new 2 LOW).SetOnClick none 0 2).timeline
        (polled LOW HIGH (fun t => decide (t < 100)) 700) =
      [(50, EventType.kButtonDown, none), (150, EventType.kButtonUp, none),
       (550, EventType.kButtonClick, some 1)] ∧
    ((AgileButton.new 2 LOW).SetMaxDetectedClickCount 2).timeline
        (polled LOW HIGH (fun t => decide (t < 100)) 700) =
      [(50, EventType.kButtonDown, none), (150, EventType.kButtonUp, none),
       (550, EventType.kButtonClick, some 1)] := by
  refine ⟨?_, ?_, by rfl, by rfl⟩
  · intro pin active_level cfg ts pre init last hcfg hlv hs hb hN hpress hgap hfin
    obtain ⟨c1, c2, -, c4⟩ := Button.after_config cfg (Button.new pin active_level) hcfg
      ⟨rfl, rfl, Nat.le_refl 1, by simp [Button.new]⟩
    exact Button.burst_clicks _ ts pre init last c1 c2 c4 hlv hs hb hN hpress hgap hfin
  · intro pin active_level cfg ts pre init last hcfg hlv hs hb hN hpress hgap hfin
    obtain ⟨c1, c2, c4⟩ := AgileButton.agile_after_config cfg (AgileButton.new pin active_level)
      hcfg ⟨rfl, rfl, by simp [AgileButton.new]⟩
    exact AgileButton.agile_burst_clicks _ ts pre init last c1 c2 c4 hlv hs hb hN hpress hgap
      hfin

/-- C5 (amended) at a concrete input: a `Button` with a maximum of two clicks on
`doubleClickTicks`; the two cycles yield exactly one Click with count 2. -/
theorem C5_click_counting_witness :
    (∀ c ∈ [Button.Call.SetOnClick none 0 2], c.isTick = false) ∧
      ((Button.new 2 LOW).after [Button.Call.SetOnClick none 0 2]).levels
          (doubleClickTicks LOW HIGH) = burst [0, 10] ([doubleClickFirst] ++ [doubleClickSecond]) ∧
      ((doubleClickTicks LOW HIGH).map Prod.snd).Pairwise (fun a b => a ≤ b) ∧
      (∀ t ∈ doubleClickTicks LOW HIGH, t.2 < 4294967296) ∧
      [doubleClickFirst].length + 1 ≤
        ((Button.new 2 LOW).after [Button.Call.SetOnClick none 0 2]).max_click_count_ ∧
      (∀ c ∈ [doubleClickFirst] ++ [doubleClickSecond], c.release - c.press <
        ((Button.new 2 LOW).after
          [Button.Call.SetOnClick none 0 2]).long_press_detected_interval_) ∧
      (∀ c ∈ [doubleClickFirst], ∀ g ∈ c.gaps, g - c.release <
        ((Button.new 2 LOW).after
          [Button.Call.SetOnClick none 0 2]).multiple_click_detected_interval_) ∧
      ((∃ g ∈ doubleClickSecond.gaps,
          ((Button.new 2 LOW).after
            [Button.Call.SetOnClick none 0 2]).multiple_click_detected_interval_ ≤
              g - doubleClickSecond.release) ∨
        ([doubleClickFirst].length + 1 =
            ((Button.new 2 LOW).after [Button.Call.SetOnClick none 0 2]).max_click_count_ ∧
          doubleClickSecond.gaps ≠ [])) ∧
      ((Button.new 2 LOW).after [Button.Call.SetOnClick none 0 2]).clicks
          (Button.ticks (doubleClickTicks LOW HIGH)) = [some 2] :=
  ⟨by decide, by decide, by decide, by decide, by decide, by decide, by decide, by decide,
    C5_click_counting.1 2 LOW [Button.Call.SetOnClick none 0 2] (doubleClickTicks LOW HIGH)
      [0, 10] [doubleClickFirst] doubleClickSecond (by decide) (by decide) (by decide)
      (by decide) (by decide) (by decide) (by decide) (by decide)⟩

/-! ## The debouncer of `Button` -/

/-- C13. Debouncer contract of `Button::Debounce(value, now)`, for every object:
if `value` equals `last_pin_level_` and
`(now - last_debounce_time_) mod 2^32 >= debounce_duration_`, the stable level
becomes `value` and nothing else changes; if `value` equals `last_pin_level_`
and the elapsed time is below the duration, nothing changes; if `value`
differs, `last_debounce_time_` becomes `now`, `last_pin_level_` becomes `value`
and nothing else changes. The returned value is always the stable level after
the call, so it is `value` on the first call at or after the threshold. -/
theorem C13_debounce_contract :
    ∀ (s : Button) (value now : Nat),
      (value = s.last_pin_level_ →
        ((now : Int) - s.last_debounce_time_) % 4294967296 ≥ s.debounce_duration_ →
        (s.Debounce value now).1 = { s with last_debounced_pin_level_ := value } ∧
          (s.Debounce value now).1.last_pin_level_ = s.last_pin_level_ ∧
          (s.Debounce value now).1.last_debounce_time_ = s.last_debounce_time_ ∧
          (s.Debounce value now).2 = value) ∧
      (value = s.last_pin_level_ →
        ((now : Int) - s.last_debounce_time_) % 4294967296 < s.debounce_duration_ →
        s.Debounce value now = (s, s.last_debounced_pin_level_)) ∧
      (value ≠ s.last_pin_level_ →
        (s.Debounce value now).1 = { s with last_debounce_time_ := now, last_pin_level_ := value } ∧
          (s.Debounce value now).1.last_debounced_pin_level_ = s.last_debounced_pin_level_ ∧
          (s.Debounce value now).2 = s.last_debounced_pin_level_) ∧
      (s.Debounce value now).2 = (s.Debounce value now).1.last_debounced_pin_level_ := by
  intro s value now
  have hsub := sub32_eq_emod now s.last_debounce_time_
  refine ⟨?_, ?_, ?_, ?_⟩
  · intro hv hge
    have h : s.debounce_duration_ ≤ sub32 now s.last_debounce_time_ := by omega
    simp [Button.Debounce, hv, h]
  · intro hv hlt
    have h : ¬ s.debounce_duration_ ≤ sub32 now s.last_debounce_time_ := by omega
    simp [Button.Debounce, hv, h]
  · intro hv
    simp [Button.Debounce, hv]
  · unfold Button.Debounce
    split_ifs <;> rfl

/-- C13 at a concrete input: the active level, first read at time 0, is
committed by the call at time 50 (debounce duration 50). -/
theorem C13_debounce_contract_witness :
    LOW = Button.sampleDebouncing.last_pin_level_ ∧
      ((50 : Int) - Button.sampleDebouncing.last_debounce_time_) % 4294967296 ≥
        Button.sampleDebouncing.debounce_duration_ ∧
      (Button.sampleDebouncing.Debounce LOW 50).1 =
        { Button.sampleDebouncing with last_debounced_pin_level_ := LOW } ∧
      (Button.sampleDebouncing.Debounce LOW 50).1.last_pin_level_ =
        Button.sampleDebouncing.last_pin_level_ ∧
      (Button.sampleDebouncing.Debounce LOW 50).1.last_debounce_time_ =
        Button.sampleDebouncing.last_debounce_time_ ∧
      (Button.sampleDebouncing.Debounce LOW 50).2 = LOW :=
  ⟨by decide, by decide,
    (C13_debounce_contract Button.sampleDebouncing LOW 50).1 (by decide) (by decide)⟩

/-- C14 at the failing input: `SetDebounceDuration(256)` stores the duration 0
(and 300 is stored as 44), so a raw level first read active at time 0 is
committed at time 1, after 1 ms instead of 256 ms, and ButtonDown is emitted
there. -/
theorem C14_debounce_duration_truncated :
    ((Button.new 2 LOW).SetDebounceDuration 256).debounce_duration_ = 0 ∧
      ((Button.new 2 LOW).SetDebounceDuration 300).debounce_duration_ = 44 ∧
      ((Button.new 2 LOW).SetDebounceDuration 256).levels [(LOW, 0), (LOW, 1)] =
        [(false, 0), (true, 1)] ∧
      ((Button.new 2 LOW).SetDebounceDuration 256).timeline [(LOW, 0), (LOW, 1)] =
        [(1, EventType.kButtonDown, none)] := by
  decide

/-! ## Registration of the handlers of `Button` -/

/-- C15 at the failing input: with the six handlers registered with the
parameters 11 to 16, `SetOnClick` has overwritten the ButtonDown parameter and
`SetOnLongPressEnd` the LongPressBegin parameter, and the Click parameter is
never stored. On a click followed by a long press the ButtonDown handler
receives 13, the Click handler receives 0 (`nullptr`) and the LongPressBegin
handler receives 16. -/
theorem C15_user_parameters_mixed_up :
    Button.sampleRegistered.on_button_down_user_parameter_ = 13 ∧
      Button.sampleRegistered.on_click_user_parameter_ = 0 ∧
      Button.sampleRegistered.on_long_press_begin_user_parameter_ = 16 ∧
      Button.sampleRegistered.on_long_press_end_user_parameter_ = 0 ∧
      Button.sampleRegistered.emits (Button.ticks (clickThenLongPress LOW HIGH)) =
        [⟨EventType.kButtonDown, some 1, 13, none⟩,
         ⟨EventType.kButtonUp, some 2, 12, none⟩,
         ⟨EventType.kButtonClick, some 3, 0, some 1⟩,
         ⟨EventType.kButtonDown, some 1, 13, none⟩,
         ⟨EventType.kButtonLongPressBegin, some 4, 16, none⟩,
         ⟨EventType.kButtonDuringLongPress, some 5, 15, none⟩,
         ⟨EventType.kButtonUp, some 2, 12, none⟩,
         ⟨EventType.kButtonLongPressEnd, some 6, 16, none⟩] := by
  decide

/-! ## The maximum click count -/

/-- C16. `Button::SetOnClick` clamps the maximum click count: for every
`max_detected_click_count` `c` in `0..255` the stored `max_click_count_` is
`max 1 c`; in particular 0 is stored as 1. -/
theorem C16_button_clamps_max_click_count :
    ∀ (s : Button) (on_click : Option Nat) (user_parameter c : Nat), c ≤ 255 →
      (s.SetOnClick on_click user_parameter c).max_click_count_ = max 1 c ∧
      (c = 0 → (s.SetOnClick on_click user_parameter c).max_click_count_ = 1) := by
  intro s on_click user_parameter c hc
  have h : (s.SetOnClick on_click user_parameter c).max_click_count_ = max 1 c := by
    simp only [Button.SetOnClick]
    split_ifs <;> omega
  exact ⟨h, fun h0 => by rw [h, h0]; rfl⟩

/-- C16 at a concrete input: a maximum of 0 is stored as 1. -/
theorem C16_button_clamps_max_click_count_witness :
    (0 : Nat) ≤ 255 ∧ ((Button.new 2 LOW).SetOnClick none 0 0).max_click_count_ = max 1 0 ∧
      ((0 : Nat) = 0 → ((Button.new 2 LOW).SetOnClick none 0 0).max_click_count_ = 1) :=
  ⟨by decide, C16_button_clamps_max_click_count (Button.new 2 LOW) none 0 0 (by decide)⟩

/-- C17 at the failing input: `AgileButton::SetMaxDetectedClickCount(0)` stores
0, whereas `Button::SetOnClick` with a maximum of 0 stores 1. -/
theorem C17_agile_max_click_count_not_clamped :
    ((AgileButton.new 2 LOW).SetMaxDetectedClickCount 0).max_click_count_ = 0 ∧
      ((Button.new 2 LOW).SetOnClick none 0 0).max_click_count_ = 1 := by
  decide

/-! ## Elapsed time across the wrap of the millisecond counter -/

/-- C18 at the failing inputs: the debounce test of `AgileButton::Tick`
compares `debounce_start_time_ + debounce_duration_` with `now`. With the level
first read active at `2^32 - 10` it commits at `2^32 - 5`, after 5 ms of the
50 ms, because the sum has wrapped to 40; with the level first read active
at `2^32 - 100` it does not commit at time 10, 110 ms later, because the sum
`2^32 - 50` is above 10. `Button::Debounce` decides the other way on both
inputs. -/
theorem C18_agile_debounce_not_wrap_safe :
    (AgileButton.new 2 LOW).levels [(LOW, 4294967286), (LOW, 4294967291)] =
        [(false, 4294967286), (true, 4294967291)] ∧
      (Button.new 2 LOW).levels [(LOW, 4294967286), (LOW, 4294967291)] =
        [(false, 4294967286), (false, 4294967291)] ∧
      (AgileButton.new 2 LOW).levels [(LOW, 4294967196), (LOW, 10)] =
        [(false, 4294967196), (false, 10)] ∧
      (Button.new 2 LOW).levels [(LOW, 4294967196), (LOW, 10)] =
        [(false, 4294967196), (true, 10)] := by
  decide

/-! ## A during-long-press interval of 0 -/

/-- C20 (as stated) fails: with the function handler registered first and the
object handler second, the ButtonDown event of a tick is delivered to the
object handler first. -/
theorem C20_object_handler_first_although_registered_second :
    ((((AgileButton.new 2 LOW).SetEventHandlerFn (some 7) 1).SetEventHandlerObj (some 8)
        2).after (AgileButton.ticks [(LOW, 0)])).deliveries LOW 50 =
      [(AgileButton.Sink.object, 8, ⟨EventType.kButtonDown, 2, none⟩),
       (AgileButton.Sink.function, 7, ⟨EventType.kButtonDown, 2, none⟩)] := by
  decide

/-- C20 (amended). Sinks are invoked in a fixed order: on an `AgileButton` on
which a function handler `f` and an object handler `h` are registered, in
either registration order, every event emitted by a tick is delivered exactly
once to each of them, to the object handler first and to the function handler
second. -/
theorem C20_object_handler_then_function_handler :
    (∀ (s : AgileButton) (f h : Nat) (raw now : Nat),
      s.on_button_event_ = some f → s.event_handler_ = some h →
      s.deliveries raw now =
        (s.Tick raw now).2.flatMap
          (fun e => [(AgileButton.Sink.object, h, e), (AgileButton.Sink.function, f, e)])) ∧
    (∀ (s : AgileButton) (f h p q : Nat),
      ((s.SetEventHandlerFn (some f) p).SetEventHandlerObj (some h) q).on_button_event_ =
          some f ∧
        ((s.SetEventHandlerFn (some f) p).SetEventHandlerObj (some h) q).event_handler_ =
          some h ∧
        ((s.SetEventHandlerObj (some h) q).SetEventHandlerFn (some f) p).on_button_event_ =
          some f ∧
        ((s.SetEventHandlerObj (some h) q).SetEventHandlerFn (some f) p).event_handler_ =
          some h) ∧
    (∀ (s : AgileButton) (c : AgileButton.Call),
      (∀ f p, c ≠ AgileButton.Call.SetEventHandlerFn f p) →
      (∀ h p, c ≠ AgileButton.Call.SetEventHandlerObj h p) →
      (s.call c).1.on_button_event_ = s.on_button_event_ ∧
        (s.call c).1.event_handler_ = s.event_handler_) := by
  refine ⟨?_, fun s f h p q => ⟨rfl, rfl, rfl, rfl⟩, ?_⟩
  · intro s f h raw now hf hh
    have hsend : s.SendEvent =
        fun e => [(AgileButton.Sink.object, h, e), (AgileButton.Sink.function, f, e)] := by
      funext e
      simp [AgileButton.SendEvent, hf, hh]
    rw [AgileButton.deliveries, hsend]
  · intro s c hfn hobj
    cases c with
    | SetEventHandlerFn f p => exact absurd rfl (hfn f p)
    | SetEventHandlerObj h p => exact absurd rfl (hobj h p)
    | Tick raw now =>
      simp only [AgileButton.call, AgileButton.Tick]
      have hd : (s.debounce raw now).on_button_event_ = s.on_button_event_ ∧
          (s.debounce raw now).event_handler_ = s.event_handler_ := by
        unfold AgileButton.debounce
        split_ifs <;> exact ⟨rfl, rfl⟩
      rw [← hd.1, ← hd.2]
      generalize s.debounce raw now = d
      unfold AgileButton.step
      rcases hs : d.state_ <;> simp only [hs] <;> (try split_ifs) <;>
        first | exact ⟨rfl, rfl⟩ | simp
    | _ => exact ⟨rfl, rfl⟩

/-- C20 (amended) at a concrete input: function handler 7 registered first,
object handler 8 second; the ButtonDown of the tick at 50 goes to 8, then
to 7. -/
theorem C20_object_handler_then_function_handler_witness :
    ((((AgileButton.new 2 LOW).SetEventHandlerFn (some 7) 1).SetEventHandlerObj (some 8)
        2).after (AgileButton.ticks [(LOW, 0)])).on_button_event_ = some 7 ∧
      ((((AgileButton.new 2 LOW).SetEventHandlerFn (some 7) 1).SetEventHandlerObj (some 8)
        2).after (AgileButton.ticks [(LOW, 0)])).event_handler_ = some 8 ∧
      ((((AgileButton.new 2 LOW).SetEventHandlerFn (some 7) 1).SetEventHandlerObj (some 8)
        2).after (AgileButton.ticks [(LOW, 0)])).deliveries LOW 50 =
        (((((AgileButton.new 2 LOW).SetEventHandlerFn (some 7) 1).SetEventHandlerObj (some 8)
          2).after (AgileButton.ticks [(LOW, 0)])).Tick LOW 50).2.flatMap
          (fun e => [(AgileButton.Sink.object, 8, e), (AgileButton.Sink.function, 7, e)]) :=
  ⟨by decide, by decide,
    C20_object_handler_then_function_handler.1 _ 7 8 LOW 50 (by decide) (by decide)⟩

/-! ## Cadence of the during-long-press notification -/

/-- The outcomes of one step of the state machine, as far as the long-press
notifications are concerned. -/
theorem Fsm.step_cases (f : Fsm) (a : Bool) (now : Nat) :
    (f.step a now).1.during_long_press_notification_interval_ =
        f.during_long_press_notification_interval_ ∧
      (((f.step a now).2.map Prod.fst = [] ∧ (f.step a now).1 = f) ∨
        ((f.step a now).2.map Prod.fst = [EventType.kButtonLongPressBegin] ∧
          (f.step a now).1.state_ = State.kLongPress ∧
          (f.step a now).1.last_during_long_press_notification_time_ = now) ∨
        ((f.step a now).2.map Prod.fst = [EventType.kButtonDuringLongPress] ∧
          f.state_ = State.kLongPress ∧ a = true ∧
          f.during_long_press_notification_interval_ ≤
            sub32 now f.last_during_long_press_notification_time_ ∧
          (f.step a now).1.state_ = State.kLongPress ∧
          (f.step a now).1.last_during_long_press_notification_time_ = now) ∨
        ((f.step a now).1.state_ ≠ State.kLongPress ∧
          EventType.kButtonDuringLongPress ∉ (f.step a now).2.map Prod.fst ∧
          EventType.kButtonLongPressBegin ∉ (f.step a now).2.map Prod.fst)) := by
  unfold Fsm.step
  rcases hs : f.state_ <;> simp only [hs] <;> cases a <;>
    simp only [Bool.not_true, Bool.not_false, Bool.true_and, Bool.false_eq_true, if_true,
      if_false] <;>
    (try split_ifs) <;> simp_all

theorem Fsm.history_now (xs : List (Bool × Nat)) (f : Fsm) (i : Nat) (r : TickRecord)
    (hr : (f.history xs)[i]? = some r) : ∃ x ∈ xs, r.now = x.2 := by
  induction xs generalizing f i with
  | nil => simp [Fsm.history] at hr
  | cons x xs ih =>
    cases i with
    | zero =>
      simp only [Fsm.history, List.getElem?_cons_zero, Option.some.injEq] at hr
      exact ⟨x, List.mem_cons_self _ _, by rw [← hr]⟩
    | succ i =>
      simp only [Fsm.history, List.getElem?_cons_succ] at hr
      obtain ⟨y, hy, hn⟩ := ih _ i hr
      exact ⟨y, List.mem_cons_of_mem _ hy, hn⟩

/-- Cadence on the state machine: a DuringLongPress is emitted in LongPress with
the level active, and at least the interval after the latest earlier
notification of the run, or, when the run has none, after the stored
notification time of a machine that started in LongPress. -/
theorem Fsm.cadence (xs : List (Bool × Nat)) (f : Fsm)
    (hs : (xs.map Prod.snd).Pairwise (fun a b => a ≤ b))
    (hb : ∀ x ∈ xs, x.2 < 4294967296)
    (i : Nat) (r : TickRecord) (hr : (f.history xs)[i]? = some r)
    (hd : EventType.kButtonDuringLongPress ∈ r.events) :
    r.state = State.kLongPress ∧ r.active = true ∧
      r.events = [EventType.kButtonDuringLongPress] ∧
      ((∃ j q, j < i ∧ (f.history xs)[j]? = some q ∧
          (EventType.kButtonLongPressBegin ∈ q.events ∨
            EventType.kButtonDuringLongPress ∈ q.events) ∧
          (∀ k p, j < k → k < i → (f.history xs)[k]? = some p → p.events = []) ∧
          q.now + f.during_long_press_notification_interval_ ≤ r.now) ∨
        (f.state_ = State.kLongPress ∧
          (∀ k p, k < i → (f.history xs)[k]? = some p → p.events = []) ∧
          f.during_long_press_notification_interval_ ≤
            sub32 r.now f.last_during_long_press_notification_time_)) := by
  induction xs generalizing f i with
  | nil => simp [Fsm.history] at hr
  | cons x xs ih =>
    obtain ⟨hcfg, hcase⟩ := Fsm.step_cases f x.1 x.2
    cases i with
    | zero =>
      simp only [Fsm.history, List.getElem?_cons_zero, Option.some.injEq] at hr
      subst hr
      simp only at hd ⊢
      rcases hcase with ⟨h1, _⟩ | ⟨h1, _⟩ | ⟨h1, h2, h3, h4, _⟩ | ⟨_, h1, _⟩
      · rw [h1] at hd
        simp at hd
      · rw [h1] at hd
        simp at hd
      · exact ⟨h2, h3, h1, Or.inr ⟨h2, fun k p hk => absurd hk (Nat.not_lt_zero k), h4⟩⟩
      · exact absurd hd h1
    | succ i =>
      simp only [Fsm.history, List.getElem?_cons_succ] at hr
      have hs1 : (xs.map Prod.snd).Pairwise (fun a b => a ≤ b) := by
        simp only [List.map_cons, List.pairwise_cons] at hs
        exact hs.2
      have hx : ∀ y ∈ xs, x.2 ≤ y.2 := by
        simp only [List.map_cons, List.pairwise_cons, List.mem_map] at hs
        intro y hy
        exact hs.1 y.2 ⟨y, hy, rfl⟩
      obtain ⟨r1, r2, r3, hdis⟩ := ih (f.step x.1 x.2).1 hs1
        (fun y hy => hb y (List.mem_cons_of_mem _ hy)) i hr
      obtain ⟨y, hy, hnow⟩ := Fsm.history_now xs _ i r hr
      have hle0 : x.2 ≤ r.now := by rw [hnow]; exact hx y hy
      have hlt0 : r.now < 4294967296 := by
        rw [hnow]
        exact hb y (List.mem_cons_of_mem _ hy)
      have hshift : ∀ k p, 0 < k → k < i + 1 →
          (∀ k1 p1, k1 < i → ((f.step x.1 x.2).1.history xs)[k1]? = some p1 → p1.events = []) →
          (f.history (x :: xs))[k]? = some p → p.events = [] := by
        intro k p hk0 hki hq hp
        cases k with
        | zero => omega
        | succ k =>
          simp only [Fsm.history, List.getElem?_cons_succ] at hp
          exact hq k p (by omega) hp
      refine ⟨r1, r2, r3, ?_⟩
      rcases hdis with ⟨j, q, hj, hq, hn, hquiet, hle⟩ | ⟨hst, hquiet, hle⟩
      · left
        refine ⟨j + 1, q, by omega, by simpa [Fsm.history] using hq, hn, ?_,
          by rw [← hcfg]; exact hle⟩
        intro k p hjk hki hp
        cases k with
        | zero => omega
        | succ k =>
          simp only [Fsm.history, List.getElem?_cons_succ] at hp
          exact hquiet k p (by omega) (by omega) hp
      · rcases hcase with ⟨h1, h2⟩ | ⟨h1, _, h3⟩ | ⟨h1, _, _, _, _, h3⟩ | ⟨h1, _⟩
        · right
          rw [h2] at hst hle
          refine ⟨hst, ?_, hle⟩
          intro k p hki hp
          cases k with
          | zero =>
            simp only [Fsm.history, List.getElem?_cons_zero, Option.some.injEq] at hp
            rw [← hp]
            exact h1
          | succ k => exact hshift (k + 1) p (by omega) hki hquiet hp
        · left
          refine ⟨0, (⟨f.state_, x.1, x.2, (f.step x.1 x.2).2.map Prod.fst⟩ : TickRecord),
            by omega, by simp [Fsm.history], Or.inl (by simp [h1]),
            fun k p hk0 hki hp => hshift k p hk0 hki hquiet hp, ?_⟩
          rw [h3, hcfg, sub32_of_le hle0 hlt0] at hle
          simp only
          omega
        · left
          refine ⟨0, (⟨f.state_, x.1, x.2, (f.step x.1 x.2).2.map Prod.fst⟩ : TickRecord),
            by omega, by simp [Fsm.history], Or.inr (by simp [h1]),
            fun k p hk0 hki hp => hshift k p hk0 hki hquiet hp, ?_⟩
          rw [h3, hcfg, sub32_of_le hle0 hlt0] at hle
          simp only
          omega
        · exact absurd hst h1

/-- A DuringLongPress is preceded by the LongPressBegin of its press, with
nothing but DuringLongPress events in between, unless the machine started in
LongPress. -/
theorem Fsm.cadence_begin (xs : List (Bool × Nat)) (f : Fsm)
    (i : Nat) (r : TickRecord) (hr : (f.history xs)[i]? = some r)
    (hd : EventType.kButtonDuringLongPress ∈ r.events) :
    (∃ b q, b < i ∧ (f.history xs)[b]? = some q ∧
        q.events = [EventType.kButtonLongPressBegin] ∧
        (∀ k p, b < k → k < i → (f.history xs)[k]? = some p →
          p.events = [] ∨ p.events = [EventType.kButtonDuringLongPress])) ∨
      (f.state_ = State.kLongPress ∧
        (∀ k p, k < i → (f.history xs)[k]? = some p →
          p.events = [] ∨ p.events = [EventType.kButtonDuringLongPress])) := by
  induction xs generalizing f i with
  | nil => simp [Fsm.history] at hr
  | cons x xs ih =>
    obtain ⟨-, hcase⟩ := Fsm.step_cases f x.1 x.2
    cases i with
    | zero =>
      simp only [Fsm.history, List.getElem?_cons_zero, Option.some.injEq] at hr
      subst hr
      simp only at hd
      rcases hcase with ⟨h1, _⟩ | ⟨h1, _⟩ | ⟨_, h2, _⟩ | ⟨_, h1, _⟩
      · rw [h1] at hd
        simp at hd
      · rw [h1] at hd
        simp at hd
      · exact Or.inr ⟨h2, fun k p hk => absurd hk (Nat.not_lt_zero k)⟩
      · exact absurd hd h1
    | succ i =>
      simp only [Fsm.history, List.getElem?_cons_succ] at hr
      have hshift : ∀ k p, 0 < k → k < i + 1 →
          (∀ k1 p1, k1 < i → ((f.step x.1 x.2).1.history xs)[k1]? = some p1 →
            p1.events = [] ∨ p1.events = [EventType.kButtonDuringLongPress]) →
          (f.history (x :: xs))[k]? = some p →
          p.events = [] ∨ p.events = [EventType.kButtonDuringLongPress] := by
        intro k p hk0 hki hq hp
        cases k with
        | zero => omega
        | succ k =>
          simp only [Fsm.history, List.getElem?_cons_succ] at hp
          exact hq k p (by omega) hp
      rcases ih (f.step x.1 x.2).1 i hr with ⟨b, q, hb, hq, hn, hquiet⟩ | ⟨hst, hquiet⟩
      · left
        refine ⟨b + 1, q, by omega, by simpa [Fsm.history] using hq, hn, ?_⟩
        intro k p hbk hki hp
        cases k with
        | zero => omega
        | succ k =>
          simp only [Fsm.history, List.getElem?_cons_succ] at hp
          exact hquiet k p (by omega) (by omega) hp
      · rcases hcase with ⟨h1, h2⟩ | ⟨h1, _⟩ | ⟨h1, h2, _⟩ | ⟨h1, _⟩
        · right
          rw [h2] at hst
          refine ⟨hst, ?_⟩
          intro k p hki hp
          cases k with
          | zero =>
            simp only [Fsm.history, List.getElem?_cons_zero, Option.some.injEq] at hp
            rw [← hp]
            exact Or.inl h1
          | succ k => exact hshift (k + 1) p (by omega) hki hquiet hp
        · left
          exact ⟨0, (⟨f.state_, x.1, x.2, (f.step x.1 x.2).2.map Prod.fst⟩ : TickRecord),
            by omega, by simp [Fsm.history], h1,
            fun k p hk0 hki hp => hshift k p hk0 hki hquiet hp⟩
        · right
          refine ⟨h2, ?_⟩
          intro k p hki hp
          cases k with
          | zero =>
            simp only [Fsm.history, List.getElem?_cons_zero, Option.some.injEq] at hp
            rw [← hp]
            exact Or.inr h1
          | succ k => exact hshift (k + 1) p (by omega) hki hquiet hp
        · exact absurd hst h1

theorem Button.history_fsm (ts : List (Nat × Nat)) (s : Button) :
    s.history ts = s.fsm.history (s.levels ts) := by
  induction ts generalizing s with
  | nil => rfl
  | cons t ts ih =>
    have h := Button.step_fsm (s.Debounce (t.1 % 256) t.2).1
      (decide ((s.Debounce (t.1 % 256) t.2).2 = s.active_level_)) t.2
    rw [Button.Debounce_fsm] at h
    have h1 := congrArg Prod.fst h
    have h2 := congrArg (fun p => p.2.map Prod.fst) h
    simp only [List.map_map] at h1 h2
    simp only [Button.history, Button.levels, Fsm.history]
    rw [ih (s.Tick t.1 t.2).1]
    simp only [Button.Tick]
    rw [← h1, ← h2]
    rfl

theorem AgileButton.agile_history_fsm (ts : List (Nat × Nat)) (s : AgileButton) :
    s.history ts = s.fsm.history (s.levels ts) := by
  induction ts generalizing s with
  | nil => rfl
  | cons t ts ih =>
    have h := AgileButton.agile_step_fsm (s.debounce t.1 t.2) t.2
    rw [AgileButton.debounce_fsm] at h
    have h1 := congrArg Prod.fst h
    have h2 := congrArg (fun p => p.2.map Prod.fst) h
    simp only [List.map_map] at h1 h2
    simp only [AgileButton.history, AgileButton.levels, Fsm.history]
    rw [ih (s.Tick t.1 t.2).1]
    simp only [AgileButton.Tick]
    rw [← h1, ← h2]
    have hst : (s.debounce t.1 t.2).state_ = s.state_ := AgileButton.debounce_state s t.1 t.2
    simp [AgileButton.fsm, Function.comp_def]

/-- Cadence for a run of the state machine that starts outside LongPress. -/
theorem Fsm.cadence_from_idle (xs : List (Bool × Nat)) (f : Fsm)
    (hidle : f.state_ = State.kIdle)
    (hs : (xs.map Prod.snd).Pairwise (fun a b => a ≤ b))
    (hb : ∀ x ∈ xs, x.2 < 4294967296)
    (i : Nat) (r : TickRecord) (hr : (f.history xs)[i]? = some r)
    (hd : EventType.kButtonDuringLongPress ∈ r.events) :
    r.state = State.kLongPress ∧ r.active = true ∧
      r.events = [EventType.kButtonDuringLongPress] ∧
      (∃ j q, j < i ∧ (f.history xs)[j]? = some q ∧
        (EventType.kButtonLongPressBegin ∈ q.events ∨
          EventType.kButtonDuringLongPress ∈ q.events) ∧
        (∀ k p, j < k → k < i → (f.history xs)[k]? = some p → p.events = []) ∧
        q.now + f.during_long_press_notification_interval_ ≤ r.now) ∧
      (∃ b q, b < i ∧ (f.history xs)[b]? = some q ∧
        q.events = [EventType.kButtonLongPressBegin] ∧
        (∀ k p, b < k → k < i → (f.history xs)[k]? = some p →
          p.events = [] ∨ p.events = [EventType.kButtonDuringLongPress])) := by
  obtain ⟨r1, r2, r3, hdis⟩ := Fsm.cadence xs f hs hb i r hr hd
  refine ⟨r1, r2, r3, ?_, ?_⟩
  · rcases hdis with h | ⟨hst, _⟩
    · exact h
    · rw [hidle] at hst
      exact absurd hst (by decide)
  · rcases Fsm.cadence_begin xs f i r hr hd with h | ⟨hst, _⟩
    · exact h
    · rw [hidle] at hst
      exact absurd hst (by decide)

set_option maxRecDepth 100000 in
/-- C11. During-long-press cadence, for `Button` and for `AgileButton`:
configure a freshly constructed object by any calls other than `Tick` and run
it on ticks with non-decreasing times below `2^32`. Every tick that emits a
DuringLongPress is a tick in state LongPress with the debounced level active
and emits nothing else (so it is not a release tick); the latest earlier tick
that emitted LongPressBegin or DuringLongPress, after which nothing was emitted,
exists and is at least `during_long_press_notification_interval_` older; and a
LongPressBegin precedes it with nothing but DuringLongPress events in between.
The scenario of the claim is an instance: debounce 50, long-press 800, interval
100, polled every millisecond, raw level active on `[0, 2000)` gives ButtonDown
at 50, LongPressBegin at 850, DuringLongPress at 950, 1050, ..., 1950, and
ButtonUp, LongPressEnd at 2050. -/
theorem C11_during_long_press_cadence :
    (∀ (pin active_level : Nat) (cfg : List Button.Call) (ts : List (Nat × Nat)) (i : Nat)
        (r : TickRecord),
      (∀ c ∈ cfg, c.isTick = false) →
      (ts.map Prod.snd).Pairwise (fun a b => a ≤ b) →
      (∀ t ∈ ts, t.2 < 4294967296) →
      (((Button.new pin active_level).after cfg).history ts)[i]? = some r →
      EventType.kButtonDuringLongPress ∈ r.events →
      r.state = State.kLongPress ∧ r.active = true ∧
        r.events = [EventType.kButtonDuringLongPress] ∧
        (∃ j q, j < i ∧ (((Button.new pin active_level).after cfg).history ts)[j]? = some q ∧
          (EventType.kButtonLongPressBegin ∈ q.events ∨
            EventType.kButtonDuringLongPress ∈ q.events) ∧
          (∀ k p, j < k → k < i → (((Button.new pin active_level).after cfg).history ts)[k]? = some p →
            p.events = []) ∧
          q.now + ((Button.new pin active_level).after cfg).during_long_press_notification_interval_ ≤
            r.now) ∧
        (∃ b q, b < i ∧ (((Button.new pin active_level).after cfg).history ts)[b]? = some q ∧
          q.events = [EventType.kButtonLongPressBegin] ∧
          (∀ k p, b < k → k < i → (((Button.new pin active_level).after cfg).history ts)[k]? = some p →
            p.events = [] ∨ p.events = [EventType.kButtonDuringLongPress]))) ∧
    (∀ (pin active_level : Nat) (cfg : List AgileButton.Call) (ts : List (Nat × Nat)) (i : Nat)
        (r : TickRecord),
      (∀ c ∈ cfg, c.isTick = false) →
      (ts.map Prod.snd).Pairwise (fun a b => a ≤ b) →
      (∀ t ∈ ts, t.2 < 4294967296) →
      (((AgileButton.new pin active_level).after cfg).history ts)[i]? = some r →
      EventType.kButtonDuringLongPress ∈ r.events →
      r.state = State.kLongPress ∧ r.active = true ∧
        r.events = [EventType.kButtonDuringLongPress] ∧
        (∃ j q, j < i ∧ (((AgileButton.new pin active_level).after cfg).history ts)[j]? = some q ∧
          (EventType.kButtonLongPressBegin ∈ q.events ∨
            EventType.kButtonDuringLongPress ∈ q.events) ∧
          (∀ k p, j < k → k < i → (((AgileButton.new pin active_level).after cfg).history ts)[k]? = some p →
            p.events = []) ∧
          q.now + ((AgileButton.new pin active_level).after cfg).during_long_press_notification_interval_ ≤
            r.now) ∧
        (∃ b q, b < i ∧ (((AgileButton.new pin active_level).after cfg).history ts)[b]? = some q ∧
          q.events = [EventType.kButtonLongPressBegin] ∧
          (∀ k p, b < k → k < i → (((AgileButton.new pin active_level).after cfg).history ts)[k]? = some p →
            p.events = [] ∨ p.events = [EventType.kButtonDuringLongPress]))) ∧
    ((Button.new 2 LOW).SetOnDuringLongPress none 0 100).timeline (longHold LOW HIGH 2100) =
      [(50, EventType.kButtonDown, none), (850, EventType.kButtonLongPressBegin, none),
       (950, EventType.kButtonDuringLongPress, none), (1050, EventType.kButtonDuringLongPress, none),
       (1150, EventType.kButtonDuringLongPress, none), (1250, EventType.kButtonDuringLongPress, none),
       (1350, EventType.kButtonDuringLongPress, none), (1450, EventType.kButtonDuringLongPress, none),
       (1550, EventType.kButtonDuringLongPress, none), (1650, EventType.kButtonDuringLongPress, none),
       (1750, EventType.kButtonDuringLongPress, none), (1850, EventType.kButtonDuringLongPress, none),
       (1950, EventType.kButtonDuringLongPress, none), (2050, EventType.kButtonUp, none),
       (2050, EventType.kButtonLongPressEnd, none)] ∧
    (AgileButton.new 2 LOW).timeline (longHold LOW HIGH 2100) =
      [(50, EventType.kButtonDown, none), (850, EventType.kButtonLongPressBegin, none),
       (950, EventType.kButtonDuringLongPress, none), (1050, EventType.kButtonDuringLongPress, none),
       (1150, EventType.kButtonDuringLongPress, none), (1250, EventType.kButtonDuringLongPress, none),
       (1350, EventType.kButtonDuringLongPress, none), (1450, EventType.kButtonDuringLongPress, none),
       (1550, EventType.kButtonDuringLongPress, none), (1650, EventType.kButtonDuringLongPress, none),
       (1750, EventType.kButtonDuringLongPress, none), (1850, EventType.kButtonDuringLongPress, none),
       (1950, EventType.kButtonDuringLongPress, none), (2050, EventType.kButtonUp, none),
       (2050, EventType.kButtonLongPressEnd, none)] := by
  refine ⟨?_, ?_, by decide!, by decide!⟩
  · intro pin active_level cfg ts i r hcfg hs hb hr hd
    obtain ⟨c1, -, -, -⟩ := Button.after_config cfg (Button.new pin active_level) hcfg
      ⟨rfl, rfl, Nat.le_refl 1, by simp [Button.new]⟩
    rw [Button.history_fsm] at hr ⊢
    refine Fsm.cadence_from_idle _ _ c1 ?_ ?_ i r hr hd
    · rw [Button.levels_times]
      exact hs
    · intro x hx
      have hm : x.2 ∈ ((((Button.new pin active_level).after cfg).levels ts).map Prod.snd) :=
        List.mem_map_of_mem _ hx
      rw [Button.levels_times] at hm
      obtain ⟨t, ht, he⟩ := List.mem_map.mp hm
      rw [← he]
      exact hb t ht
  · intro pin active_level cfg ts i r hcfg hs hb hr hd
    obtain ⟨c1, -, -⟩ := AgileButton.agile_after_config cfg (AgileButton.new pin active_level)
      hcfg ⟨rfl, rfl, by simp [AgileButton.new]⟩
    rw [AgileButton.agile_history_fsm] at hr ⊢
    refine Fsm.cadence_from_idle _ _ c1 ?_ ?_ i r hr hd
    · rw [AgileButton.agile_levels_times]
      exact hs
    · intro x hx
      have hm : x.2 ∈ ((((AgileButton.new pin active_level).after cfg).levels ts).map Prod.snd) :=
        List.mem_map_of_mem _ hx
      rw [AgileButton.agile_levels_times] at hm
      obtain ⟨t, ht, he⟩ := List.mem_map.mp hm
      rw [← he]
      exact hb t ht

/-- C11 at a concrete input: a `Button` with interval 100 whose long press
begins at 850; the tick at 950 emits the first DuringLongPress, 100 after the
LongPressBegin (tick 2), the tick at 900 in between being silent. -/
theorem C11_during_long_press_cadence_witness :
    (∀ c ∈ [Button.Call.SetOnDuringLongPress none 0 100], c.isTick = false) ∧
      ((heldPressSparse LOW).map Prod.snd).Pairwise (fun a b => a ≤ b) ∧
      (∀ t ∈ heldPressSparse LOW, t.2 < 4294967296) ∧
      (((Button.new 2 LOW).after [Button.Call.SetOnDuringLongPress none 0 100]).history
          (heldPressSparse LOW))[4]? =
        some ⟨State.kLongPress, true, 950, [EventType.kButtonDuringLongPress]⟩ ∧
      (∃ j q, j < 4 ∧
        (((Button.new 2 LOW).after [Button.Call.SetOnDuringLongPress none 0 100]).history
          (heldPressSparse LOW))[j]? = some q ∧
        (EventType.kButtonLongPressBegin ∈ q.events ∨
          EventType.kButtonDuringLongPress ∈ q.events) ∧
        (∀ k p, j < k → k < 4 →
          (((Button.new 2 LOW).after [Button.Call.SetOnDuringLongPress none 0 100]).history
            (heldPressSparse LOW))[k]? = some p → p.events = []) ∧
        q.now + ((Button.new 2 LOW).after
          [Button.Call.SetOnDuringLongPress none 0 100]).during_long_press_notification_interval_ ≤
            950) :=
  ⟨by decide, by decide, by decide, by decide,
    (C11_during_long_press_cadence.1 2 LOW [Button.Call.SetOnDuringLongPress none 0 100]
      (heldPressSparse LOW) 4 ⟨State.kLongPress, true, 950, [EventType.kButtonDuringLongPress]⟩
      (by decide) (by decide) (by decide) (by decide) (by decide)).2.2.2.1⟩

/-! ## The two variants are the same machine -/

/-- The switch of `Button::Tick` leaves the debounce members alone. -/
theorem Button.step_frame (s : Button) (active : Bool) (now : Nat) :
    (s.step active now).1.active_level_ = s.active_level_ ∧
      (s.step active now).1.last_pin_level_ = s.last_pin_level_ ∧
      (s.step active now).1.last_debounced_pin_level_ = s.last_debounced_pin_level_ ∧
      (s.step active now).1.last_debounce_time_ = s.last_debounce_time_ ∧
      (s.step active now).1.debounce_duration_ = s.debounce_duration_ := by
  unfold Button.step
  rcases hs : s.state_ <;> simp only [hs] <;> (try split_ifs) <;> simp

/-- The switch of `AgileButton::Tick` leaves the debounce members alone. -/
theorem AgileButton.agile_step_frame (s : AgileButton) (now : Nat) :
    (s.step now).1.active_level_ = s.active_level_ ∧
      (s.step now).1.debouncing_value_ = s.debouncing_value_ ∧
      (s.step now).1.active_ = s.active_ ∧
      (s.step now).1.debounce_start_time_ = s.debounce_start_time_ ∧
      (s.step now).1.debounce_duration_ = s.debounce_duration_ := by
  unfold AgileButton.step
  rcases hs : s.state_ <;> simp only [hs] <;> (try split_ifs) <;> simp

/-- The toggle-based and the level-based debouncer agree on corresponding
objects, for a raw level LOW or HIGH and a time that is not before the stored
debounce time and leaves room for the duration below `2^32`. -/
theorem Twin.debounce_twin {b : Button} {a : AgileButton} (h : Twin b a) (raw now : Nat)
    (hraw : raw = LOW ∨ raw = HIGH) (hle : b.last_debounce_time_ ≤ now)
    (hnow : now < 4294967040) :
    Twin (b.Debounce (raw % 256) now).1 (a.debounce raw now) ∧
      (b.Debounce (raw % 256) now).2 =
        (b.Debounce (raw % 256) now).1.last_debounced_pin_level_ ∧
      (b.Debounce (raw % 256) now).1.last_debounce_time_ ≤ now := by
  obtain ⟨hf, hact, hlv, hpin, hdv, hav, htime, hdur, h255⟩ := h
  have hmod : raw % 256 = raw := by
    rcases hraw with rfl | rfl <;> rfl
  have hc1 : (raw = b.last_pin_level_) ↔ (decide (raw = a.active_level_) = a.debouncing_value_) := by
    rw [hdv, ← hact]
    simp only [LOW, HIGH] at hraw hlv hpin
    rcases hraw with h1 | h1 <;> rcases hlv with h2 | h2 <;> rcases hpin with h3 | h3 <;>
      simp [h1, h2, h3]
  have hc2 : (sub32 now b.last_debounce_time_ ≥ b.debounce_duration_) ↔
      (add32 a.debounce_start_time_ a.debounce_duration_ ≤ now) := by
    rw [← htime, ← hdur]
    unfold sub32 add32
    constructor <;> intro _ <;> omega
  rw [hmod]
  by_cases h1 : raw = b.last_pin_level_
  · have h1a := hc1.mp h1
    by_cases h2 : sub32 now b.last_debounce_time_ ≥ b.debounce_duration_
    · have h2a := hc2.mp h2
      have hB : b.Debounce raw now = ({ b with last_debounced_pin_level_ := raw }, raw) := by
        unfold Button.Debounce
        rw [if_pos h1, if_pos h2]
      have hA : a.debounce raw now = { a with active_ := a.debouncing_value_ } := by
        unfold AgileButton.debounce
        rw [if_pos h1a, if_pos h2a]
      rw [hB, hA]
      refine ⟨⟨hf, hact, hlv, hpin, hdv, ?_, htime, hdur, h255⟩, rfl, hle⟩
      show a.debouncing_value_ = decide (raw = b.active_level_)
      rw [hdv, h1]
    · have h2a : ¬ add32 a.debounce_start_time_ a.debounce_duration_ ≤ now :=
        fun hh => h2 (hc2.mpr hh)
      have hB : b.Debounce raw now = (b, b.last_debounced_pin_level_) := by
        unfold Button.Debounce
        rw [if_pos h1, if_neg h2]
      have hA : a.debounce raw now = a := by
        unfold AgileButton.debounce
        rw [if_pos h1a, if_neg h2a]
      rw [hB, hA]
      exact ⟨⟨hf, hact, hlv, hpin, hdv, hav, htime, hdur, h255⟩, rfl, hle⟩
  · have h1a : ¬ decide (raw = a.active_level_) = a.debouncing_value_ :=
      fun hh => h1 (hc1.mpr hh)
    have hB : b.Debounce raw now =
        ({ b with last_debounce_time_ := now, last_pin_level_ := raw },
          b.last_debounced_pin_level_) := by
      unfold Button.Debounce
      rw [if_neg h1]
    have hA : a.debounce raw now =
        { a with debounce_start_time_ := now, debouncing_value_ := !a.debouncing_value_ } := by
      unfold AgileButton.debounce
      rw [if_neg h1a]
    rw [hB, hA]
    refine ⟨⟨hf, hact, hlv, hraw, ?_, hav, rfl, hdur, h255⟩, rfl, Nat.le_refl now⟩
    show (!a.debouncing_value_) = decide (raw = b.active_level_)
    rw [hdv]
    simp only [LOW, HIGH] at hraw hlv hpin
    rcases hraw with h3 | h3 <;> rcases hlv with h4 | h4 <;> rcases hpin with h5 | h5 <;>
      simp_all

/-- One tick keeps a `Button` and an `AgileButton` in correspondence, with the
same debounced level and the same events. -/
theorem Twin.tick_twin {b : Button} {a : AgileButton} (h : Twin b a) (raw now : Nat)
    (hraw : raw = LOW ∨ raw = HIGH) (hle : b.last_debounce_time_ ≤ now)
    (hnow : now < 4294967040) :
    Twin (b.Tick raw now).1 (a.Tick raw now).1 ∧
      decide ((b.Debounce (raw % 256) now).2 = b.active_level_) = (a.debounce raw now).active_ ∧
      (b.Tick raw now).2.map (fun e => (e.kind, e.click_count)) =
        (a.Tick raw now).2.map (fun e => (e.event_type, e.click_count)) ∧
      (b.Tick raw now).1.last_debounce_time_ ≤ now := by
  obtain ⟨hT, h2, hle1⟩ := h.debounce_twin raw now hraw hle hnow
  obtain ⟨-, -, -, -, eact, -, -⟩ := Button.Debounce_spec b (raw % 256) now
  obtain ⟨hf, hact, hlv, hpin, hdv, hav, htime, hdur, h255⟩ := hT
  have hlevel : decide ((b.Debounce (raw % 256) now).2 = b.active_level_) =
      (a.debounce raw now).active_ := by
    rw [hav, h2, eact]
  have hB := Button.step_fsm (b.Debounce (raw % 256) now).1
    (decide ((b.Debounce (raw % 256) now).2 = b.active_level_)) now
  have hA := AgileButton.agile_step_fsm (a.debounce raw now) now
  rw [hf, hlevel, ← hA] at hB
  have hB1 := congrArg Prod.fst hB
  have hB2 := congrArg Prod.snd hB
  simp only at hB1 hB2
  rw [← hlevel] at hB1 hB2
  obtain ⟨f1, f2, f3, f4, f5⟩ := Button.step_frame (b.Debounce (raw % 256) now).1
    (decide ((b.Debounce (raw % 256) now).2 = b.active_level_)) now
  obtain ⟨g1, g2, g3, g4, g5⟩ := AgileButton.agile_step_frame (a.debounce raw now) now
  unfold Button.Tick AgileButton.Tick
  simp only
  refine ⟨⟨hB1, ?_, ?_, ?_, ?_, ?_, ?_, ?_, ?_⟩, hlevel, hB2, ?_⟩
  · rw [f1, g1]; exact hact
  · rw [f1]; exact hlv
  · rw [f2]; exact hpin
  · rw [f1, f2, g2]; exact hdv
  · rw [f1, f3, g3]; exact hav
  · rw [f4, g4]; exact htime
  · rw [f5, g5]; exact hdur
  · rw [f5]; exact h255
  · rw [f4]; exact hle1

/-- Corresponding objects stay in step over a whole run of ticks. -/
theorem Twin.run_twin (ts : List (Nat × Nat)) {b : Button} {a : AgileButton} (h : Twin b a)
    (hraw : ∀ t ∈ ts, t.1 = LOW ∨ t.1 = HIGH)
    (hs : (ts.map Prod.snd).Pairwise (fun x y => x ≤ y))
    (hle : ∀ t ∈ ts, b.last_debounce_time_ ≤ t.2)
    (hb : ∀ t ∈ ts, t.2 < 4294967040) :
    b.levels ts = a.levels ts ∧
      b.emitted (Button.ticks ts) = a.emitted (AgileButton.ticks ts) ∧
      b.timeline ts = a.timeline ts := by
  induction ts generalizing b a with
  | nil => exact ⟨rfl, rfl, rfl⟩
  | cons t ts ih =>
    obtain ⟨hT, hl, he, hle1⟩ := h.tick_twin t.1 t.2 (hraw t (List.mem_cons_self _ _))
      (hle t (List.mem_cons_self _ _)) (hb t (List.mem_cons_self _ _))
    have hs1 : (ts.map Prod.snd).Pairwise (fun x y => x ≤ y) := by
      simp only [List.map_cons, List.pairwise_cons] at hs
      exact hs.2
    have hx : ∀ y ∈ ts, t.2 ≤ y.2 := by
      simp only [List.map_cons, List.pairwise_cons, List.mem_map] at hs
      intro y hy
      exact hs.1 y.2 ⟨y, hy, rfl⟩
    obtain ⟨i1, i2, i3⟩ := ih hT (fun y hy => hraw y (List.mem_cons_of_mem _ hy)) hs1
      (fun y hy => Nat.le_trans hle1 (hx y hy)) (fun y hy => hb y (List.mem_cons_of_mem _ hy))
    have hk : (b.Tick t.1 t.2).2.map Button.Emit.kind =
        (a.Tick t.1 t.2).2.map Event.event_type := by
      have := congrArg (List.map Prod.fst) he
      simpa [List.map_map, Function.comp_def] using this
    have ht : (b.Tick t.1 t.2).2.map (fun e => (t.2, e.kind, e.click_count)) =
        (a.Tick t.1 t.2).2.map (fun e => (t.2, e.event_type, e.click_count)) := by
      have := congrArg (List.map (fun p : EventType × Option Nat => (t.2, p.1, p.2))) he
      simpa [List.map_map, Function.comp_def] using this
    refine ⟨?_, ?_, ?_⟩
    · simp only [Button.levels, AgileButton.levels]
      rw [hl, i1]
    · simp only [Button.ticks, AgileButton.ticks] at i2
      simp only [Button.ticks, AgileButton.ticks, List.map_cons, Button.emitted,
        AgileButton.emitted, Button.call, AgileButton.call]
      rw [hk, i2]
    · simp only [Button.timeline, AgileButton.timeline]
      rw [ht, i3]

theorem Button.call_runtime (s : Button) (c : Button.Call) (hc : c.isTick = false) :
    (s.call c).1.runtime = s.runtime ∧
      (s.debounce_duration_ ≤ 255 → (s.call c).1.debounce_duration_ ≤ 255) := by
  cases c with
  | Tick raw now => simp [Button.Call.isTick] at hc
  | SetDebounceDuration d =>
    refine ⟨rfl, fun _ => ?_⟩
    simp only [Button.call, Button.SetDebounceDuration]
    omega
  | _ => exact ⟨rfl, fun h => h⟩

theorem AgileButton.agile_call_runtime (s : AgileButton) (c : AgileButton.Call)
    (hc : c.isTick = false) :
    (s.call c).1.runtime = s.runtime ∧
      (s.debounce_duration_ ≤ 255 → (s.call c).1.debounce_duration_ ≤ 255) := by
  cases c with
  | Tick raw now => simp [AgileButton.Call.isTick] at hc
  | SetDebounceDuration d =>
    refine ⟨rfl, fun _ => ?_⟩
    simp only [AgileButton.call, AgileButton.SetDebounceDuration]
    omega
  | _ => exact ⟨rfl, fun h => h⟩

/-- Calls other than `Tick` write none of the runtime members of a `Button`. -/
theorem Button.after_runtime (cfg : List Button.Call) (s : Button)
    (hcfg : ∀ c ∈ cfg, c.isTick = false) (h255 : s.debounce_duration_ ≤ 255) :
    (s.after cfg).runtime = s.runtime ∧ (s.after cfg).debounce_duration_ ≤ 255 := by
  induction cfg generalizing s with
  | nil => exact ⟨rfl, h255⟩
  | cons c cfg ih =>
    obtain ⟨h1, h2⟩ := Button.call_runtime s c (hcfg c (List.mem_cons_self _ _))
    obtain ⟨i1, i2⟩ := ih (s.call c).1 (fun c1 hc1 => hcfg c1 (List.mem_cons_of_mem _ hc1))
      (h2 h255)
    exact ⟨by rw [← h1]; exact i1, i2⟩

/-- Calls other than `Tick` write none of the runtime members of an
`AgileButton`. -/
theorem AgileButton.agile_after_runtime (cfg : List AgileButton.Call) (s : AgileButton)
    (hcfg : ∀ c ∈ cfg, c.isTick = false) (h255 : s.debounce_duration_ ≤ 255) :
    (s.after cfg).runtime = s.runtime ∧ (s.after cfg).debounce_duration_ ≤ 255 := by
  induction cfg generalizing s with
  | nil => exact ⟨rfl, h255⟩
  | cons c cfg ih =>
    obtain ⟨h1, h2⟩ := AgileButton.agile_call_runtime s c (hcfg c (List.mem_cons_self _ _))
    obtain ⟨i1, i2⟩ := ih (s.call c).1 (fun c1 hc1 => hcfg c1 (List.mem_cons_of_mem _ hc1))
      (h2 h255)
    exact ⟨by rw [← h1]; exact i1, i2⟩

/-- C19. The two variants are the same machine: take a freshly constructed
`Button` and a freshly constructed `AgileButton` with the same active level
(LOW or HIGH), configure each by calls other than `Tick` so that the stored
debounce duration, long-press threshold, multi-click window, during interval
and maximum click count are the same, and run both on the same ticks, with raw
levels LOW or HIGH and non-decreasing times below `2^32 - 256`. Then on every
tick the debounced level is the same, the kinds of the emitted events are the
same, and the emitted events with their times and click counts are the same. -/
theorem C19_variants_same_machine :
    ∀ (pinB pinA active_level : Nat) (cfgB : List Button.Call) (cfgA : List AgileButton.Call)
      (ts : List (Nat × Nat)),
      (active_level = LOW ∨ active_level = HIGH) →
      (∀ c ∈ cfgB, c.isTick = false) →
      (∀ c ∈ cfgA, c.isTick = false) →
      ((Button.new pinB active_level).after cfgB).debounce_duration_ =
        ((AgileButton.new pinA active_level).after cfgA).debounce_duration_ →
      ((Button.new pinB active_level).after cfgB).long_press_detected_interval_ =
        ((AgileButton.new pinA active_level).after cfgA).long_press_detected_interval_ →
      ((Button.new pinB active_level).after cfgB).multiple_click_detected_interval_ =
        ((AgileButton.new pinA active_level).after cfgA).multiple_click_detected_interval_ →
      ((Button.new pinB active_level).after cfgB).during_long_press_notification_interval_ =
        ((AgileButton.new pinA active_level).after
          cfgA).during_long_press_notification_interval_ →
      ((Button.new pinB active_level).after cfgB).max_click_count_ =
        ((AgileButton.new pinA active_level).after cfgA).max_click_count_ →
      (∀ t ∈ ts, t.1 = LOW ∨ t.1 = HIGH) →
      (ts.map Prod.snd).Pairwise (fun x y => x ≤ y) →
      (∀ t ∈ ts, t.2 < 4294967040) →
      ((Button.new pinB active_level).after cfgB).levels ts =
          ((AgileButton.new pinA active_level).after cfgA).levels ts ∧
        ((Button.new pinB active_level).after cfgB).emitted (Button.ticks ts) =
          ((AgileButton.new pinA active_level).after cfgA).emitted (AgileButton.ticks ts) ∧
        ((Button.new pinB active_level).after cfgB).timeline ts =
          ((AgileButton.new pinA active_level).after cfgA).timeline ts := by
  intro pinB pinA active_level cfgB cfgA ts hlv hcB hcA hdur hlong hwin hduring hmax hraw hs hb
  obtain ⟨rB, dB⟩ := Button.after_runtime cfgB (Button.new pinB active_level) hcB
    (by simp [Button.new])
  obtain ⟨rA, -⟩ := AgileButton.agile_after_runtime cfgA (AgileButton.new pinA active_level) hcA
    (by simp [AgileButton.new])
  have nB : (Button.new pinB active_level).runtime =
      (active_level, State.kIdle, 0, 0, 0, 0, (if active_level = HIGH then LOW else HIGH),
        (if active_level = HIGH then LOW else HIGH), 0) := rfl
  have nA : (AgileButton.new pinA active_level).runtime =
      (active_level, State.kIdle, 0, 0, 0, 0, false, false, 0) := rfl
  rw [nB] at rB
  rw [nA] at rA
  simp only [Button.runtime, Prod.mk.injEq] at rB
  simp only [AgileButton.runtime, Prod.mk.injEq] at rA
  obtain ⟨b1, b2, b3, b4, b5, b6, b7, b8, b9⟩ := rB
  obtain ⟨a1, a2, a3, a4, a5, a6, a7, a8, a9⟩ := rA
  have hT : Twin ((Button.new pinB active_level).after cfgB)
      ((AgileButton.new pinA active_level).after cfgA) := by
    refine ⟨?_, ?_, ?_, ?_, ?_, ?_, ?_, hdur, dB⟩
    · simp only [Button.fsm, AgileButton.fsm, Fsm.mk.injEq]
      exact ⟨by rw [b2, a2], by rw [b3, a3], by rw [b4, a4], by rw [b5, a5], hduring, hlong,
        hwin, by rw [b6, a6], hmax⟩
    · rw [b1, a1]
    · rw [b1]; exact hlv
    · rw [b7]
      simp only [LOW, HIGH] at hlv ⊢
      rcases hlv with h | h <;> simp [h]
    · rw [a7, b7, b1]
      simp only [LOW, HIGH] at hlv ⊢
      rcases hlv with h | h <;> simp [h]
    · rw [a8, b8, b1]
      simp only [LOW, HIGH] at hlv ⊢
      rcases hlv with h | h <;> simp [h]
    · rw [b9, a9]
  exact Twin.run_twin ts hT hraw hs (fun t _ => by rw [b9]; exact Nat.zero_le _) hb

/-- C19 at a concrete input: a `Button` whose during interval is set to 100 and
an `AgileButton` with its defaults, both with active level LOW, on a run with a
click, an abandoned second press that becomes a long press, and a later
click. -/
theorem C19_variants_same_machine_witness :
    (LOW = LOW ∨ LOW = HIGH) ∧
      (∀ c ∈ [Button.Call.SetOnDuringLongPress none 0 100], c.isTick = false) ∧
      (∀ c ∈ ([] : List AgileButton.Call), c.isTick = false) ∧
      ((Button.new 2 LOW).after [Button.Call.SetOnDuringLongPress none 0 100]).debounce_duration_ =
        ((AgileButton.new 3 LOW).after []).debounce_duration_ ∧
      ((Button.new 2 LOW).after
          [Button.Call.SetOnDuringLongPress none 0 100]).long_press_detected_interval_ =
        ((AgileButton.new 3 LOW).after []).long_press_detected_interval_ ∧
      ((Button.new 2 LOW).after
          [Button.Call.SetOnDuringLongPress none 0 100]).multiple_click_detected_interval_ =
        ((AgileButton.new 3 LOW).after []).multiple_click_detected_interval_ ∧
      ((Button.new 2 LOW).after
          [Button.Call.SetOnDuringLongPress none 0 100]).during_long_press_notification_interval_ =
        ((AgileButton.new 3 LOW).after []).during_long_press_notification_interval_ ∧
      ((Button.new 2 LOW).after [Button.Call.SetOnDuringLongPress none 0 100]).max_click_count_ =
        ((AgileButton.new 3 LOW).after []).max_click_count_ ∧
      (∀ t ∈ mixedRun LOW HIGH, t.1 = LOW ∨ t.1 = HIGH) ∧
      ((mixedRun LOW HIGH).map Prod.snd).Pairwise (fun x y => x ≤ y) ∧
      (∀ t ∈ mixedRun LOW HIGH, t.2 < 4294967040) ∧
      ((Button.new 2 LOW).after [Button.Call.SetOnDuringLongPress none 0 100]).levels
          (mixedRun LOW HIGH) = ((AgileButton.new 3 LOW).after []).levels (mixedRun LOW HIGH) ∧
      ((Button.new 2 LOW).after [Button.Call.SetOnDuringLongPress none 0 100]).emitted
          (Button.ticks (mixedRun LOW HIGH)) =
        ((AgileButton.new 3 LOW).after []).emitted (AgileButton.ticks (mixedRun LOW HIGH)) ∧
      ((Button.new 2 LOW).after [Button.Call.SetOnDuringLongPress none 0 100]).timeline
          (mixedRun LOW HIGH) = ((AgileButton.new 3 LOW).after []).timeline (mixedRun LOW HIGH) :=
  ⟨by decide, by decide, by decide, by decide, by decide, by decide, by decide, by decide,
    by decide, by decide, by decide,
    C19_variants_same_machine 2 3 LOW [Button.Call.SetOnDuringLongPress none 0 100] []
      (mixedRun LOW HIGH) (by decide) (by decide) (by decide) (by decide) (by decide)
      (by decide) (by decide) (by decide) (by decide) (by decide) (by decide)⟩

/-! ## The user parameter of `AgileButton` -/

/-- C21 (as stated) fails: with the function handler 7 registered with
parameter 1 and then the object handler 8 with parameter 2, the ButtonDown
event delivered to the function handler carries 2; in the opposite order the
event delivered to the object handler carries 1. -/
theorem C21_later_registration_replaces_parameter :
    ((((AgileButton.new 2 LOW).SetEventHandlerFn (some 7) 1).SetEventHandlerObj (some 8)
        2).after (AgileButton.ticks [(LOW, 0)])).deliveries LOW 50 =
      [(AgileButton.Sink.object, 8, ⟨EventType.kButtonDown, 2, none⟩),
       (AgileButton.Sink.function, 7, ⟨EventType.kButtonDown, 2, none⟩)] ∧
    ((((AgileButton.new 2 LOW).SetEventHandlerObj (some 8) 2).SetEventHandlerFn (some 7)
        1).after (AgileButton.ticks [(LOW, 0)])).deliveries LOW 50 =
      [(AgileButton.Sink.object, 8, ⟨EventType.kButtonDown, 1, none⟩),
       (AgileButton.Sink.function, 7, ⟨EventType.kButtonDown, 1, none⟩)] := by
  decide

/-- Every event of a tick of an `AgileButton` carries the member
`user_parameter_`. -/
theorem AgileButton.tick_user_parameter (s : AgileButton) (raw now : Nat) :
    (∀ e ∈ (s.Tick raw now).2, e.user_parameter = s.user_parameter_) ∧
      (s.Tick raw now).1.user_parameter_ = s.user_parameter_ := by
  have hd : (s.debounce raw now).user_parameter_ = s.user_parameter_ := by
    unfold AgileButton.debounce
    split_ifs <;> rfl
  unfold AgileButton.Tick
  rw [← hd]
  generalize s.debounce raw now = d
  unfold AgileButton.step
  rcases hs : d.state_ <;> simp only [hs] <;> (try split_ifs) <;> simp

/-- Calls other than `SetEventHandler` keep the member `user_parameter_`. -/
theorem AgileButton.after_user_parameter (cs : List AgileButton.Call) (s : AgileButton)
    (hcs : ∀ c ∈ cs, c.isSetEventHandler = false) :
    (s.after cs).user_parameter_ = s.user_parameter_ := by
  induction cs generalizing s with
  | nil => rfl
  | cons c cs ih =>
    rw [AgileButton.after, ih _ (fun c1 hc1 => hcs c1 (List.mem_cons_of_mem _ hc1))]
    have hc := hcs c (List.mem_cons_self _ _)
    cases c with
    | SetEventHandlerFn f p => simp [AgileButton.Call.isSetEventHandler] at hc
    | SetEventHandlerObj h p => simp [AgileButton.Call.isSetEventHandler] at hc
    | Tick raw now => exact (AgileButton.tick_user_parameter s raw now).2
    | _ => rfl

/-- Every handler call of a tick passes an event that carries the member
`user_parameter_`. -/
theorem AgileButton.deliveries_user_parameter (s : AgileButton) (raw now : Nat) :
    ∀ d ∈ s.deliveries raw now, d.2.2.user_parameter = s.user_parameter_ := by
  intro d hd
  simp only [AgileButton.deliveries, List.mem_flatMap] at hd
  obtain ⟨e, he, hde⟩ := hd
  have hpar := (AgileButton.tick_user_parameter s raw now).1 e he
  have hev : d.2.2 = e := by
    unfold AgileButton.SendEvent at hde
    rcases h1 : s.event_handler_ <;> rcases h2 : s.on_button_event_ <;>
      simp only [h1, h2, List.append_nil, List.nil_append, List.mem_cons, List.mem_singleton,
        List.not_mem_nil, List.cons_append, or_false] at hde
    · rw [hde]
    · rw [hde]
    · rcases hde with hde | hde <;> rw [hde]
  rw [hev, hpar]

/-- C21 (amended). `AgileButton` keeps one user parameter for both handlers:
each `SetEventHandler` overload overwrites the member `user_parameter_`, and
every event delivered to either handler carries that member. So after
`SetEventHandler(f, p1)` followed by `SetEventHandler(h, p2)` and any calls
other than `SetEventHandler`, every event delivered to `f` and to `h` carries
`p2`; in the opposite order every delivered event carries `p1`. -/
theorem C21_one_user_parameter_for_both_handlers :
    (∀ (s : AgileButton) (f h : Option Nat) (p1 p2 : Nat) (cs : List AgileButton.Call)
        (raw now : Nat),
      (∀ c ∈ cs, c.isSetEventHandler = false) →
      ∀ d ∈ (((s.SetEventHandlerFn f p1).SetEventHandlerObj h p2).after cs).deliveries raw now,
        d.2.2.user_parameter = p2) ∧
    (∀ (s : AgileButton) (f h : Option Nat) (p1 p2 : Nat) (cs : List AgileButton.Call)
        (raw now : Nat),
      (∀ c ∈ cs, c.isSetEventHandler = false) →
      ∀ d ∈ (((s.SetEventHandlerObj h p2).SetEventHandlerFn f p1).after cs).deliveries raw now,
        d.2.2.user_parameter = p1) := by
  constructor
  · intro s f h p1 p2 cs raw now hcs d hd
    rw [AgileButton.deliveries_user_parameter _ raw now d hd,
      AgileButton.after_user_parameter cs _ hcs]
    rfl
  · intro s f h p1 p2 cs raw now hcs d hd
    rw [AgileButton.deliveries_user_parameter _ raw now d hd,
      AgileButton.after_user_parameter cs _ hcs]
    rfl

/-- C21 (amended) at a concrete input: function handler 7 registered with
parameter 1, then object handler 8 with parameter 2, then one tick; the
ButtonDown of the next tick reaches the function handler with parameter 2. -/
theorem C21_one_user_parameter_for_both_handlers_witness :
    (∀ c ∈ AgileButton.ticks [(LOW, 0)], c.isSetEventHandler = false) ∧
      (AgileButton.Sink.function, 7, (⟨EventType.kButtonDown, 2, none⟩ : Event)) ∈
        ((((AgileButton.new 2 LOW).SetEventHandlerFn (some 7) 1).SetEventHandlerObj (some 8)
          2).after (AgileButton.ticks [(LOW, 0)])).deliveries LOW 50 ∧
      ((AgileButton.Sink.function, 7, (⟨EventType.kButtonDown, 2, none⟩ : Event)) :
        AgileButton.Sink × Nat × Event).2.2.user_parameter = 2 :=
  ⟨by decide, by decide,
    C21_one_user_parameter_for_both_handlers.1 (AgileButton.new 2 LOW) (some 7) (some 8) 1 2
      (AgileButton.ticks [(LOW, 0)]) LOW 50 (by decide)
      (AgileButton.Sink.function, 7, ⟨EventType.kButtonDown, 2, none⟩) (by decide)⟩

/-! ## The debounced level on consecutive ticks -/

/-- The debounce members after a tick of a `Button` are those left by
`Debounce`; the last raw level is the one just read. -/
theorem Button.tick_debounce_members (s : Button) (raw now : Nat) :
    (s.Tick raw now).1.last_debounced_pin_level_ =
        (s.Debounce (raw % 256) now).1.last_debounced_pin_level_ ∧
      (s.Tick raw now).1.last_pin_level_ = raw % 256 ∧
      (s.Tick raw now).1.active_level_ = s.active_level_ := by
  obtain ⟨f1, f2, f3, -, -⟩ := Button.step_frame (s.Debounce (raw % 256) now).1
    (decide ((s.Debounce (raw % 256) now).2 = s.active_level_)) now
  obtain ⟨-, -, -, -, eact, -, -⟩ := Button.Debounce_spec s (raw % 256) now
  have hpin : (s.Debounce (raw % 256) now).1.last_pin_level_ = raw % 256 := by
    unfold Button.Debounce
    split_ifs with h1 h2
    · exact h1.symm
    · exact h1.symm
    · rfl
  unfold Button.Tick
  simp only
  exact ⟨f3, by rw [f2, hpin], by rw [f1, eact]⟩

/-- A tick of a `Button` that changes the debounced level leaves it equal to
the last raw level. -/
theorem Button.tick_changed_synced (s : Button) (raw now : Nat)
    (h : (s.Tick raw now).1.last_debounced_pin_level_ ≠ s.last_debounced_pin_level_) :
    (s.Tick raw now).1.last_debounced_pin_level_ = (s.Tick raw now).1.last_pin_level_ := by
  obtain ⟨t1, t2, -⟩ := Button.tick_debounce_members s raw now
  obtain ⟨-, -, -, -, -, echg, -⟩ := Button.Debounce_spec s (raw % 256) now
  have hpin : (s.Debounce (raw % 256) now).1.last_pin_level_ = raw % 256 := by
    unfold Button.Debounce
    split_ifs with h1 h2
    · exact h1.symm
    · exact h1.symm
    · rfl
  rw [t1] at h ⊢
  rw [t2]
  rcases echg with hc | hc
  · exact absurd hc h
  · rw [hc, hpin]

/-- A tick of a `Button` whose debounced level equals the last raw level does
not change the debounced level, and the state machine sees that level. -/
theorem Button.tick_synced_unchanged (s : Button) (raw now : Nat)
    (h : s.last_debounced_pin_level_ = s.last_pin_level_) :
    (s.Tick raw now).1.last_debounced_pin_level_ = s.last_debounced_pin_level_ ∧
      (s.Debounce (raw % 256) now).2 = s.last_debounced_pin_level_ := by
  obtain ⟨t1, -, -⟩ := Button.tick_debounce_members s raw now
  obtain ⟨e2, -, -, -, -, -, esync⟩ := Button.Debounce_spec s (raw % 256) now
  exact ⟨by rw [t1, esync h], by rw [e2, esync h]⟩

/-- Calls other than `Tick` write none of the runtime members of a `Button`,
whatever the stored configuration. -/
theorem Button.after_runtime_eq (cfg : List Button.Call) (s : Button)
    (hcfg : ∀ c ∈ cfg, c.isTick = false) : (s.after cfg).runtime = s.runtime := by
  induction cfg generalizing s with
  | nil => rfl
  | cons c cfg ih =>
    rw [Button.after, ih _ (fun c1 hc1 => hcfg c1 (List.mem_cons_of_mem _ hc1))]
    exact (Button.call_runtime s c (hcfg c (List.mem_cons_self _ _))).1

theorem Button.after_config_levels (cfg : List Button.Call) (s : Button)
    (hcfg : ∀ c ∈ cfg, c.isTick = false) :
    (s.after cfg).active_level_ = s.active_level_ ∧
      (s.after cfg).last_pin_level_ = s.last_pin_level_ ∧
      (s.after cfg).last_debounced_pin_level_ = s.last_debounced_pin_level_ := by
  have h := Button.after_runtime_eq cfg s hcfg
  simp only [Button.runtime, Prod.mk.injEq] at h
  exact ⟨h.1, h.2.2.2.2.2.2.1, h.2.2.2.2.2.2.2.1⟩

theorem Button.step_pressedInv (d : Button) (a : Bool) (now : Nat)
    (ha : a = decide (d.last_debounced_pin_level_ = d.active_level_)) :
    (d.step a now).1.PressedInv := by
  unfold Button.PressedInv Button.step
  rcases hs : d.state_ <;> simp only [hs] <;> cases a <;>
    (try simp only [Bool.not_true, Bool.not_false, Bool.true_and, Bool.false_eq_true, if_true,
      if_false]) <;>
    (try split_ifs) <;> simp_all

theorem Button.call_pressedInv (s : Button) (c : Button.Call) (h : s.PressedInv) :
    (s.call c).1.PressedInv := by
  cases c with
  | Tick raw now =>
    obtain ⟨e2, -, -, -, eact, -, -⟩ := Button.Debounce_spec s (raw % 256) now
    simp only [Button.call, Button.Tick]
    exact Button.step_pressedInv _ _ now (by rw [e2, eact])
  | _ => exact h

theorem Button.after_pressedInv (cs : List Button.Call) (s : Button) (h : s.PressedInv) :
    (s.after cs).PressedInv := by
  induction cs generalizing s with
  | nil => exact h
  | cons c cs ih => exact ih _ (Button.call_pressedInv s c h)

/-- A step of the `Button` state machine that emits ButtonUp starts in Down or
LongPress and sees the level inactive. -/
theorem Button.step_buttonUp (d : Button) (a : Bool) (now : Nat)
    (hup : EventType.kButtonUp ∈ (d.step a now).2.map Button.Emit.kind) :
    (d.state_ = State.kDown ∨ d.state_ = State.kLongPress) ∧ a = false := by
  revert hup
  unfold Button.step
  rcases hs : d.state_ <;> simp only [hs] <;> cases a <;>
    (try simp only [Bool.not_true, Bool.not_false, Bool.true_and, Bool.false_eq_true, if_true,
      if_false]) <;>
    (try split_ifs) <;> simp

/-- In a run of a `Button`, the tick after a tick that emitted ButtonUp (with
any reconfiguration in between) sees the debounced level inactive. -/
theorem Button.after_buttonUp_inactive (s : Button) (hinv : s.PressedInv) (raw now : Nat)
    (cfg : List Button.Call) (raw2 now2 : Nat) (hcfg : ∀ c ∈ cfg, c.isTick = false)
    (hup : EventType.kButtonUp ∈ (s.Tick raw now).2.map Button.Emit.kind) :
    decide ((((s.Tick raw now).1.after cfg).Debounce (raw2 % 256) now2).2 =
      ((s.Tick raw now).1.after cfg).active_level_) = false := by
  obtain ⟨e2, est, -, -, eact, -, -⟩ := Button.Debounce_spec s (raw % 256) now
  obtain ⟨t1, -, t3⟩ := Button.tick_debounce_members s raw now
  have hup1 := hup
  unfold Button.Tick at hup1
  simp only at hup1
  obtain ⟨hst, ha⟩ := Button.step_buttonUp _ _ now hup1
  rw [est] at hst
  have hold := hinv hst
  have hne : (s.Tick raw now).1.last_debounced_pin_level_ ≠ s.active_level_ := by
    rw [t1, ← e2]
    simpa using ha
  have hchg : (s.Tick raw now).1.last_debounced_pin_level_ ≠ s.last_debounced_pin_level_ := by
    rw [hold]
    exact hne
  have hsync := Button.tick_changed_synced s raw now hchg
  obtain ⟨c1, c2, c3⟩ := Button.after_config_levels cfg (s.Tick raw now).1 hcfg
  have hsync2 : ((s.Tick raw now).1.after cfg).last_debounced_pin_level_ =
      ((s.Tick raw now).1.after cfg).last_pin_level_ := by
    rw [c2, c3]
    exact hsync
  obtain ⟨-, hsee⟩ := Button.tick_synced_unchanged _ raw2 now2 hsync2
  rw [hsee, c3, c1, t3]
  simpa using hne

/-- The debounce members after a tick of an `AgileButton` are those left by
the debouncing block; `debouncing_value_` is the activeness just read. -/
theorem AgileButton.agile_tick_debounce_members (s : AgileButton) (raw now : Nat) :
    (s.Tick raw now).1.active_ = (s.debounce raw now).active_ ∧
      (s.Tick raw now).1.debouncing_value_ = decide (raw = s.active_level_) ∧
      (s.Tick raw now).1.active_level_ = s.active_level_ := by
  obtain ⟨f1, f2, f3, -, -⟩ := AgileButton.agile_step_frame (s.debounce raw now) now
  have hd : (s.debounce raw now).debouncing_value_ = decide (raw = s.active_level_) ∧
      (s.debounce raw now).active_level_ = s.active_level_ := by
    unfold AgileButton.debounce
    split_ifs with h1 h2
    · exact ⟨h1.symm, rfl⟩
    · exact ⟨h1.symm, rfl⟩
    · refine ⟨?_, rfl⟩
      show (!s.debouncing_value_) = decide (raw = s.active_level_)
      cases hv : s.debouncing_value_ <;> cases hr : decide (raw = s.active_level_) <;>
        simp_all
  unfold AgileButton.Tick
  exact ⟨f3, by rw [f2, hd.1], by rw [f1, hd.2]⟩

/-- A tick of an `AgileButton` that changes `active_` leaves it equal to
`debouncing_value_`. -/
theorem AgileButton.agile_tick_changed_synced (s : AgileButton) (raw now : Nat)
    (h : (s.Tick raw now).1.active_ ≠ s.active_) :
    (s.Tick raw now).1.active_ = (s.Tick raw now).1.debouncing_value_ := by
  obtain ⟨f1, f2, f3, -, -⟩ := AgileButton.agile_step_frame (s.debounce raw now) now
  obtain ⟨-, -, -, echg, -⟩ := AgileButton.debounce_spec s raw now
  unfold AgileButton.Tick at h ⊢
  rw [f3] at h ⊢
  rw [f2]
  rcases echg with hc | hc
  · exact absurd hc h
  · exact hc

/-- A tick of an `AgileButton` whose `active_` equals `debouncing_value_` does
not change `active_`, and the state machine sees that value. -/
theorem AgileButton.agile_tick_synced_unchanged (s : AgileButton) (raw now : Nat)
    (h : s.active_ = s.debouncing_value_) :
    (s.Tick raw now).1.active_ = s.active_ ∧ (s.debounce raw now).active_ = s.active_ := by
  obtain ⟨t1, -, -⟩ := AgileButton.agile_tick_debounce_members s raw now
  obtain ⟨-, -, -, -, esync⟩ := AgileButton.debounce_spec s raw now
  exact ⟨by rw [t1, esync h], esync h⟩

/-- Calls other than `Tick` write none of the runtime members of an
`AgileButton`, whatever the stored configuration. -/
theorem AgileButton.agile_after_runtime_eq (cfg : List AgileButton.Call) (s : AgileButton)
    (hcfg : ∀ c ∈ cfg, c.isTick = false) : (s.after cfg).runtime = s.runtime := by
  induction cfg generalizing s with
  | nil => rfl
  | cons c cfg ih =>
    rw [AgileButton.after, ih _ (fun c1 hc1 => hcfg c1 (List.mem_cons_of_mem _ hc1))]
    exact (AgileButton.agile_call_runtime s c (hcfg c (List.mem_cons_self _ _))).1

theorem AgileButton.agile_after_config_levels (cfg : List AgileButton.Call) (s : AgileButton)
    (hcfg : ∀ c ∈ cfg, c.isTick = false) :
    (s.after cfg).active_level_ = s.active_level_ ∧
      (s.after cfg).debouncing_value_ = s.debouncing_value_ ∧
      (s.after cfg).active_ = s.active_ := by
  have h := AgileButton.agile_after_runtime_eq cfg s hcfg
  simp only [AgileButton.runtime, Prod.mk.injEq] at h
  exact ⟨h.1, h.2.2.2.2.2.2.1, h.2.2.2.2.2.2.2.1⟩

theorem AgileButton.agile_step_pressedInv (d : AgileButton) (now : Nat) :
    (d.step now).1.PressedInv := by
  unfold AgileButton.PressedInv AgileButton.step
  rcases hs : d.state_ <;> simp only [hs] <;> rcases ha : d.active_ <;>
    (try simp only [Bool.not_true, Bool.not_false, Bool.true_and, Bool.false_eq_true, if_true,
      if_false]) <;>
    (try split_ifs) <;> simp_all

theorem AgileButton.agile_call_pressedInv (s : AgileButton) (c : AgileButton.Call)
    (h : s.PressedInv) : (s.call c).1.PressedInv := by
  cases c with
  | Tick raw now => exact AgileButton.agile_step_pressedInv _ now
  | _ => exact h

theorem AgileButton.agile_after_pressedInv (cs : List AgileButton.Call) (s : AgileButton)
    (h : s.PressedInv) : (s.after cs).PressedInv := by
  induction cs generalizing s with
  | nil => exact h
  | cons c cs ih => exact ih _ (AgileButton.agile_call_pressedInv s c h)

/-- A step of the `AgileButton` state machine that emits ButtonUp starts in
Down or LongPress and sees `active_` unset. -/
theorem AgileButton.agile_step_buttonUp (d : AgileButton) (now : Nat)
    (hup : EventType.kButtonUp ∈ (d.step now).2.map Event.event_type) :
    (d.state_ = State.kDown ∨ d.state_ = State.kLongPress) ∧ d.active_ = false := by
  revert hup
  unfold AgileButton.step
  rcases hs : d.state_ <;> simp only [hs] <;> rcases ha : d.active_ <;>
    (try simp only [Bool.not_true, Bool.not_false, Bool.true_and, Bool.false_eq_true, if_true,
      if_false]) <;>
    (try split_ifs) <;> simp

/-- In a run of an `AgileButton`, the tick after a tick that emitted ButtonUp
(with any reconfiguration in between) sees the debounced level inactive. -/
theorem AgileButton.agile_after_buttonUp_inactive (s : AgileButton) (hinv : s.PressedInv)
    (raw now : Nat) (cfg : List AgileButton.Call) (raw2 now2 : Nat)
    (hcfg : ∀ c ∈ cfg, c.isTick = false)
    (hup : EventType.kButtonUp ∈ (s.Tick raw now).2.map Event.event_type) :
    (((s.Tick raw now).1.after cfg).debounce raw2 now2).active_ = false := by
  obtain ⟨est, -, -, -, -⟩ := AgileButton.debounce_spec s raw now
  obtain ⟨t1, -, -⟩ := AgileButton.agile_tick_debounce_members s raw now
  have hup1 := hup
  unfold AgileButton.Tick at hup1
  obtain ⟨hst, ha⟩ := AgileButton.agile_step_buttonUp _ now hup1
  rw [est] at hst
  have hold := hinv hst
  have hnew : (s.Tick raw now).1.active_ = false := by rw [t1]; exact ha
  have hchg : (s.Tick raw now).1.active_ ≠ s.active_ := by
    rw [hnew, hold]
    decide
  have hsync := AgileButton.agile_tick_changed_synced s raw now hchg
  obtain ⟨-, c2, c3⟩ := AgileButton.agile_after_config_levels cfg (s.Tick raw now).1 hcfg
  have hsync2 : ((s.Tick raw now).1.after cfg).active_ =
      ((s.Tick raw now).1.after cfg).debouncing_value_ := by
    rw [c2, c3]
    exact hsync
  obtain ⟨-, hsee⟩ := AgileButton.agile_tick_synced_unchanged _ raw2 now2 hsync2
  rw [hsee, c3]
  exact hnew

/-- C22. The debounced level never changes on two consecutive ticks, for
`Button` (level `last_debounced_pin_level_`) and for `AgileButton` (value
`active_`): for every object, every two ticks with arbitrary raw levels and
times, and any calls other than `Tick` between them (a change of the debounce
duration included), if the first tick changed the debounced level then the
second leaves it as it is. A tick whose raw level differs from the one read on
the previous tick (stored in `last_pin_level_`, respectively as activeness in
`debouncing_value_`) leaves the debounced level unchanged, so a change of the
raw level needs at least two ticks to reach the state machine. And in every run
from a freshly constructed object, the tick that follows a tick emitting
ButtonUp sees the debounced level inactive. -/
theorem C22_no_change_on_consecutive_ticks :
    (∀ (s : Button) (raw1 now1 : Nat) (cfg : List Button.Call) (raw2 now2 : Nat),
      (∀ c ∈ cfg, c.isTick = false) →
      (s.Tick raw1 now1).1.last_debounced_pin_level_ ≠ s.last_debounced_pin_level_ →
      (((s.Tick raw1 now1).1.after cfg).Tick raw2 now2).1.last_debounced_pin_level_ =
        (s.Tick raw1 now1).1.last_debounced_pin_level_) ∧
    (∀ (s : AgileButton) (raw1 now1 : Nat) (cfg : List AgileButton.Call) (raw2 now2 : Nat),
      (∀ c ∈ cfg, c.isTick = false) →
      (s.Tick raw1 now1).1.active_ ≠ s.active_ →
      (((s.Tick raw1 now1).1.after cfg).Tick raw2 now2).1.active_ =
        (s.Tick raw1 now1).1.active_) ∧
    (∀ (s : Button) (raw now : Nat),
      (s.Tick raw now).1.last_pin_level_ = raw % 256 ∧
        (raw % 256 ≠ s.last_pin_level_ →
          (s.Tick raw now).1.last_debounced_pin_level_ = s.last_debounced_pin_level_)) ∧
    (∀ (s : AgileButton) (raw now : Nat),
      (s.Tick raw now).1.debouncing_value_ = decide (raw = s.active_level_) ∧
        (decide (raw = s.active_level_) ≠ s.debouncing_value_ →
          (s.Tick raw now).1.active_ = s.active_)) ∧
    (∀ (pin active_level : Nat) (cs : List Button.Call) (raw now : Nat)
        (cfg : List Button.Call) (raw2 now2 : Nat),
      (∀ c ∈ cfg, c.isTick = false) →
      EventType.kButtonUp ∈
        (((Button.new pin active_level).after cs).Tick raw now).2.map Button.Emit.kind →
      decide ((((((Button.new pin active_level).after cs).Tick raw now).1.after cfg).Debounce
          (raw2 % 256) now2).2 =
        ((((Button.new pin active_level).after cs).Tick raw now).1.after cfg).active_level_) =
          false) ∧
    (∀ (pin active_level : Nat) (cs : List AgileButton.Call) (raw now : Nat)
        (cfg : List AgileButton.Call) (raw2 now2 : Nat),
      (∀ c ∈ cfg, c.isTick = false) →
      EventType.kButtonUp ∈
        (((AgileButton.new pin active_level).after cs).Tick raw now).2.map Event.event_type →
      (((((AgileButton.new pin active_level).after cs).Tick raw now).1.after cfg).debounce
        raw2 now2).active_ = false) := by
  refine ⟨?_, ?_, ?_, ?_, ?_, ?_⟩
  · intro s raw1 now1 cfg raw2 now2 hcfg hchg
    have hsync := Button.tick_changed_synced s raw1 now1 hchg
    obtain ⟨-, c2, c3⟩ := Button.after_config_levels cfg (s.Tick raw1 now1).1 hcfg
    have hsync2 : ((s.Tick raw1 now1).1.after cfg).last_debounced_pin_level_ =
        ((s.Tick raw1 now1).1.after cfg).last_pin_level_ := by
      rw [c2, c3]
      exact hsync
    rw [(Button.tick_synced_unchanged _ raw2 now2 hsync2).1, c3]
  · intro s raw1 now1 cfg raw2 now2 hcfg hchg
    have hsync := AgileButton.agile_tick_changed_synced s raw1 now1 hchg
    obtain ⟨-, c2, c3⟩ := AgileButton.agile_after_config_levels cfg (s.Tick raw1 now1).1 hcfg
    have hsync2 : ((s.Tick raw1 now1).1.after cfg).active_ =
        ((s.Tick raw1 now1).1.after cfg).debouncing_value_ := by
      rw [c2, c3]
      exact hsync
    rw [(AgileButton.agile_tick_synced_unchanged _ raw2 now2 hsync2).1, c3]
  · intro s raw now
    obtain ⟨t1, t2, -⟩ := Button.tick_debounce_members s raw now
    refine ⟨t2, fun hne => ?_⟩
    rw [t1]
    unfold Button.Debounce
    rw [if_neg hne]
  · intro s raw now
    obtain ⟨t1, t2, -⟩ := AgileButton.agile_tick_debounce_members s raw now
    refine ⟨t2, fun hne => ?_⟩
    rw [t1]
    unfold AgileButton.debounce
    rw [if_neg hne]
  · intro pin active_level cs raw now cfg raw2 now2 hcfg hup
    have hinv := Button.after_pressedInv cs (Button.new pin active_level)
      (fun h => by rcases h with h | h <;> simp [Button.new] at h)
    exact Button.after_buttonUp_inactive _ hinv raw now cfg raw2 now2 hcfg hup
  · intro pin active_level cs raw now cfg raw2 now2 hcfg hup
    have hinv := AgileButton.agile_after_pressedInv cs (AgileButton.new pin active_level)
      (fun h => by rcases h with h | h <;> simp [AgileButton.new] at h)
    exact AgileButton.agile_after_buttonUp_inactive _ hinv raw now cfg raw2 now2 hcfg hup

/-- C22 at concrete inputs: a `Button` whose debounced level becomes active at
time 50 keeps it on the next tick, although the duration is set to 0 in
between; and after the ButtonUp of a click at 150 the next tick, at the same
millisecond with the raw level active again and the duration set to 0, sees
the level inactive. -/
theorem C22_no_change_on_consecutive_ticks_witness :
    ((∀ c ∈ [Button.Call.SetDebounceDuration 0], c.isTick = false) ∧
      (Button.sampleDebouncing.Tick LOW 50).1.last_debounced_pin_level_ ≠
        Button.sampleDebouncing.last_debounced_pin_level_ ∧
      (((Button.sampleDebouncing.Tick LOW 50).1.after
          [Button.Call.SetDebounceDuration 0]).Tick HIGH 50).1.last_debounced_pin_level_ =
        (Button.sampleDebouncing.Tick LOW 50).1.last_debounced_pin_level_) ∧
    (EventType.kButtonUp ∈
        (((Button.new 2 LOW).after
          (Button.ticks [(LOW, 0), (LOW, 50), (HIGH, 100)])).Tick HIGH 150).2.map
            Button.Emit.kind ∧
      decide ((((((Button.new 2 LOW).after
          (Button.ticks [(LOW, 0), (LOW, 50), (HIGH, 100)])).Tick HIGH 150).1.after
            [Button.Call.SetDebounceDuration 0]).Debounce (LOW % 256) 150).2 =
        ((((Button.new 2 LOW).after
          (Button.ticks [(LOW, 0), (LOW, 50), (HIGH, 100)])).Tick HIGH 150).1.after
            [Button.Call.SetDebounceDuration 0]).active_level_) = false) :=
  ⟨⟨by decide, by decide,
      C22_no_change_on_consecutive_ticks.1 Button.sampleDebouncing LOW 50
        [Button.Call.SetDebounceDuration 0] HIGH 50 (by decide) (by decide)⟩,
   ⟨by decide,
      C22_no_change_on_consecutive_ticks.2.2.2.2.1 2 LOW
        (Button.ticks [(LOW, 0), (LOW, 50), (HIGH, 100)]) HIGH 150
        [Button.Call.SetDebounceDuration 0] LOW 150 (by decide) (by decide)⟩⟩

end EmakefunButton
